import Mathlib

/-!
# Trivance: ternary ring AllReduce state machine

A shallow embedding of `Trivance.cc` / `Trivance.hh`
(`astra-sim/system/astraccl/native_collectives/collective_algorithm`).

Conventions of the embedding.

* `uint64_t` values are natural numbers; every `uint64_t` operation that can
  leave the range is reduced modulo `2^64` explicitly (`U64`).
* `int`, `long` and `long long` values are integers.  The sums of `int`s that
  `insert_packet` takes of `id`, `(int)distance` and `nodes_in_ring` leave the
  `int` range on rings of more than `2^30` nodes; they are reduced to 32 bits
  in two's complement (`wrap32`), which is what the compiled code does.  The
  counters (`step`, `stream_count`, the packet counts) are only ever changed
  by one per event and are kept unreduced.  The conversion `(int)distance` is
  modelled exactly (`toInt32`), and `%` on signed operands is the truncating
  remainder `Int.tmod`; a remainder by 0, or of `INT_MIN` by -1, where the
  source traps, has no value (`int_rem`).
* The collaborators the algorithm talks to (the stream, the memory bus that
  receives packet bundles, the front end that receives sends, the scheduler
  that is told to proceed) are part of the state as an explicit lifecycle
  state and explicit output traces.
-/

namespace Trivance

/-- The modulus of `uint64_t` arithmetic. -/
def U64 : Nat := 2 ^ 64

/-- The conversion `(int)x` of a `uint64_t` value: the low 32 bits, read as a
two's complement number. -/
def toInt32 (x : Nat) : Int :=
  if x % 2 ^ 32 < 2 ^ 31 then ((x % 2 ^ 32 : Nat) : Int)
  else ((x % 2 ^ 32 : Nat) : Int) - 2 ^ 32

/-- `ceil_div_u64` (Trivance.cc:16-18): `(b == 0) ? a : (a + b - 1) / b`, the
sum and difference being taken in `uint64_t`. -/
def ceil_div_u64 (a b : Nat) : Nat :=
  if b = 0 then a else ((a + b - 1) % U64) / b

/-- The `while (reach < n)` loop of `ceil_log3` (Trivance.cc:24-27), bounded by
a fuel argument; when the fuel is spent the current count is returned. -/
def ceil_log3_loop (n : Int) : Nat → Int → Int → Int
  | 0, _, steps => steps
  | fuel + 1, reach, steps =>
    if reach < n then ceil_log3_loop n fuel (reach * 3) (steps + 1) else steps

/-- `ceil_log3` (Trivance.cc:20-29).  The loop is given `n` units of fuel,
which it never exhausts (`ceil_log3_loop_fuel`). -/
def ceil_log3 (n : Int) : Int :=
  if n ≤ 1 then 0 else ceil_log3_loop n n.toNat 1 0

/-- `Trivance::Phase` (Trivance.hh:68). -/
inductive Phase where
  | ReduceScatter
  | AllGather
  deriving DecidableEq, Repr

/-- The events `Trivance::run` distinguishes; `Other` stands for every event
type that `run` lets fall through. -/
inductive EventType where
  | General
  | StreamInit
  | PacketReceived
  | Other
  deriving DecidableEq, Repr

/-- Modelled from the spec: the lifecycle states of the collaborator session
(`StreamState`, whose declaration is not among the sources; section 5 of the
specification lists created/ready/executing/zombie/dead). -/
inductive StreamState where
  | Created
  | Ready
  | Executing
  | Zombie
  | Dead
  deriving DecidableEq, Repr

/-- `MemBus::Transmition`, as far as the constructor uses it. -/
inductive Transmition where
  | Fast
  | Usual
  deriving DecidableEq, Repr

/-- The part of `MyPacket` that `insert_packet` fills in
(`MyPacket(send_size, queue_id, partner, partner)`). -/
structure MyPacket where
  msg_size : Nat
  preferred_src : Int
  preferred_dest : Int
  deriving DecidableEq, Repr

/-- One `PacketBundle` handed to the memory bus by `release_packets`. -/
structure PacketBundle where
  locked_packets : List MyPacket
  processed : Bool
  send_back : Bool
  size : Nat
  transmition : Transmition
  to_MA : Bool
  deriving DecidableEq, Repr

/-- One `front_end_sim_send` / `front_end_sim_recv` pair issued by `ready`. -/
structure SendRecv where
  srcRank : Int
  dstRank : Int
  msg_size : Nat
  recv_src : Int
  deriving DecidableEq, Repr

/-- The fields of a `Trivance` instance (Trivance.hh:39-83) together with the
observable state of its collaborators: `stream_state` is `stream->state`,
`bundles` the packet bundles sent so far, `sends` the send/receive pairs
issued so far and `exits` the number of calls of
`proceed_to_next_vnet_baseline`. -/
structure State where
  transmition : Transmition
  zero_latency_packets : Int
  non_zero_latency_packets : Int
  id : Int
  nodes_in_ring : Int
  stream_count : Int
  max_count : Int
  remained_packets_per_max_count : Int
  remained_packets_per_message : Int
  parallel_reduce : Int
  packets : List MyPacket
  locked_packets : List MyPacket
  free_packets : Int
  total_packets_sent : Int
  total_packets_received : Int
  processed : Bool
  send_back : Bool
  NPU_to_MA : Bool
  phase : Phase
  steps_total : Int
  step : Int
  distance : Nat
  recv_in_step : Int
  dir_toggle : Int
  done : Bool
  drain_injected : Bool
  total_size : Nat
  cur_size : Nat
  bundle_size : Nat
  stream_state : StreamState
  bundles : List PacketBundle
  sends : List SendRecv
  exits : Nat

/-- `Trivance::Trivance` (Trivance.cc:31-96) for `comType == All_Reduce`, the
only collective type for which the constructor returns.  `local_dim` is
`ring_topology->get_dimension() == Local`, `nodes_in_ring` is
`ring_topology->get_nodes_in_ring()`, and `st` is the state of the stream the
instance is attached to. -/
def construct (id : Int) (nodes_in_ring : Int) (local_dim : Bool) (data_size : Nat)
    (st : StreamState) : State :=
  { transmition := if local_dim then Transmition.Fast else Transmition.Usual
    zero_latency_packets := 0
    non_zero_latency_packets := 0
    id := id
    nodes_in_ring := nodes_in_ring
    stream_count := 4 * ceil_log3 nodes_in_ring
    max_count := 4 * ceil_log3 nodes_in_ring
    remained_packets_per_max_count := 1
    remained_packets_per_message := 1
    parallel_reduce := 2
    packets := []
    locked_packets := []
    free_packets := 0
    total_packets_sent := 0
    total_packets_received := 0
    processed := true
    send_back := false
    NPU_to_MA := true
    phase := Phase.ReduceScatter
    steps_total := ceil_log3 nodes_in_ring
    step := 0
    distance := 1
    recv_in_step := 0
    dir_toggle := 0
    done := decide (ceil_log3 nodes_in_ring = 0)
    drain_injected := false
    total_size := data_size
    cur_size := data_size
    bundle_size := data_size
    stream_state := st
    bundles := []
    sends := []
    exits := 0 }

/-- `Trivance::release_packets` (Trivance.cc:206-219). -/
def release_packets (s : State) : State :=
  if s.locked_packets.isEmpty then s
  else
    { s with
      bundles := s.bundles ++
        [{ locked_packets := s.locked_packets, processed := s.processed,
           send_back := s.send_back, size := s.bundle_size,
           transmition := s.transmition, to_MA := s.NPU_to_MA }]
      locked_packets := [] }

/-- `Trivance::process_stream_count` (Trivance.cc:225-237). -/
def process_stream_count (s : State) : State :=
  let s1 := if s.remained_packets_per_message > 0
    then { s with remained_packets_per_message := s.remained_packets_per_message - 1 }
    else s
  let s2 := if s1.remained_packets_per_message = 0 ∧ s1.stream_count > 0
    then
      let t := { s1 with stream_count := s1.stream_count - 1 }
      if t.stream_count > 0 then { t with remained_packets_per_message := 1 } else t
    else s1
  if s2.remained_packets_per_message = 0 ∧ s2.stream_count = 0 ∧
      s2.stream_state ≠ StreamState.Dead
  then { s2 with stream_state := StreamState.Zombie }
  else s2

/-- The value of an `int` expression: the low 32 bits of the mathematical
result, read as a two's complement number. -/
def wrap32 (x : Int) : Int :=
  (x + 2 ^ 31) % 2 ^ 32 - 2 ^ 31

/-- The value of `x % n` on `int` operands: the truncating remainder.  There is
none when `n` is 0, nor when `x` is `INT_MIN` and `n` is -1: the machine
division cannot be carried out there. -/
def int_rem (x n : Int) : Option Int :=
  if n = 0 ∨ (x = -2 ^ 31 ∧ n = -1) then none else some (Int.tmod x n)

/-- The partner chosen by `insert_packet` (Trivance.cc:241-246):
`(id + (int)distance) % nodes_in_ring` when the toggle is 0 and
`(id - (int)distance + nodes_in_ring) % nodes_in_ring` otherwise, every sum
taken in `int`; there is none where the remainder cannot be taken. -/
def partner (s : State) : Option Int :=
  if s.dir_toggle = 0 then
    int_rem (wrap32 (s.id + toInt32 s.distance)) s.nodes_in_ring
  else
    int_rem (wrap32 (wrap32 (s.id - toInt32 s.distance) + s.nodes_in_ring)) s.nodes_in_ring

/-- The payload size chosen by `insert_packet` (Trivance.cc:255-264). -/
def send_size (s : State) : Nat :=
  if s.done ∧ s.drain_injected then 0
  else if s.phase = Phase.ReduceScatter then ceil_div_u64 s.cur_size 3
  else s.cur_size

/-- `Trivance::insert_packet` (Trivance.cc:239-273).  Where the remainder
cannot be taken (a ring of 0 nodes) the source stops at the division; the
embedding goes on with rank 0 there. -/
def insert_packet (s : State) : State :=
  let p := (partner s).getD 0
  let s1 := { s with dir_toggle := Int.tmod (s.dir_toggle + 1) 2 }
  let sz := send_size s1
  let pkt : MyPacket := { msg_size := sz, preferred_src := p, preferred_dest := p }
  let s2 := { s1 with
    bundle_size := sz
    packets := s1.packets ++ [pkt]
    locked_packets := s1.locked_packets ++ [pkt] }
  release_packets s2

/-- The loop `for (int i = 0; i < parallel_reduce; i++) insert_packet(nullptr)`
with `k` iterations left. -/
def insert_packets : Nat → State → State
  | 0, s => s
  | k + 1, s => insert_packets k (insert_packet s)

/-- `Trivance::reduce` (Trivance.cc:313-318). -/
def reduce (s : State) : State :=
  let s1 := process_stream_count s
  { s1 with
    packets := s1.packets.tail
    free_packets := s1.free_packets - 1
    total_packets_sent := s1.total_packets_sent + 1 }

/-- `Trivance::ready` (Trivance.cc:275-311): the returned flag and the state
it leaves. -/
def ready (s : State) : Bool × State :=
  let s1 := if s.stream_state = StreamState.Created ∨ s.stream_state = StreamState.Ready
    then { s with stream_state := StreamState.Executing } else s
  if s1.stream_count = 0 then (false, s1)
  else
    match s1.packets with
    | [] => (false, s1)
    | packet :: _ =>
      if s1.free_packets = 0 then (false, s1)
      else
        let s2 := { s1 with
          sends := s1.sends ++
            [{ srcRank := s1.id, dstRank := packet.preferred_dest,
               msg_size := packet.msg_size, recv_src := packet.preferred_src }] }
        (true, reduce s2)

/-- `Trivance::exit` (Trivance.cc:328-333). -/
def exit (s : State) : State :=
  { s with packets := [], locked_packets := [], exits := s.exits + 1 }

/-- `Trivance::iteratable` (Trivance.cc:320-326): the returned flag and the
state it leaves. -/
def iteratable (s : State) : Bool × State :=
  if s.stream_count = 0 ∧ s.free_packets = s.parallel_reduce * 1 then (false, exit s)
  else (true, s)

/-- `std::max<uint64_t>(1, ceil_div_u64(cur_size, 3))` (Trivance.cc:146). -/
def shrink (cur_size : Nat) : Nat := max 1 (ceil_div_u64 cur_size 3)

/-- `std::min<uint64_t>(total_size, cur_size * 3)` (Trivance.cc:168). -/
def grow (total_size cur_size : Nat) : Nat := min total_size ((cur_size * 3) % U64)

/-- `Trivance::run` (Trivance.cc:106-204). -/
def run (s : State) (event : EventType) : State :=
  match event with
  | EventType.General =>
    let s1 := { s with free_packets := s.free_packets + 1 }
    let s2 := (ready s1).2
    (iteratable s2).2
  | EventType.StreamInit =>
    if s.done then
      (iteratable { s with stream_count := 0 }).2
    else
      let s1 := { s with
        phase := Phase.ReduceScatter
        processed := true
        step := 0
        distance := 1
        recv_in_step := 0
        dir_toggle := 0
        cur_size := s.total_size }
      insert_packets s1.parallel_reduce.toNat s1
  | EventType.PacketReceived =>
    let s1 := { s with
      total_packets_received := s.total_packets_received + 1
      recv_in_step := s.recv_in_step + 1 }
    if s1.recv_in_step = 2 then
      let s2 := { s1 with recv_in_step := 0 }
      if s2.phase = Phase.ReduceScatter then
        let s3 := { s2 with cur_size := shrink s2.cur_size, step := s2.step + 1 }
        let s5 :=
          if s3.step ≥ s3.steps_total then
            let s4 := { s3 with
              phase := Phase.AllGather
              processed := false
              step := 0
              distance := 1
              dir_toggle := 0 }
            insert_packets s4.parallel_reduce.toNat s4
          else
            let s4 := { s3 with distance := (s3.distance * 3) % U64, dir_toggle := 0 }
            insert_packets s4.parallel_reduce.toNat s4
        (iteratable s5).2
      else
        let s3 := { s2 with cur_size := grow s2.total_size s2.cur_size, step := s2.step + 1 }
        if s3.step ≥ s3.steps_total then
          let s4 := { s3 with done := true }
          let s5 :=
            if ¬ s4.drain_injected then
              let t := { s4 with drain_injected := true }
              let saved_cur := t.cur_size
              let t1 := { t with cur_size := 0, dir_toggle := 0 }
              let t2 := insert_packets t1.parallel_reduce.toNat t1
              { t2 with cur_size := saved_cur }
            else s4
          (iteratable s5).2
        else
          let s4 := { s3 with distance := (s3.distance * 3) % U64, dir_toggle := 0 }
          let s5 := insert_packets s4.parallel_reduce.toNat s4
          (iteratable s5).2
    else
      (iteratable s1).2
  | EventType.Other => s

/-- The state after delivering the events of `evs`, in order. -/
def runs (s : State) (evs : List EventType) : State :=
  evs.foldl run s

/-! ## Auxiliary definitions for the proofs -/

/-- The bundle `release_packets` sends for a single staged packet of size `sz`
addressed to `dest`, with the flags of state `s`. -/
def bundle_of (s : State) (sz : Nat) (dest : Int) : PacketBundle :=
  { locked_packets := [{ msg_size := sz, preferred_src := dest, preferred_dest := dest }]
    processed := s.processed
    send_back := s.send_back
    size := sz
    transmition := s.transmition
    to_MA := s.NPU_to_MA }

/-- The fields no event changes. -/
def Frame (s t : State) : Prop :=
  t.id = s.id ∧ t.nodes_in_ring = s.nodes_in_ring ∧ t.parallel_reduce = s.parallel_reduce ∧
  t.steps_total = s.steps_total ∧ t.total_size = s.total_size ∧ t.send_back = s.send_back ∧
  t.NPU_to_MA = s.NPU_to_MA ∧ t.transmition = s.transmition

/-- The fields of the phase/step controller and the bundle trace, all left
alone by flow-control work. -/
def SameCtl (s t : State) : Prop :=
  t.phase = s.phase ∧ t.step = s.step ∧ t.distance = s.distance ∧ t.cur_size = s.cur_size ∧
  t.done = s.done ∧ t.drain_injected = s.drain_injected ∧ t.processed = s.processed ∧
  t.dir_toggle = s.dir_toggle ∧ t.bundles = s.bundles ∧ t.bundle_size = s.bundle_size

/-- The rank `insert_packet` addresses from state `t` with the toggle at 0. -/
def dest_fwd (t : State) : Int :=
  (partner { t with dir_toggle := 0 }).getD 0

/-- The rank `insert_packet` addresses from state `t` with the toggle at 1. -/
def dest_bwd (t : State) : Int :=
  (partner { t with dir_toggle := 1 }).getD 0

/-- The two bundles one step sends: the first towards `id + distance`, the
second towards `id - distance`, both with the payload size of state `t`. -/
def pair_of (t : State) : List PacketBundle :=
  [bundle_of t (send_size t) (dest_fwd t), bundle_of t (send_size t) (dest_bwd t)]

/-- The controller fields after the second completion of a step. -/
def Advance (t : State) (ph : Phase) (st : Int) (d c : Nat) (dn dr pr : Bool) : Prop :=
  t.phase = ph ∧ t.step = st ∧ t.distance = d ∧ t.cur_size = c ∧ t.done = dn ∧
  t.drain_injected = dr ∧ t.processed = pr ∧ t.recv_in_step = 0

/-- The working size after `j` shrinks of a payload of `T` bytes. -/
def rs_size (T : Nat) (j : Nat) : Nat := shrink^[j] T

/-- A drain bundle: size 0, carrying only packets of size 0. -/
def IsDrain (b : PacketBundle) : Prop :=
  b.size = 0 ∧ ∀ p ∈ b.locked_packets, p.msg_size = 0

/-- The shape of the bundle trace: during reduce-scatter two `processed`
bundles per started step; during all-gather the `2 * K` reduce-scatter bundles
followed by two forward-only bundles per started step; once done, `2 * K`
bundles of either kind followed by the two drain bundles. -/
def Trace (K : Nat) (s : State) : Prop :=
  (s.phase = Phase.ReduceScatter →
    s.bundles.length = 2 * s.step.toNat + 2 ∧ ∀ b ∈ s.bundles, b.processed = true) ∧
  (s.phase = Phase.AllGather → s.done = false →
    ∃ rs ag, s.bundles = rs ++ ag ∧ rs.length = 2 * K ∧ (∀ b ∈ rs, b.processed = true) ∧
      ag.length = 2 * s.step.toNat + 2 ∧ ∀ b ∈ ag, b.processed = false) ∧
  (s.done = true →
    ∃ rs ag dr, s.bundles = rs ++ ag ++ dr ∧ rs.length = 2 * K ∧
      (∀ b ∈ rs, b.processed = true) ∧ ag.length = 2 * K ∧ (∀ b ∈ ag, b.processed = false) ∧
      dr.length = 2 ∧ ∀ b ∈ dr, IsDrain b)

/-- The working size along a run whose payload stays clear of the wrap-around. -/
def Sizes (K T : Nat) (s : State) : Prop :=
  (s.phase = Phase.ReduceScatter → s.cur_size = rs_size T s.step.toNat) ∧
  (s.phase = Phase.AllGather → s.done = false →
    min T (rs_size T (K - s.step.toNat)) ≤ s.cur_size ∧ s.cur_size ≤ max T 1) ∧
  (s.done = true → s.cur_size = T)

/-- The invariant of the states of a run that was started by `StreamInit` on a
ring with `K ≥ 1` steps and payload `T`. -/
def RunInv (K T : Nat) (s : State) : Prop :=
  s.locked_packets = [] ∧ s.parallel_reduce = 2 ∧ s.steps_total = K ∧ s.total_size = T ∧
  (s.recv_in_step = 0 ∨ s.recv_in_step = 1) ∧ s.drain_injected = s.done ∧ 0 ≤ s.step ∧
  (s.done = false → s.step < K) ∧
  (s.done = true → s.phase = Phase.AllGather ∧ (K : Int) ≤ s.step) ∧
  (s.phase = Phase.ReduceScatter →
    s.processed = true ∧ s.total_packets_received = 2 * s.step + s.recv_in_step) ∧
  (s.phase = Phase.AllGather →
    s.processed = false ∧ s.total_packets_received = 2 * (K + s.step) + s.recv_in_step) ∧
  Trace K s ∧ (3 * T < U64 → Sizes K T s)

/-- The events that follow `StreamInit` in the canonical schedule of a ring
with `k` steps per phase: for each of the `2 * k` steps two credit returns and
then two completions, and at the end the two credit returns of the drain. -/
def canonical_tail (k : Nat) : List EventType :=
  (List.replicate (2 * k)
    [EventType.General, EventType.General,
     EventType.PacketReceived, EventType.PacketReceived]).flatten ++
  [EventType.General, EventType.General]

/-- The canonical schedule: `StreamInit`, then `canonical_tail`. -/
def canonical_schedule (k : Nat) : List EventType :=
  EventType.StreamInit :: canonical_tail k

/-- What every event keeps true from construction on: nothing stays staged,
`parallel_reduce` is 2, and the per-step receive counter is 0 or 1. -/
def Wf (s : State) : Prop :=
  s.locked_packets = [] ∧ s.parallel_reduce = 2 ∧ (s.recv_in_step = 0 ∨ s.recv_in_step = 1)

/-- What every event keeps true on a ring of `n` nodes for participant `id`:
the distance is a power of 3 whose exponent is below `steps_total`, and it is
`3 ^ step` until the instance is done. -/
def DistInv (id n : Int) (s : State) : Prop :=
  s.locked_packets = [] ∧ s.parallel_reduce = 2 ∧ s.id = id ∧ s.nodes_in_ring = n ∧
  s.steps_total = ceil_log3 n ∧
  ∃ j : Nat, s.distance = 3 ^ j ∧ (j : Int) < s.steps_total ∧
    (s.done = false → s.step = j) ∧
    (s.done = true → s.phase = Phase.AllGather ∧ s.steps_total ≤ s.step)

/-- What every event keeps true from construction on about the drain: it is
injected only on a done instance, in all-gather, with all steps counted. -/
def DrainInv (s : State) : Prop :=
  s.locked_packets = [] ∧ s.parallel_reduce = 2 ∧
  (s.drain_injected = true →
    s.done = true ∧ s.phase = Phase.AllGather ∧ s.steps_total ≤ s.step)

/-- What every event keeps true from construction on about the scheduled
sends: `stream_count` is not negative and the per-message counter is 0 or 1. -/
def FlowInv (s : State) : Prop :=
  s.locked_packets = [] ∧ s.parallel_reduce = 2 ∧ 0 ≤ s.stream_count ∧
  (s.remained_packets_per_message = 0 ∨ s.remained_packets_per_message = 1)

/-- One round of the canonical schedule: two credit returns, then two
completions. -/
def canonical_round : List EventType :=
  [EventType.General, EventType.General,
   EventType.PacketReceived, EventType.PacketReceived]

/-- The state of the canonical schedule after `j` rounds: `2 * j` packets sent
and as many completed, no credit free, no release yet, and the two packets of
the latest bundles waiting in the queue. -/
def CanonInv (K T j : Nat) (s : State) : Prop :=
  RunInv K T s ∧ s.recv_in_step = 0 ∧ s.total_packets_received = 2 * j ∧
  s.total_packets_sent = 2 * j ∧ s.stream_count = 4 * (K : Int) - 2 * j ∧
  s.free_packets = 0 ∧ s.exits = 0 ∧
  (s.remained_packets_per_message = 0 ∨ s.remained_packets_per_message = 1) ∧
  ∃ p q : MyPacket, s.packets = [p, q] ∧ p.msg_size = send_size s ∧ q.msg_size = send_size s

/-- What every event keeps true from construction on about the working size:
nothing stays staged, `parallel_reduce` is 2, the receive counter is 0 or 1,
the step counter is not negative, and for a payload of `T ≥ 1` bytes the
working size is at most `T` and, in reduce-scatter, at least 1. -/
def SizeInv (T : Nat) (s : State) : Prop :=
  s.locked_packets = [] ∧ s.parallel_reduce = 2 ∧ s.total_size = T ∧
  (s.recv_in_step = 0 ∨ s.recv_in_step = 1) ∧ 0 ≤ s.step ∧
  (1 ≤ T → s.cur_size ≤ T ∧ (s.phase = Phase.ReduceScatter → 1 ≤ s.cur_size))

/-! ## `ceil_log3` -/

/-- The loop of `ceil_log3`, started at a positive `reach` with enough fuel to
cover the distance to `n`, adds the least exponent `j` with
`n ≤ reach * 3 ^ j` to the step count. -/
theorem ceil_log3_loop_spec (n : Int) :
    ∀ (fuel : Nat) (reach steps : Int), 1 ≤ reach → n ≤ reach + fuel →
      steps ≤ ceil_log3_loop n fuel reach steps ∧
      n ≤ reach * 3 ^ (ceil_log3_loop n fuel reach steps - steps).toNat ∧
      ∀ j : Nat, n ≤ reach * 3 ^ j →
        (ceil_log3_loop n fuel reach steps - steps).toNat ≤ j := by
  intro fuel
  induction fuel with
  | zero =>
    intro reach steps _ hn
    simp only [ceil_log3_loop]
    refine ⟨le_refl _, ?_, ?_⟩
    · simp at hn ⊢
      exact hn
    · intro j _
      simp
  | succ f ih =>
    intro reach steps hr hn
    simp only [ceil_log3_loop]
    by_cases hlt : reach < n
    · rw [if_pos hlt]
      have hn' : n ≤ reach * 3 + (f : Int) := by push_cast at hn; omega
      obtain ⟨h1, h2, h3⟩ := ih (reach * 3) (steps + 1) (by omega) hn'
      have hk : (ceil_log3_loop n f (reach * 3) (steps + 1) - steps).toNat =
          (ceil_log3_loop n f (reach * 3) (steps + 1) - (steps + 1)).toNat + 1 := by
        omega
      refine ⟨by omega, ?_, ?_⟩
      · rw [hk, pow_succ]
        calc n ≤ reach * 3 *
              3 ^ (ceil_log3_loop n f (reach * 3) (steps + 1) - (steps + 1)).toNat := h2
          _ = reach * (3 ^ (ceil_log3_loop n f (reach * 3) (steps + 1) -
                (steps + 1)).toNat * 3) := by ring
      · intro j hj
        cases j with
        | zero =>
          simp at hj
          omega
        | succ j' =>
          have hj' : n ≤ reach * 3 * 3 ^ j' := by
            rw [pow_succ] at hj
            calc n ≤ reach * (3 ^ j' * 3) := hj
              _ = reach * 3 * 3 ^ j' := by ring
          have := h3 j' hj'
          omega
    · rw [if_neg hlt]
      refine ⟨le_refl _, ?_, ?_⟩
      · simp
        omega
      · intro j _
        simp

/-- Fuel beyond the distance from `reach` to `n` does not change the result of
the loop: the bound `n` used by `ceil_log3` is never exhausted. -/
theorem ceil_log3_loop_fuel (n : Int) :
    ∀ (fuel extra : Nat) (reach steps : Int), 1 ≤ reach → n ≤ reach + fuel →
      ceil_log3_loop n (fuel + extra) reach steps = ceil_log3_loop n fuel reach steps := by
  intro fuel
  induction fuel with
  | zero =>
    intro extra reach steps _ hn
    have hnr : ¬ reach < n := by simp at hn; omega
    cases extra with
    | zero => rfl
    | succ e =>
      simp only [Nat.zero_add, ceil_log3_loop]
      rw [if_neg hnr]
  | succ f ih =>
    intro extra reach steps hr hn
    have e : f + 1 + extra = (f + extra) + 1 := by omega
    rw [e]
    simp only [ceil_log3_loop]
    by_cases hlt : reach < n
    · rw [if_pos hlt, if_pos hlt]
      exact ih extra (reach * 3) (steps + 1) (by omega) (by push_cast at hn; omega)
    · rw [if_neg hlt, if_neg hlt]

/-- The value of `ceil_log3` is the least exponent `k ≥ 0` with `n ≤ 3 ^ k`. -/
theorem ceil_log3_spec (n : Int) :
    0 ≤ ceil_log3 n ∧ n ≤ 3 ^ (ceil_log3 n).toNat ∧
      ∀ k : Nat, n ≤ 3 ^ k → (ceil_log3 n).toNat ≤ k := by
  unfold ceil_log3
  by_cases h : n ≤ 1
  · rw [if_pos h]
    refine ⟨le_refl _, by simpa using h, ?_⟩
    intro k _
    simp
  · rw [if_neg h]
    have hfuel : n ≤ 1 + ((n.toNat : Nat) : Int) := by
      rw [Int.toNat_of_nonneg (by omega)]
      omega
    obtain ⟨h1, h2, h3⟩ := ceil_log3_loop_spec n n.toNat 1 0 (le_refl _) hfuel
    simp only [sub_zero, one_mul] at h2 h3
    exact ⟨h1, h2, h3⟩

theorem ceil_log3_of_le_one (n : Int) (h : n ≤ 1) : ceil_log3 n = 0 := by
  unfold ceil_log3
  rw [if_pos h]

theorem ceil_log3_pos (n : Int) (h : 2 ≤ n) : 1 ≤ ceil_log3 n := by
  obtain ⟨h0, h1, _⟩ := ceil_log3_spec n
  by_contra hc
  have hz : ceil_log3 n = 0 := by omega
  rw [hz] at h1
  simp at h1
  omega

/-- C1: the step count fixed by the constructor is `ceil_log3(nodes_in_ring)`,
and for every ring size `n` this is the least `k ≥ 0` with `3 ^ k ≥ n`, that is
`ceil(log₃ n)` for `n ≥ 1`; it is `0` for every `n ≤ 1`, and the loop that
computes it returns (more fuel than `n` gives the same count). -/
theorem C1_steps_total_is_ceil_log3 (id n : Int) (local_dim : Bool) (data_size : Nat)
    (st : StreamState) :
    (construct id n local_dim data_size st).steps_total = ceil_log3 n ∧
    0 ≤ ceil_log3 n ∧
    n ≤ 3 ^ (ceil_log3 n).toNat ∧
    (∀ k : Nat, n ≤ 3 ^ k → (ceil_log3 n).toNat ≤ k) ∧
    (n ≤ 1 → ceil_log3 n = 0) ∧
    (1 < n → ∀ extra : Nat,
      ceil_log3_loop n (n.toNat + extra) 1 0 = ceil_log3 n) := by
  obtain ⟨h0, h1, h2⟩ := ceil_log3_spec n
  refine ⟨rfl, h0, h1, h2, ceil_log3_of_le_one n, ?_⟩
  intro hn extra
  have hfuel : n ≤ 1 + ((n.toNat : Nat) : Int) := by
    rw [Int.toNat_of_nonneg (by omega)]
    omega
  rw [ceil_log3_loop_fuel n n.toNat extra 1 0 (le_refl _) hfuel]
  unfold ceil_log3
  rw [if_neg (by omega)]

/-- C1 at ring sizes 1, 9 and 10: zero steps for one node, two steps for nine
nodes, and three steps for ten, none of which is reached by a smaller power. -/
theorem C1_steps_total_is_ceil_log3_witness :
    ceil_log3 1 = 0 ∧ ceil_log3 9 = 2 ∧
    (construct 0 10 false 2187 StreamState.Created).steps_total = 3 ∧
    (ceil_log3 10).toNat ≤ 3 ∧
    ceil_log3_loop 10 (Int.toNat 10 + 5) 1 0 = ceil_log3 10 :=
  ⟨(C1_steps_total_is_ceil_log3 0 1 false 0 StreamState.Created).2.2.2.2.1 (by decide),
   by decide, by decide,
   (C1_steps_total_is_ceil_log3 0 10 false 2187 StreamState.Created).2.2.2.1 3 (by decide),
   (C1_steps_total_is_ceil_log3 0 10 false 2187 StreamState.Created).2.2.2.2.2 (by decide) 5⟩

/-! ## Frame lemmas -/

/-- Two consecutive calls of `insert_packet`, started with nothing staged and
the toggle at 0, append `pair_of` to the bundle trace and the matching packets to
the queue, and leave the toggle at 0 again. -/
theorem insert_packets_two (s : State) (hl : s.locked_packets = []) (ht : s.dir_toggle = 0) :
    insert_packets 2 s =
      { s with
        dir_toggle := 0
        bundle_size := send_size s
        packets := s.packets ++
          [{ msg_size := send_size s, preferred_src := dest_fwd s,
             preferred_dest := dest_fwd s },
           { msg_size := send_size s, preferred_src := dest_bwd s,
             preferred_dest := dest_bwd s }]
        locked_packets := []
        bundles := s.bundles ++ pair_of s } := by
  cases s
  simp only at hl ht
  subst hl ht
  have h1 : Int.tmod 1 2 = 1 := by decide
  have h2 : Int.tmod (1 + 1) 2 = 0 := by decide
  simp [insert_packets, insert_packet, release_packets, send_size, bundle_of, pair_of,
    dest_fwd, dest_bwd, partner, h1, h2]

theorem iteratable_eq (s : State) :
    (iteratable s).2 =
      { s with packets := (iteratable s).2.packets,
               locked_packets := (iteratable s).2.locked_packets,
               exits := (iteratable s).2.exits } := by
  unfold iteratable
  split <;> rfl

theorem iteratable_locked (s : State) (h : s.locked_packets = []) :
    (iteratable s).2.locked_packets = [] := by
  unfold iteratable
  split
  · rfl
  · exact h

theorem process_stream_count_shape (s : State) :
    ∃ (r c : Int) (st : StreamState), process_stream_count s =
      { s with remained_packets_per_message := r, stream_count := c, stream_state := st } := by
  unfold process_stream_count
  simp only
  split_ifs <;> exact ⟨_, _, _, rfl⟩

theorem reduce_eq (s : State) :
    reduce s =
      { s with remained_packets_per_message := (reduce s).remained_packets_per_message,
               stream_count := (reduce s).stream_count,
               stream_state := (reduce s).stream_state,
               packets := (reduce s).packets,
               free_packets := (reduce s).free_packets,
               total_packets_sent := (reduce s).total_packets_sent } := by
  obtain ⟨r, c, st, h⟩ := process_stream_count_shape s
  unfold reduce
  simp only
  rw [h]

theorem ready_shape (s : State) :
    ∃ (r c f n : Int) (st : StreamState) (ps : List MyPacket) (sd : List SendRecv),
      (ready s).2 =
        { s with remained_packets_per_message := r, stream_count := c, stream_state := st,
                 packets := ps, sends := sd, free_packets := f, total_packets_sent := n } := by
  unfold ready
  simp only
  split_ifs <;> (try split) <;>
    first
    | exact ⟨_, _, _, _, _, _, _, rfl⟩
    | (rw [reduce_eq]; exact ⟨_, _, _, _, _, _, _, rfl⟩)

theorem ready_eq (s : State) :
    (ready s).2 =
      { s with remained_packets_per_message := (ready s).2.remained_packets_per_message,
               stream_count := (ready s).2.stream_count,
               stream_state := (ready s).2.stream_state,
               packets := (ready s).2.packets,
               sends := (ready s).2.sends,
               free_packets := (ready s).2.free_packets,
               total_packets_sent := (ready s).2.total_packets_sent } := by
  obtain ⟨r, c, f, n, st, ps, sd, h⟩ := ready_shape s
  rw [h]

/-- A credit-return event leaves the controller and the bundle trace alone. -/
theorem run_General (s : State) (hl : s.locked_packets = []) :
    Frame s (run s EventType.General) ∧ SameCtl s (run s EventType.General) ∧
    (run s EventType.General).recv_in_step = s.recv_in_step ∧
    (run s EventType.General).total_packets_received = s.total_packets_received ∧
    (run s EventType.General).locked_packets = [] := by
  have hlk : (run s EventType.General).locked_packets = [] := by
    unfold run
    simp only
    apply iteratable_locked
    rw [ready_eq]
    exact hl
  refine ⟨?_, ?_, ?_, ?_, hlk⟩ <;>
  · unfold run
    simp only
    rw [iteratable_eq, ready_eq] <;> simp [Frame, SameCtl]

/-- The effect of `StreamInit`: nothing but the terminal check when the
instance is done, otherwise a reset to step 0 of reduce-scatter and two
bundles. -/
theorem run_StreamInit (s : State) (hl : s.locked_packets = []) (hp : s.parallel_reduce = 2) :
    Frame s (run s EventType.StreamInit) ∧
    (run s EventType.StreamInit).locked_packets = [] ∧
    (run s EventType.StreamInit).total_packets_received = s.total_packets_received ∧
    ((s.done = true ∧ SameCtl s (run s EventType.StreamInit) ∧
        (run s EventType.StreamInit).recv_in_step = s.recv_in_step) ∨
     (s.done = false ∧ (run s EventType.StreamInit).done = false ∧
        (run s EventType.StreamInit).drain_injected = s.drain_injected ∧
        (run s EventType.StreamInit).phase = Phase.ReduceScatter ∧
        (run s EventType.StreamInit).step = 0 ∧
        (run s EventType.StreamInit).distance = 1 ∧
        (run s EventType.StreamInit).recv_in_step = 0 ∧
        (run s EventType.StreamInit).dir_toggle = 0 ∧
        (run s EventType.StreamInit).cur_size = s.total_size ∧
        (run s EventType.StreamInit).processed = true ∧
        (run s EventType.StreamInit).bundles =
          s.bundles ++ pair_of (run s EventType.StreamInit))) := by
  unfold run
  simp only
  by_cases hd : s.done = true
  · rw [if_pos hd, iteratable_eq]
    refine ⟨?_, ?_, ?_, Or.inl ⟨hd, ?_, ?_⟩⟩
    · simp [Frame]
    · exact iteratable_locked _ hl
    · simp
    · simp [SameCtl]
    · simp
  · have hp' : (2 : Int).toNat = 2 := rfl
    rw [if_neg hd, hp, hp', insert_packets_two]
    rotate_left
    · exact hl
    · rfl
    simp only [Bool.not_eq_true] at hd
    refine ⟨?_, ?_, ?_, Or.inr ⟨hd, ?_⟩⟩
    · simp [Frame, hp]
    · simp
    · simp
    · simp [pair_of, bundle_of, dest_fwd, dest_bwd, partner, send_size, hd]

/-- The effect of `PacketReceived`: the first completion of a step only counts;
the second one shrinks or grows the working size, advances the step, and sends
the two bundles of the next step or, at the end of all-gather, of the drain. -/
theorem run_PacketReceived (s : State) (hl : s.locked_packets = [])
    (hp : s.parallel_reduce = 2) :
    Frame s (run s EventType.PacketReceived) ∧
    (run s EventType.PacketReceived).locked_packets = [] ∧
    (run s EventType.PacketReceived).total_packets_received = s.total_packets_received + 1 ∧
    ((s.recv_in_step + 1 ≠ 2 ∧ SameCtl s (run s EventType.PacketReceived) ∧
        (run s EventType.PacketReceived).recv_in_step = s.recv_in_step + 1) ∨
     (s.recv_in_step + 1 = 2 ∧ s.phase = Phase.ReduceScatter ∧ s.steps_total ≤ s.step + 1 ∧
        Advance (run s EventType.PacketReceived) Phase.AllGather 0 1 (shrink s.cur_size)
          s.done s.drain_injected false ∧
        (run s EventType.PacketReceived).dir_toggle = 0 ∧
        (run s EventType.PacketReceived).bundles =
          s.bundles ++ pair_of (run s EventType.PacketReceived)) ∨
     (s.recv_in_step + 1 = 2 ∧ s.phase = Phase.ReduceScatter ∧ s.step + 1 < s.steps_total ∧
        Advance (run s EventType.PacketReceived) Phase.ReduceScatter (s.step + 1)
          ((s.distance * 3) % U64) (shrink s.cur_size) s.done s.drain_injected s.processed ∧
        (run s EventType.PacketReceived).dir_toggle = 0 ∧
        (run s EventType.PacketReceived).bundles =
          s.bundles ++ pair_of (run s EventType.PacketReceived)) ∨
     (s.recv_in_step + 1 = 2 ∧ s.phase = Phase.AllGather ∧ s.steps_total ≤ s.step + 1 ∧
        s.drain_injected = false ∧
        Advance (run s EventType.PacketReceived) Phase.AllGather (s.step + 1) s.distance
          (grow s.total_size s.cur_size) true true s.processed ∧
        (run s EventType.PacketReceived).dir_toggle = 0 ∧
        (run s EventType.PacketReceived).bundles =
          s.bundles ++ pair_of (run s EventType.PacketReceived)) ∨
     (s.recv_in_step + 1 = 2 ∧ s.phase = Phase.AllGather ∧ s.steps_total ≤ s.step + 1 ∧
        s.drain_injected = true ∧
        Advance (run s EventType.PacketReceived) Phase.AllGather (s.step + 1) s.distance
          (grow s.total_size s.cur_size) true true s.processed ∧
        (run s EventType.PacketReceived).dir_toggle = s.dir_toggle ∧
        (run s EventType.PacketReceived).bundles = s.bundles) ∨
     (s.recv_in_step + 1 = 2 ∧ s.phase = Phase.AllGather ∧ s.step + 1 < s.steps_total ∧
        Advance (run s EventType.PacketReceived) Phase.AllGather (s.step + 1)
          ((s.distance * 3) % U64) (grow s.total_size s.cur_size) s.done s.drain_injected
          s.processed ∧
        (run s EventType.PacketReceived).dir_toggle = 0 ∧
        (run s EventType.PacketReceived).bundles =
          s.bundles ++ pair_of (run s EventType.PacketReceived))) := by
  have hp' : (2 : Int).toNat = 2 := rfl
  unfold run
  simp only
  by_cases h2 : s.recv_in_step + 1 = 2
  · rw [if_pos h2]
    by_cases hph : s.phase = Phase.ReduceScatter
    · rw [if_pos hph]
      by_cases hst : s.step + 1 ≥ s.steps_total
      · rw [if_pos hst, hp, hp', insert_packets_two, iteratable_eq]
        rotate_left
        · exact hl
        · rfl
        refine ⟨?_, ?_, ?_, Or.inr (Or.inl ⟨h2, hph, hst, ?_, ?_, ?_⟩)⟩
        · simp [Frame, hp]
        · exact iteratable_locked _ rfl
        · simp
        · simp [Advance]
        · simp
        · simp [pair_of, bundle_of, dest_fwd, dest_bwd, partner, send_size]
      · rw [if_neg hst, hp, hp', insert_packets_two, iteratable_eq]
        rotate_left
        · exact hl
        · rfl
        have hst' : s.step + 1 < s.steps_total := by omega
        refine ⟨?_, ?_, ?_, Or.inr (Or.inr (Or.inl ⟨h2, hph, hst', ?_, ?_, ?_⟩))⟩
        · simp [Frame, hp]
        · exact iteratable_locked _ rfl
        · simp
        · simp [Advance, hph]
        · simp
        · simp [pair_of, bundle_of, dest_fwd, dest_bwd, partner, send_size]
    · rw [if_neg hph]
      have hag : s.phase = Phase.AllGather := by
        cases hq : s.phase
        · exact absurd hq hph
        · rfl
      by_cases hst : s.step + 1 ≥ s.steps_total
      · rw [if_pos hst]
        by_cases hdr : s.drain_injected = true
        · rw [if_neg (by simpa using hdr), iteratable_eq]
          refine ⟨?_, ?_, ?_,
            Or.inr (Or.inr (Or.inr (Or.inr (Or.inl ⟨h2, hag, hst, hdr, ?_, ?_, ?_⟩))))⟩
          · simp [Frame]
          · exact iteratable_locked _ hl
          · simp
          · simp [Advance, hag, hdr]
          · simp
          · simp
        · simp only [Bool.not_eq_true] at hdr
          rw [if_pos (by simp [hdr]), hp, hp', insert_packets_two, iteratable_eq]
          rotate_left
          · exact hl
          · rfl
          refine ⟨?_, ?_, ?_,
            Or.inr (Or.inr (Or.inr (Or.inl ⟨h2, hag, hst, hdr, ?_, ?_, ?_⟩)))⟩
          · simp [Frame, hp]
          · exact iteratable_locked _ rfl
          · simp
          · simp [Advance, hag]
          · simp
          · simp [pair_of, bundle_of, dest_fwd, dest_bwd, partner, send_size]
      · rw [if_neg hst, hp, hp', insert_packets_two, iteratable_eq]
        rotate_left
        · exact hl
        · rfl
        have hst' : s.step + 1 < s.steps_total := by omega
        refine ⟨?_, ?_, ?_,
          Or.inr (Or.inr (Or.inr (Or.inr (Or.inr ⟨h2, hag, hst', ?_, ?_, ?_⟩))))⟩
        · simp [Frame, hp]
        · exact iteratable_locked _ rfl
        · simp
        · simp [Advance, hag]
        · simp
        · simp [pair_of, bundle_of, dest_fwd, dest_bwd, partner, send_size, hag]
  · rw [if_neg h2, iteratable_eq]
    refine ⟨?_, ?_, ?_, Or.inl ⟨h2, ?_, ?_⟩⟩
    · simp [Frame]
    · exact iteratable_locked _ hl
    · simp
    · simp [SameCtl]
    · simp

/-! ## Size arithmetic -/

theorem U64_eq : U64 = 18446744073709551616 := by
  unfold U64
  norm_num

/-- Below the wrap-around, `ceil_div_u64 c 3` is `(c + 2) / 3`. -/
theorem ceil_div_u64_three (c : Nat) (h : c + 2 < U64) : ceil_div_u64 c 3 = (c + 2) / 3 := by
  unfold ceil_div_u64
  rw [if_neg (by decide)]
  have e : c + 3 - 1 = c + 2 := by omega
  rw [e, Nat.mod_eq_of_lt h]

theorem shrink_eq (c : Nat) (h : c + 2 < U64) : shrink c = max 1 ((c + 2) / 3) := by
  unfold shrink
  rw [ceil_div_u64_three c h]

theorem grow_eq (T c : Nat) (h : c * 3 < U64) : grow T c = min T (c * 3) := by
  unfold grow
  rw [Nat.mod_eq_of_lt h]

/-- The growth never leaves the payload size, whatever the product does. -/
theorem grow_le (T c : Nat) : grow T c ≤ T := by
  unfold grow
  exact Nat.min_le_left _ _

/-- The floor of the shrink. -/
theorem shrink_pos (c : Nat) : 1 ≤ shrink c := by
  unfold shrink
  omega

/-- A shrink does not raise a working size of at least one byte, whatever the
sum inside `ceil_div_u64` does. -/
theorem shrink_le_self (c : Nat) (h : 1 ≤ c) : shrink c ≤ c := by
  unfold shrink ceil_div_u64
  rw [if_neg (by decide)]
  have h1 : (c + 3 - 1) % U64 ≤ c + 3 - 1 := Nat.mod_le _ _
  have h2 : (c + 3 - 1) % U64 / 3 ≤ (c + 3 - 1) / 3 := Nat.div_le_div_right h1
  omega

theorem rs_size_succ (T j : Nat) : rs_size T (j + 1) = shrink (rs_size T j) := by
  unfold rs_size
  rw [Function.iterate_succ_apply']

theorem rs_size_le (T : Nat) (hT : 3 * T < U64) (j : Nat) : rs_size T j ≤ max T 1 := by
  rw [U64_eq] at hT
  induction j with
  | zero =>
    show T ≤ max T 1
    omega
  | succ j ih =>
    rw [rs_size_succ, shrink_eq _ (by rw [U64_eq]; omega)]
    omega

theorem rs_size_pos (T : Nat) (hT : 1 ≤ T) (j : Nat) : 1 ≤ rs_size T j := by
  cases j with
  | zero => exact hT
  | succ j =>
    rw [rs_size_succ]
    unfold shrink
    omega

theorem rs_size_le_three_mul (T : Nat) (hT : 3 * T < U64) (j : Nat) :
    rs_size T j ≤ 3 * rs_size T (j + 1) := by
  have h := rs_size_le T hT j
  rw [U64_eq] at hT
  rw [rs_size_succ, shrink_eq _ (by rw [U64_eq]; omega)]
  omega

/-! ## The invariant of a run -/

/-- The invariant only reads the controller, the counters and the trace. -/
theorem RunInv_of_same (K T : Nat) (s t : State) (hf : Frame s t) (hc : SameCtl s t)
    (hl : t.locked_packets = []) (hr : t.recv_in_step = 0 ∨ t.recv_in_step = 1)
    (hrec : t.total_packets_received - t.recv_in_step =
      s.total_packets_received - s.recv_in_step)
    (h : RunInv K T s) : RunInv K T t := by
  obtain ⟨_, _, f3, f4, f5, _, _, _⟩ := hf
  obtain ⟨c1, c2, _, c4, c5, c6, c7, _, c9, _⟩ := hc
  obtain ⟨_, i2, i3, i4, _, i6, i7, i8, i9, i10, i11, i12, i13⟩ := h
  refine ⟨hl, by rw [f3]; exact i2, by rw [f4]; exact i3, by rw [f5]; exact i4, hr,
    by rw [c6, c5]; exact i6, by rw [c2]; exact i7, by rw [c5, c2]; exact i8,
    by rw [c5, c1, c2]; exact i9, ?_, ?_, ?_, ?_⟩
  · rw [c1, c7, c2]
    intro hph
    obtain ⟨a, b⟩ := i10 hph
    exact ⟨a, by omega⟩
  · rw [c1, c7, c2]
    intro hph
    obtain ⟨a, b⟩ := i11 hph
    exact ⟨a, by omega⟩
  · unfold Trace at i12 ⊢
    rw [c1, c2, c5, c9]
    exact i12
  · unfold Sizes at i13 ⊢
    rw [c1, c2, c4, c5]
    exact i13

theorem pair_of_length (t : State) : (pair_of t).length = 2 := rfl

theorem pair_of_processed (t : State) : ∀ b ∈ pair_of t, b.processed = t.processed := by
  intro b hb
  simp only [pair_of, List.mem_cons, List.mem_singleton, List.not_mem_nil, or_false] at hb
  rcases hb with h | h <;> rw [h] <;> rfl

theorem pair_of_drain (t : State) (hd : t.done = true) (hi : t.drain_injected = true) :
    ∀ b ∈ pair_of t, IsDrain b := by
  have hz : send_size t = 0 := by
    unfold send_size
    rw [if_pos ⟨hd, hi⟩]
  intro b hb
  simp only [pair_of, List.mem_cons, List.mem_singleton, List.not_mem_nil, or_false] at hb
  rcases hb with h | h <;> rw [h] <;> simp [IsDrain, bundle_of, hz]

theorem RunInv_PacketReceived (K T : Nat) (s : State) (h : RunInv K T s) :
    RunInv K T (run s EventType.PacketReceived) := by
  have hinv := h
  obtain ⟨i1, i2, i3, i4, i5, i6, i7, i8, i9, i10, i11, i12, i13⟩ := h
  obtain ⟨hf, hl, hrec, hcase⟩ := run_PacketReceived s i1 i2
  have hfr := hf
  obtain ⟨_, _, f3, f4, f5, _, _, _⟩ := hf
  have hnd : s.phase = Phase.ReduceScatter → s.done = false := by
    intro hph
    cases hd : s.done
    · rfl
    · have := (i9 hd).1
      rw [hph] at this
      exact absurd this (by decide)
  rcases hcase with ⟨h2, hc, hr⟩ | ⟨h2, hph, hst, ha, -, hb⟩ | ⟨h2, hph, hst, ha, -, hb⟩ |
      ⟨h2, hph, hst, hdr, ha, -, hb⟩ | ⟨h2, hph, hst, hdr, ha, -, hb⟩ |
      ⟨h2, hph, hst, ha, -, hb⟩
  · -- first completion of a step
    exact RunInv_of_same K T s _ hfr hc hl (by omega) (by omega) hinv
  · -- last reduce-scatter step: switch to all-gather
    obtain ⟨a1, a2, a3, a4, a5, a6, a7, a8⟩ := ha
    have hd := hnd hph
    have hlt := i8 hd
    obtain ⟨p1, p2⟩ := i10 hph
    obtain ⟨t1, t2⟩ := i12.1 hph
    rw [i3] at hst
    refine ⟨hl, by rw [f3]; exact i2, by rw [f4]; exact i3, by rw [f5]; exact i4,
      Or.inl a8, by rw [a6, a5]; exact i6, by rw [a2], ?_, ?_, ?_, ?_, ?_, ?_⟩
    · intro _
      rw [a2]
      omega
    · intro hd'
      rw [a5, hd] at hd'
      exact absurd hd' (by decide)
    · intro hph'
      rw [a1] at hph'
      exact absurd hph' (by decide)
    · intro _
      rw [a7, hrec, a2, a8]
      exact ⟨rfl, by omega⟩
    · refine ⟨?_, ?_, ?_⟩
      · intro hph'
        rw [a1] at hph'
        exact absurd hph' (by decide)
      · intro _ _
        refine ⟨s.bundles, pair_of (run s EventType.PacketReceived), hb, by omega, t2, ?_, ?_⟩
        · rw [pair_of_length, a2]
          rfl
        · intro b hb'
          rw [pair_of_processed _ b hb', a7]
      · intro hd'
        rw [a5, hd] at hd'
        exact absurd hd' (by decide)
    · intro hT
      obtain ⟨z1, -, -⟩ := i13 hT
      refine ⟨?_, ?_, ?_⟩
      · intro hph'
        rw [a1] at hph'
        exact absurd hph' (by decide)
      · intro _ _
        have e : rs_size T (K - (run s EventType.PacketReceived).step.toNat) =
            shrink s.cur_size := by
          rw [a2, z1 hph, ← rs_size_succ]
          congr 1
          omega
        rw [a4, e]
        refine ⟨Nat.min_le_right _ _, ?_⟩
        rw [z1 hph, ← rs_size_succ]
        exact rs_size_le T hT _
      · intro hd'
        rw [a5, hd] at hd'
        exact absurd hd' (by decide)
  · -- a further reduce-scatter step
    obtain ⟨a1, a2, a3, a4, a5, a6, a7, a8⟩ := ha
    have hd := hnd hph
    obtain ⟨p1, p2⟩ := i10 hph
    obtain ⟨t1, t2⟩ := i12.1 hph
    rw [i3] at hst
    refine ⟨hl, by rw [f3]; exact i2, by rw [f4]; exact i3, by rw [f5]; exact i4,
      Or.inl a8, by rw [a6, a5]; exact i6, by rw [a2]; omega, ?_, ?_, ?_, ?_, ?_, ?_⟩
    · intro _
      rw [a2]
      omega
    · intro hd'
      rw [a5, hd] at hd'
      exact absurd hd' (by decide)
    · intro _
      rw [a7, hrec, a2, a8]
      exact ⟨p1, by omega⟩
    · intro hph'
      rw [a1] at hph'
      exact absurd hph' (by decide)
    · refine ⟨?_, ?_, ?_⟩
      · intro _
        rw [hb, a2, List.length_append, pair_of_length, t1]
        refine ⟨by omega, ?_⟩
        intro b hb'
        rcases List.mem_append.mp hb' with hm | hm
        · exact t2 b hm
        · rw [pair_of_processed _ b hm, a7]
          exact p1
      · intro hph'
        rw [a1] at hph'
        exact absurd hph' (by decide)
      · intro hd'
        rw [a5, hd] at hd'
        exact absurd hd' (by decide)
    · intro hT
      obtain ⟨z1, -, -⟩ := i13 hT
      refine ⟨?_, ?_, ?_⟩
      · intro _
        rw [a4, a2, z1 hph, ← rs_size_succ]
        congr 1
        omega
      · intro hph'
        rw [a1] at hph'
        exact absurd hph' (by decide)
      · intro hd'
        rw [a5, hd] at hd'
        exact absurd hd' (by decide)
  · -- last all-gather step: done, and the drain is injected
    obtain ⟨a1, a2, a3, a4, a5, a6, a7, a8⟩ := ha
    have hd : s.done = false := by rw [← i6]; exact hdr
    have hlt := i8 hd
    obtain ⟨p1, p2⟩ := i11 hph
    obtain ⟨rs, ag, t1, t2, t3, t4, t5⟩ := i12.2.1 hph hd
    rw [i3] at hst
    refine ⟨hl, by rw [f3]; exact i2, by rw [f4]; exact i3, by rw [f5]; exact i4,
      Or.inl a8, by rw [a6, a5], by rw [a2]; omega, ?_, ?_, ?_, ?_, ?_, ?_⟩
    · intro hd'
      rw [a5] at hd'
      exact absurd hd' (by decide)
    · intro _
      rw [a2]
      exact ⟨a1, by omega⟩
    · intro hph'
      rw [a1] at hph'
      exact absurd hph' (by decide)
    · intro _
      rw [a7, hrec, a2, a8]
      exact ⟨p1, by omega⟩
    · refine ⟨?_, ?_, ?_⟩
      · intro hph'
        rw [a1] at hph'
        exact absurd hph' (by decide)
      · intro _ hd'
        rw [a5] at hd'
        exact absurd hd' (by decide)
      · intro _
        refine ⟨rs, ag, pair_of (run s EventType.PacketReceived), by rw [hb, t1], t2, t3,
          by omega, t5, pair_of_length _, pair_of_drain _ a5 a6⟩
    · intro hT
      obtain ⟨-, z2, -⟩ := i13 hT
      obtain ⟨y1, y2⟩ := z2 hph hd
      refine ⟨?_, ?_, ?_⟩
      · intro hph'
        rw [a1] at hph'
        exact absurd hph' (by decide)
      · intro _ hd'
        rw [a5] at hd'
        exact absurd hd' (by decide)
      · intro _
        have e1 : K - s.step.toNat = 0 + 1 := by omega
        have h3 := rs_size_le_three_mul T hT 0
        have h0 : rs_size T 0 = T := rfl
        rw [e1] at y1
        rw [h0] at h3
        rw [a4, i4]
        have hw : s.cur_size * 3 < U64 := by rw [U64_eq] at hT ⊢; omega
        rw [grow_eq T _ hw]
        omega
  · -- completions after the end: nothing but counting
    obtain ⟨a1, a2, a3, a4, a5, a6, a7, a8⟩ := ha
    have hd : s.done = true := by rw [← i6]; exact hdr
    obtain ⟨-, q2⟩ := i9 hd
    obtain ⟨p1, p2⟩ := i11 hph
    refine ⟨hl, by rw [f3]; exact i2, by rw [f4]; exact i3, by rw [f5]; exact i4,
      Or.inl a8, by rw [a6, a5], by rw [a2]; omega, ?_, ?_, ?_, ?_, ?_, ?_⟩
    · intro hd'
      rw [a5] at hd'
      exact absurd hd' (by decide)
    · intro _
      rw [a2]
      exact ⟨a1, by omega⟩
    · intro hph'
      rw [a1] at hph'
      exact absurd hph' (by decide)
    · intro _
      rw [a7, hrec, a2, a8]
      exact ⟨p1, by omega⟩
    · refine ⟨?_, ?_, ?_⟩
      · intro hph'
        rw [a1] at hph'
        exact absurd hph' (by decide)
      · intro _ hd'
        rw [a5] at hd'
        exact absurd hd' (by decide)
      · intro _
        rw [hb]
        exact i12.2.2 hd
    · intro hT
      obtain ⟨-, -, z3⟩ := i13 hT
      refine ⟨?_, ?_, ?_⟩
      · intro hph'
        rw [a1] at hph'
        exact absurd hph' (by decide)
      · intro _ hd'
        rw [a5] at hd'
        exact absurd hd' (by decide)
      · intro _
        rw [a4, i4, z3 hd]
        have hw : T * 3 < U64 := by omega
        rw [grow_eq T _ hw]
        omega
  · -- a further all-gather step
    obtain ⟨a1, a2, a3, a4, a5, a6, a7, a8⟩ := ha
    rw [i3] at hst
    have hd : s.done = false := by
      cases hd' : s.done
      · rfl
      · have := (i9 hd').2
        omega
    obtain ⟨p1, p2⟩ := i11 hph
    obtain ⟨rs, ag, t1, t2, t3, t4, t5⟩ := i12.2.1 hph hd
    refine ⟨hl, by rw [f3]; exact i2, by rw [f4]; exact i3, by rw [f5]; exact i4,
      Or.inl a8, by rw [a6, a5]; exact i6, by rw [a2]; omega, ?_, ?_, ?_, ?_, ?_, ?_⟩
    · intro _
      rw [a2]
      omega
    · intro hd'
      rw [a5, hd] at hd'
      exact absurd hd' (by decide)
    · intro hph'
      rw [a1] at hph'
      exact absurd hph' (by decide)
    · intro _
      rw [a7, hrec, a2, a8]
      exact ⟨p1, by omega⟩
    · refine ⟨?_, ?_, ?_⟩
      · intro hph'
        rw [a1] at hph'
        exact absurd hph' (by decide)
      · intro _ _
        refine ⟨rs, ag ++ pair_of (run s EventType.PacketReceived),
          by rw [hb, t1, List.append_assoc], t2, t3, ?_, ?_⟩
        · rw [List.length_append, pair_of_length, t4, a2]
          omega
        · intro b hb'
          rcases List.mem_append.mp hb' with hm | hm
          · exact t5 b hm
          · rw [pair_of_processed _ b hm, a7]
            exact p1
      · intro hd'
        rw [a5, hd] at hd'
        exact absurd hd' (by decide)
    · intro hT
      obtain ⟨-, z2, -⟩ := i13 hT
      obtain ⟨y1, y2⟩ := z2 hph hd
      refine ⟨?_, ?_, ?_⟩
      · intro hph'
        rw [a1] at hph'
        exact absurd hph' (by decide)
      · intro _ _
        have e1 : K - s.step.toNat = (K - (s.step + 1).toNat) + 1 := by omega
        have h3 := rs_size_le_three_mul T hT (K - (s.step + 1).toNat)
        rw [e1] at y1
        have hw : s.cur_size * 3 < U64 := by rw [U64_eq] at hT ⊢; omega
        rw [a4, a2, i4, grow_eq T _ hw]
        omega
      · intro hd'
        rw [a5, hd] at hd'
        exact absurd hd' (by decide)

theorem RunInv_General (K T : Nat) (s : State) (h : RunInv K T s) :
    RunInv K T (run s EventType.General) := by
  obtain ⟨hf, hc, hr, hrec, hl⟩ := run_General s h.1
  have h5 := h.2.2.2.2.1
  exact RunInv_of_same K T s _ hf hc hl (by rw [hr]; exact h5) (by rw [hr, hrec]) h

/-- The invariant survives every event other than a second `StreamInit`. -/
theorem RunInv_run (K T : Nat) (s : State) (e : EventType) (he : e ≠ EventType.StreamInit)
    (h : RunInv K T s) : RunInv K T (run s e) := by
  cases e with
  | General => exact RunInv_General K T s h
  | StreamInit => exact absurd rfl he
  | PacketReceived => exact RunInv_PacketReceived K T s h
  | Other => exact h

theorem RunInv_runs (K T : Nat) (evs : List EventType) :
    ∀ s : State, (∀ e ∈ evs, e ≠ EventType.StreamInit) → RunInv K T s →
      RunInv K T (runs s evs) ∧
      (runs s evs).total_packets_received =
        s.total_packets_received + evs.count EventType.PacketReceived := by
  induction evs with
  | nil =>
    intro s _ h
    exact ⟨h, by simp [runs]⟩
  | cons e es ih =>
    intro s hes h
    have he : e ≠ EventType.StreamInit := hes e (List.mem_cons_self _ _)
    have hes' : ∀ x ∈ es, x ≠ EventType.StreamInit :=
      fun x hx => hes x (List.mem_cons_of_mem _ hx)
    obtain ⟨r1, r2⟩ := ih (run s e) hes' (RunInv_run K T s e he h)
    have hstep : runs s (e :: es) = runs (run s e) es := rfl
    rw [hstep]
    refine ⟨r1, ?_⟩
    rw [r2]
    cases e with
    | General =>
      rw [(run_General s h.1).2.2.2.1]
      simp
    | StreamInit => exact absurd rfl he
    | PacketReceived =>
      rw [(run_PacketReceived s h.1 h.2.1).2.2.1]
      simp
      omega
    | Other =>
      have : run s EventType.Other = s := rfl
      rw [this]
      simp

/-- The state right after `StreamInit` on a fresh instance of a ring with at
least two nodes satisfies the invariant of a run, with no completion counted. -/
theorem RunInv_init (id n : Int) (local_dim : Bool) (T : Nat) (st : StreamState)
    (hn : 2 ≤ n) :
    RunInv (ceil_log3 n).toNat T
      (run (construct id n local_dim T st) EventType.StreamInit) ∧
    (run (construct id n local_dim T st) EventType.StreamInit).total_packets_received = 0 := by
  have hK := ceil_log3_pos n hn
  have hd0 : (construct id n local_dim T st).done = false := by
    simp only [construct, decide_eq_false_iff_not]
    omega
  obtain ⟨hf, hl, hrec, hcase⟩ := run_StreamInit (construct id n local_dim T st) rfl rfl
  obtain ⟨_, _, f3, f4, f5, _, _, _⟩ := hf
  rcases hcase with ⟨hd, _, _⟩ | ⟨_, a1, a2, a3, a4, a5, a6, a7, a8, a9, a10⟩
  · rw [hd0] at hd
    exact absurd hd (by decide)
  · have hrec0 : (run (construct id n local_dim T st) EventType.StreamInit).total_packets_received
        = 0 := by rw [hrec]; rfl
    refine ⟨⟨hl, by rw [f3]; rfl, ?_, by rw [f5]; rfl, Or.inl a6, by rw [a2, a1]; rfl,
      by rw [a4], ?_, ?_, ?_, ?_, ?_, ?_⟩, hrec0⟩
    · rw [f4]
      show ceil_log3 n = ((ceil_log3 n).toNat : Int)
      omega
    · intro _
      rw [a4]
      omega
    · intro hd'
      rw [a1] at hd'
      exact absurd hd' (by decide)
    · intro _
      rw [a9, hrec0, a4, a6]
      exact ⟨rfl, rfl⟩
    · intro hph'
      rw [a3] at hph'
      exact absurd hph' (by decide)
    · refine ⟨?_, ?_, ?_⟩
      · intro _
        rw [a10, a4]
        refine ⟨rfl, ?_⟩
        intro b hb
        have hb' : b ∈ pair_of (run (construct id n local_dim T st) EventType.StreamInit) := by
          simpa [construct] using hb
        rw [pair_of_processed _ b hb', a9]
      · intro hph'
        rw [a3] at hph'
        exact absurd hph' (by decide)
      · intro hd'
        rw [a1] at hd'
        exact absurd hd' (by decide)
    · intro _
      refine ⟨?_, ?_, ?_⟩
      · intro _
        rw [a8, a4]
        rfl
      · intro hph'
        rw [a3] at hph'
        exact absurd hph' (by decide)
      · intro hd'
        rw [a1] at hd'
        exact absurd hd' (by decide)

/-! ## Complete runs -/

/-- After `StreamInit` and a sequence of credit returns and completions that
holds exactly `4 * steps_total` completions, the instance is done and the
invariant of a run holds. -/
theorem run_complete (id n : Int) (local_dim : Bool) (T : Nat) (st : StreamState)
    (evs : List EventType) (hn : 2 ≤ n)
    (hevs : ∀ e ∈ evs, e = EventType.General ∨ e = EventType.PacketReceived)
    (hcount : (evs.count EventType.PacketReceived : Int) =
      4 * (construct id n local_dim T st).steps_total) :
    RunInv (ceil_log3 n).toNat T
      (runs (construct id n local_dim T st) (EventType.StreamInit :: evs)) ∧
    (runs (construct id n local_dim T st) (EventType.StreamInit :: evs)).done = true := by
  have hK := ceil_log3_pos n hn
  have hst : (construct id n local_dim T st).steps_total = ceil_log3 n := rfl
  rw [hst] at hcount
  obtain ⟨h0, hrec0⟩ := RunInv_init id n local_dim T st hn
  have hne : ∀ e ∈ evs, e ≠ EventType.StreamInit := by
    intro e he
    rcases hevs e he with h | h <;> rw [h] <;> decide
  obtain ⟨h1, hrec1⟩ := RunInv_runs _ T evs _ hne h0
  have hstep : runs (construct id n local_dim T st) (EventType.StreamInit :: evs) =
      runs (run (construct id n local_dim T st) EventType.StreamInit) evs := rfl
  rw [hstep]
  refine ⟨h1, ?_⟩
  rw [hrec0] at hrec1
  obtain ⟨-, -, -, -, i5, -, i7, i8, -, i10, i11, -, -⟩ := h1
  generalize runs (run (construct id n local_dim T st) EventType.StreamInit) evs = s at *
  cases hd : s.done
  · exfalso
    have hlt := i8 hd
    cases hph : s.phase
    · have := (i10 hph).2
      omega
    · have := (i11 hph).2
      omega
  · rfl

/-- C2: on a ring of `n ≥ 2` nodes, with any payload size, `StreamInit`
followed by credit returns and completions in any order, `4 * steps_total` of
them completions, sends exactly `4 * steps_total + 2` bundles: first
`2 * steps_total` reducing ones (two per reduce-scatter step), then
`2 * steps_total` forward-only ones (two per all-gather step), and last the two
drain bundles of size 0. -/
theorem C2_exchange_count (id n : Int) (local_dim : Bool) (T : Nat) (st : StreamState)
    (evs : List EventType) (hn : 2 ≤ n)
    (hevs : ∀ e ∈ evs, e = EventType.General ∨ e = EventType.PacketReceived)
    (hcount : (evs.count EventType.PacketReceived : Int) =
      4 * (construct id n local_dim T st).steps_total) :
    (runs (construct id n local_dim T st) (EventType.StreamInit :: evs)).bundles.length =
      4 * (ceil_log3 n).toNat + 2 ∧
    ∃ rs ag dr : List PacketBundle,
      (runs (construct id n local_dim T st) (EventType.StreamInit :: evs)).bundles =
        rs ++ ag ++ dr ∧
      rs.length = 2 * (ceil_log3 n).toNat ∧ (∀ b ∈ rs, b.processed = true) ∧
      ag.length = 2 * (ceil_log3 n).toNat ∧ (∀ b ∈ ag, b.processed = false) ∧
      dr.length = 2 ∧ ∀ b ∈ dr, b.size = 0 ∧ ∀ p ∈ b.locked_packets, p.msg_size = 0 := by
  obtain ⟨hinv, hd⟩ := run_complete id n local_dim T st evs hn hevs hcount
  obtain ⟨rs, ag, dr, t1, t2, t3, t4, t5, t6, t7⟩ := hinv.2.2.2.2.2.2.2.2.2.2.2.1.2.2 hd
  refine ⟨?_, rs, ag, dr, t1, t2, t3, t4, t5, t6, t7⟩
  rw [t1, List.length_append, List.length_append, t2, t4, t6]
  omega

/-- C3: on a ring of `n ≥ 2` nodes and for a payload with
`3 * total_size < 2 ^ 64`, after the `steps_total` shrinks and the
`steps_total` growths of a complete run the working size is `total_size`
again. -/
theorem C3_size_round_trip (id n : Int) (local_dim : Bool) (T : Nat) (st : StreamState)
    (evs : List EventType) (hn : 2 ≤ n) (hT : 3 * T < 2 ^ 64)
    (hevs : ∀ e ∈ evs, e = EventType.General ∨ e = EventType.PacketReceived)
    (hcount : (evs.count EventType.PacketReceived : Int) =
      4 * (construct id n local_dim T st).steps_total) :
    (runs (construct id n local_dim T st) (EventType.StreamInit :: evs)).cur_size = T ∧
    (runs (construct id n local_dim T st) (EventType.StreamInit :: evs)).total_size = T := by
  obtain ⟨hinv, hd⟩ := run_complete id n local_dim T st evs hn hevs hcount
  exact ⟨(hinv.2.2.2.2.2.2.2.2.2.2.2.2 hT).2.2 hd, hinv.2.2.2.1⟩

set_option maxRecDepth 100000 in
/-- C2 on the two scenarios of the specification: 10 bundles for 9 nodes and
2187 bytes, 6 bundles for 2 nodes and 100 bytes, under the canonical
schedule. -/
theorem C2_exchange_count_witness :
    (runs (construct 0 9 false 2187 StreamState.Created)
      (EventType.StreamInit :: canonical_tail 2)).bundles.length = 10 ∧
    (runs (construct 0 2 false 100 StreamState.Created)
      (EventType.StreamInit :: canonical_tail 1)).bundles.length = 6 :=
  ⟨(C2_exchange_count 0 9 false 2187 StreamState.Created (canonical_tail 2)
      (by decide) (by decide) (by decide)).1,
   (C2_exchange_count 0 2 false 100 StreamState.Created (canonical_tail 1)
      (by decide) (by decide) (by decide)).1⟩

set_option maxRecDepth 100000 in
/-- C3 on the two scenarios of the specification: the working size goes
2187, 729, 243, 729, 2187 on 9 nodes and 100, 34, 100 on 2 nodes. -/
theorem C3_size_round_trip_witness :
    ((List.range 5).map fun j =>
      (runs (construct 0 9 false 2187 StreamState.Created)
        ((canonical_schedule 2).take (1 + 4 * j))).cur_size) = [2187, 729, 243, 729, 2187] ∧
    (runs (construct 0 9 false 2187 StreamState.Created)
      (EventType.StreamInit :: canonical_tail 2)).cur_size = 2187 ∧
    ((List.range 3).map fun j =>
      (runs (construct 0 2 false 100 StreamState.Created)
        ((canonical_schedule 1).take (1 + 4 * j))).cur_size) = [100, 34, 100] ∧
    (runs (construct 0 2 false 100 StreamState.Created)
      (EventType.StreamInit :: canonical_tail 1)).cur_size = 100 :=
  ⟨by decide,
   (C3_size_round_trip 0 9 false 2187 StreamState.Created (canonical_tail 2)
      (by decide) (by decide) (by decide) (by decide)).1,
   by decide,
   (C3_size_round_trip 0 2 false 100 StreamState.Created (canonical_tail 1)
      (by decide) (by decide) (by decide) (by decide)).1⟩

/-! ## Degenerate rings and the edges of the size arithmetic -/

/-- C4: on a ring with `nodes_in_ring ≤ 1` (written `1 - k`) the constructor
marks the instance done and `StreamInit` sends no bundle, but its terminal
check finds `free_packets = 0` where it asks for `parallel_reduce = 2`: it
reports iterable and the session is not released during that event. -/
theorem C4_init_without_steps_not_released (id : Int) (k : Nat) (local_dim : Bool)
    (T : Nat) (st : StreamState) :
    (construct id (1 - (k : Int)) local_dim T st).steps_total = 0 ∧
    (construct id (1 - (k : Int)) local_dim T st).done = true ∧
    (run (construct id (1 - (k : Int)) local_dim T st) EventType.StreamInit).bundles = [] ∧
    (run (construct id (1 - (k : Int)) local_dim T st) EventType.StreamInit).packets = [] ∧
    (run (construct id (1 - (k : Int)) local_dim T st) EventType.StreamInit).stream_count = 0 ∧
    (run (construct id (1 - (k : Int)) local_dim T st) EventType.StreamInit).free_packets = 0 ∧
    (run (construct id (1 - (k : Int)) local_dim T st) EventType.StreamInit).parallel_reduce
      = 2 ∧
    (iteratable
      { construct id (1 - (k : Int)) local_dim T st with stream_count := 0 }).1 = true ∧
    (run (construct id (1 - (k : Int)) local_dim T st) EventType.StreamInit).exits = 0 := by
  have h0 : ceil_log3 (1 - (k : Int)) = 0 := ceil_log3_of_le_one _ (by omega)
  simp [run, construct, iteratable, h0]

set_option maxRecDepth 100000 in
/-- C5: with 2 nodes and a payload of `2 ^ 64 - 1` bytes the second completion
of the reduce-scatter step takes the working size from `2 ^ 64 - 1` to 1,
whereas `max(1, ceil((2 ^ 64 - 1) / 3))` is 6148914691236517205: the sum
`a + b - 1` inside `ceil_div_u64` wraps around. -/
theorem C5_shrink_wraps_at_full_payload :
    (runs (construct 0 2 false (2 ^ 64 - 1) StreamState.Created)
      ((canonical_schedule 1).take 4)).phase = Phase.ReduceScatter ∧
    (runs (construct 0 2 false (2 ^ 64 - 1) StreamState.Created)
      ((canonical_schedule 1).take 4)).recv_in_step = 1 ∧
    (runs (construct 0 2 false (2 ^ 64 - 1) StreamState.Created)
      ((canonical_schedule 1).take 4)).cur_size = 2 ^ 64 - 1 ∧
    (run (runs (construct 0 2 false (2 ^ 64 - 1) StreamState.Created)
      ((canonical_schedule 1).take 4)) EventType.PacketReceived).cur_size = 1 ∧
    ceil_div_u64 (2 ^ 64 - 1) 3 = 0 ∧
    3 * 6148914691236517205 = 2 ^ 64 - 1 ∧
    max 1 6148914691236517205 ≠ 1 := by
  decide

set_option maxRecDepth 100000 in
/-- C6: with 4 nodes and a payload of `2 ^ 64 - 3` bytes under the canonical
schedule, the second completion of the last all-gather step takes the working
size from 6148914691236517206 to 2, whereas
`min(total_size, 3 * 6148914691236517206)` is `total_size`: the product
`cur_size * 3` wraps around. -/
theorem C6_grow_wraps_near_full_payload :
    (runs (construct 0 4 false (2 ^ 64 - 3) StreamState.Created)
      ((canonical_schedule 2).take 16)).phase = Phase.AllGather ∧
    (runs (construct 0 4 false (2 ^ 64 - 3) StreamState.Created)
      ((canonical_schedule 2).take 16)).recv_in_step = 1 ∧
    (runs (construct 0 4 false (2 ^ 64 - 3) StreamState.Created)
      ((canonical_schedule 2).take 16)).cur_size = 6148914691236517206 ∧
    (run (runs (construct 0 4 false (2 ^ 64 - 3) StreamState.Created)
      ((canonical_schedule 2).take 16)) EventType.PacketReceived).cur_size = 2 ∧
    (runs (construct 0 4 false (2 ^ 64 - 3) StreamState.Created)
      (canonical_schedule 2)).cur_size = 2 ∧
    min (2 ^ 64 - 3) (6148914691236517206 * 3) = 2 ^ 64 - 3 := by
  decide

set_option maxRecDepth 100000 in
/-- C9: with 2 nodes and a payload of `2 ^ 64 - 1` bytes the two exchanges that
`StreamInit` requests in reduce-scatter, before anything is done, have payload
and bundle size 0, whereas `ceil((2 ^ 64 - 1) / 3)` is 6148914691236517205. -/
theorem C9_send_size_wraps_at_full_payload :
    (construct 0 2 false (2 ^ 64 - 1) StreamState.Created).phase = Phase.ReduceScatter ∧
    (construct 0 2 false (2 ^ 64 - 1) StreamState.Created).done = false ∧
    (construct 0 2 false (2 ^ 64 - 1) StreamState.Created).cur_size = 2 ^ 64 - 1 ∧
    send_size (construct 0 2 false (2 ^ 64 - 1) StreamState.Created) = 0 ∧
    (insert_packet (construct 0 2 false (2 ^ 64 - 1) StreamState.Created)).bundle_size = 0 ∧
    (insert_packet (construct 0 2 false (2 ^ 64 - 1) StreamState.Created)).packets =
      [{ msg_size := 0, preferred_src := 1, preferred_dest := 1 }] ∧
    ((run (construct 0 2 false (2 ^ 64 - 1) StreamState.Created)
      EventType.StreamInit).bundles.map fun b => b.size) = [0, 0] ∧
    3 * 6148914691236517205 = 2 ^ 64 - 1 := by
  decide

/-! ## The receive counter -/

theorem Wf_construct (id n : Int) (local_dim : Bool) (T : Nat) (st : StreamState) :
    Wf (construct id n local_dim T st) :=
  ⟨rfl, rfl, Or.inl rfl⟩

theorem Wf_run (s : State) (e : EventType) (h : Wf s) : Wf (run s e) := by
  obtain ⟨h1, h2, h3⟩ := h
  cases e with
  | General =>
    obtain ⟨hf, _, hr, _, hl⟩ := run_General s h1
    exact ⟨hl, by rw [hf.2.2.1]; exact h2, by rw [hr]; exact h3⟩
  | StreamInit =>
    obtain ⟨hf, hl, _, hcase⟩ := run_StreamInit s h1 h2
    refine ⟨hl, by rw [hf.2.2.1]; exact h2, ?_⟩
    rcases hcase with ⟨_, _, hr⟩ | ⟨_, _, _, _, _, _, hr, _⟩
    · rw [hr]
      exact h3
    · exact Or.inl hr
  | PacketReceived =>
    obtain ⟨hf, hl, _, hcase⟩ := run_PacketReceived s h1 h2
    refine ⟨hl, by rw [hf.2.2.1]; exact h2, ?_⟩
    rcases hcase with ⟨h2', _, hr⟩ | ⟨_, _, _, ha, _⟩ | ⟨_, _, _, ha, _⟩ |
        ⟨_, _, _, _, ha, _⟩ | ⟨_, _, _, _, ha, _⟩ | ⟨_, _, _, ha, _⟩
    · rw [hr]
      omega
    all_goals exact Or.inl ha.2.2.2.2.2.2.2
  | Other => exact ⟨h1, h2, h3⟩

theorem Wf_runs (evs : List EventType) : ∀ s : State, Wf s → Wf (runs s evs) := by
  induction evs with
  | nil =>
    intro s h
    exact h
  | cons e es ih =>
    intro s h
    exact ih (run s e) (Wf_run s e h)

/-- The first completion of a step runs the terminal check and nothing else. -/
theorem run_first_completion (s : State) (h : s.recv_in_step = 0) :
    run s EventType.PacketReceived =
      (iteratable { s with total_packets_received := s.total_packets_received + 1,
                           recv_in_step := s.recv_in_step + 1 }).2 := by
  unfold run
  simp only
  rw [if_neg (by rw [h]; decide)]

theorem iteratable_packets (s : State) :
    (iteratable s).2.packets = s.packets ∨ (iteratable s).2.packets = [] := by
  unfold iteratable
  split
  · exact Or.inr rfl
  · exact Or.inl rfl

/-- What one event does to the working size, the phase and the step counter. -/
theorem size_step (s : State) (e : EventType) (hl : s.locked_packets = [])
    (hp : s.parallel_reduce = 2) (hr : s.recv_in_step = 0 ∨ s.recv_in_step = 1) :
    Frame s (run s e) ∧ (run s e).locked_packets = [] ∧
    ((run s e).recv_in_step = 0 ∨ (run s e).recv_in_step = 1) ∧
    (¬ (e = EventType.PacketReceived ∧ s.recv_in_step = 1) →
      ¬ (e = EventType.StreamInit ∧ s.done = false) →
      SameCtl s (run s e) ∧
      (e = EventType.PacketReceived → (run s e).recv_in_step = s.recv_in_step + 1) ∧
      (e ≠ EventType.PacketReceived → (run s e).recv_in_step = s.recv_in_step)) ∧
    (e = EventType.PacketReceived → s.recv_in_step = 1 → s.phase = Phase.ReduceScatter →
      (run s e).cur_size = shrink s.cur_size ∧ (run s e).recv_in_step = 0 ∧
      (((run s e).phase = Phase.ReduceScatter ∧ (run s e).step = s.step + 1) ∨
        ((run s e).phase = Phase.AllGather ∧ (run s e).step = 0))) ∧
    (e = EventType.PacketReceived → s.recv_in_step = 1 → s.phase = Phase.AllGather →
      (run s e).cur_size = grow s.total_size s.cur_size ∧ (run s e).recv_in_step = 0 ∧
      (run s e).phase = Phase.AllGather ∧ (run s e).step = s.step + 1) ∧
    (e = EventType.StreamInit → s.done = false →
      (run s e).cur_size = s.total_size ∧ (run s e).phase = Phase.ReduceScatter ∧
      (run s e).step = 0 ∧ (run s e).recv_in_step = 0) := by
  cases e with
  | General =>
    obtain ⟨hf, hc, hrec, _, hlk⟩ := run_General s hl
    refine ⟨hf, hlk, by rw [hrec]; exact hr,
      fun _ _ => ⟨hc, fun h => absurd h (by decide), fun _ => hrec⟩, ?_, ?_, ?_⟩ <;>
    · intro h
      exact absurd h (by decide)
  | Other =>
    refine ⟨⟨rfl, rfl, rfl, rfl, rfl, rfl, rfl, rfl⟩, hl, hr,
      fun _ _ => ⟨⟨rfl, rfl, rfl, rfl, rfl, rfl, rfl, rfl, rfl, rfl⟩,
        fun h => absurd h (by decide), fun _ => rfl⟩, ?_, ?_, ?_⟩ <;>
    · intro h
      exact absurd h (by decide)
  | StreamInit =>
    obtain ⟨hf, hlk, _, hcase⟩ := run_StreamInit s hl hp
    rcases hcase with ⟨hd, hc, hrec⟩ | ⟨hd, _, _, hph, hst, _, hrec, _, hcur, _⟩
    · refine ⟨hf, hlk, by rw [hrec]; exact hr,
        fun _ _ => ⟨hc, fun h => absurd h (by decide), fun _ => hrec⟩, ?_, ?_, ?_⟩
      · intro h
        exact absurd h (by decide)
      · intro h
        exact absurd h (by decide)
      · intro _ hd'
        rw [hd] at hd'
        exact absurd hd' (by decide)
    · refine ⟨hf, hlk, Or.inl hrec, fun _ h => absurd ⟨rfl, hd⟩ h, ?_, ?_,
        fun _ _ => ⟨hcur, hph, hst, hrec⟩⟩
      · intro h
        exact absurd h (by decide)
      · intro h
        exact absurd h (by decide)
  | PacketReceived =>
    obtain ⟨hf, hlk, _, hcase⟩ := run_PacketReceived s hl hp
    rcases hcase with ⟨h2, hc, hrec⟩ | ⟨h2, hph, _, ha, _⟩ | ⟨h2, hph, _, ha, _⟩ |
        ⟨h2, hph, _, _, ha, _⟩ | ⟨h2, hph, _, _, ha, _⟩ | ⟨h2, hph, _, ha, _⟩
    · refine ⟨hf, hlk, by rw [hrec]; omega,
        fun _ _ => ⟨hc, fun _ => hrec, fun h => absurd rfl h⟩, ?_, ?_, ?_⟩
      · intro _ h1
        omega
      · intro _ h1
        omega
      · intro h
        exact absurd h (by decide)
    · refine ⟨hf, hlk, Or.inl ha.2.2.2.2.2.2.2, fun h _ => absurd ⟨rfl, by omega⟩ h,
        fun _ _ _ => ⟨ha.2.2.2.1, ha.2.2.2.2.2.2.2, Or.inr ⟨ha.1, ha.2.1⟩⟩, ?_, ?_⟩
      · intro _ _ h
        rw [hph] at h
        exact absurd h (by decide)
      · intro h
        exact absurd h (by decide)
    · refine ⟨hf, hlk, Or.inl ha.2.2.2.2.2.2.2, fun h _ => absurd ⟨rfl, by omega⟩ h,
        fun _ _ _ => ⟨ha.2.2.2.1, ha.2.2.2.2.2.2.2, Or.inl ⟨ha.1, ha.2.1⟩⟩, ?_, ?_⟩
      · intro _ _ h
        rw [hph] at h
        exact absurd h (by decide)
      · intro h
        exact absurd h (by decide)
    all_goals
      refine ⟨hf, hlk, Or.inl ha.2.2.2.2.2.2.2, fun h _ => absurd ⟨rfl, by omega⟩ h, ?_,
        fun _ _ _ => ⟨ha.2.2.2.1, ha.2.2.2.2.2.2.2, ha.1, ha.2.1⟩, ?_⟩
      · intro _ _ h
        rw [hph] at h
        exact absurd h (by decide)
      · intro h
        exact absurd h (by decide)

theorem SizeInv_construct (id n : Int) (local_dim : Bool) (T : Nat) (st : StreamState) :
    SizeInv T (construct id n local_dim T st) :=
  ⟨rfl, rfl, rfl, Or.inl rfl, le_refl _, fun h => ⟨le_refl _, fun _ => h⟩⟩

theorem SizeInv_run (T : Nat) (s : State) (e : EventType) (h : SizeInv T s) :
    SizeInv T (run s e) := by
  obtain ⟨h1, h2, h3, h4, h5, h6⟩ := h
  obtain ⟨hf, hlk, hrec, hsame, hrs, hag, hinit⟩ := size_step s e h1 h2 h4
  refine ⟨hlk, by rw [hf.2.2.1]; exact h2, by rw [hf.2.2.2.2.1]; exact h3, hrec, ?_, ?_⟩
  · by_cases c1 : e = EventType.PacketReceived ∧ s.recv_in_step = 1
    · cases hph : s.phase
      · rcases (hrs c1.1 c1.2 hph).2.2 with ⟨_, k⟩ | ⟨_, k⟩ <;> omega
      · have k := (hag c1.1 c1.2 hph).2.2.2
        omega
    · by_cases c2 : e = EventType.StreamInit ∧ s.done = false
      · rw [(hinit c2.1 c2.2).2.2.1]
      · rw [(hsame c1 c2).1.2.1]
        exact h5
  · intro hT
    obtain ⟨b1, b2⟩ := h6 hT
    by_cases c1 : e = EventType.PacketReceived ∧ s.recv_in_step = 1
    · cases hph : s.phase
      · obtain ⟨k1, _⟩ := hrs c1.1 c1.2 hph
        have k2 := shrink_le_self _ (b2 hph)
        have k3 := shrink_pos s.cur_size
        rw [k1]
        exact ⟨by omega, fun _ => k3⟩
      · obtain ⟨k1, _, k2, _⟩ := hag c1.1 c1.2 hph
        have k3 := grow_le s.total_size s.cur_size
        rw [k1, k2]
        refine ⟨by omega, fun hc => absurd hc (by decide)⟩
    · by_cases c2 : e = EventType.StreamInit ∧ s.done = false
      · obtain ⟨k1, _⟩ := hinit c2.1 c2.2
        rw [k1, h3]
        exact ⟨le_refl _, fun _ => hT⟩
      · obtain ⟨⟨k1, _, _, k2, _⟩, _⟩ := hsame c1 c2
        rw [k1, k2]
        exact ⟨b1, b2⟩

theorem SizeInv_runs (T : Nat) (evs : List EventType) :
    ∀ s : State, SizeInv T s → SizeInv T (runs s evs) := by
  induction evs with
  | nil =>
    intro s h
    exact h
  | cons e es ih =>
    intro s h
    exact ih (run s e) (SizeInv_run T s e h)

/-- C10, as the code has it: after every sequence of events delivered to a
fresh instance the receive counter is 0 or 1, before and after every event.
A credit return, an event of another kind and a `StreamInit` that finds the
instance done leave the counter, the phase, the step, the distance, the working
size, the done flag and the bundle trace as they are.  A completion that finds
the counter at 0 takes it to 1, leaves phase, step, distance, working size and
done flag as they are, sends no bundle and queues no packet.  A completion that
finds the counter at 1 (which takes it to 2) resets it to 0 and advances: the
step counter grows by 1 in the same phase, or the phase goes from
reduce-scatter to all-gather with the step counter back at 0.  A `StreamInit`
that finds the instance not done resets the counter, whatever its value, and
the step counter to 0, in reduce-scatter.  Hence a counter at 1 is reset
exactly by a completion or by a `StreamInit` on an instance that is not done,
and the step counter grows, or the phase goes from reduce-scatter to
all-gather, only on a completion that finds the counter at 1. -/
theorem C10_two_completions_per_step (id n : Int) (local_dim : Bool) (T : Nat)
    (st : StreamState) (evs : List EventType) (e : EventType) :
    ((runs (construct id n local_dim T st) evs).recv_in_step = 0 ∨
      (runs (construct id n local_dim T st) evs).recv_in_step = 1) ∧
    ((run (runs (construct id n local_dim T st) evs) e).recv_in_step = 0 ∨
      (run (runs (construct id n local_dim T st) evs) e).recv_in_step = 1) ∧
    ((e = EventType.General ∨ e = EventType.Other ∨
        (e = EventType.StreamInit ∧ (runs (construct id n local_dim T st) evs).done = true)) →
      (run (runs (construct id n local_dim T st) evs) e).recv_in_step =
        (runs (construct id n local_dim T st) evs).recv_in_step ∧
      (run (runs (construct id n local_dim T st) evs) e).phase =
        (runs (construct id n local_dim T st) evs).phase ∧
      (run (runs (construct id n local_dim T st) evs) e).step =
        (runs (construct id n local_dim T st) evs).step ∧
      (run (runs (construct id n local_dim T st) evs) e).distance =
        (runs (construct id n local_dim T st) evs).distance ∧
      (run (runs (construct id n local_dim T st) evs) e).cur_size =
        (runs (construct id n local_dim T st) evs).cur_size ∧
      (run (runs (construct id n local_dim T st) evs) e).done =
        (runs (construct id n local_dim T st) evs).done ∧
      (run (runs (construct id n local_dim T st) evs) e).bundles =
        (runs (construct id n local_dim T st) evs).bundles) ∧
    (e = EventType.PacketReceived →
      (runs (construct id n local_dim T st) evs).recv_in_step = 0 →
      (run (runs (construct id n local_dim T st) evs) e).recv_in_step = 1 ∧
      (run (runs (construct id n local_dim T st) evs) e).phase =
        (runs (construct id n local_dim T st) evs).phase ∧
      (run (runs (construct id n local_dim T st) evs) e).step =
        (runs (construct id n local_dim T st) evs).step ∧
      (run (runs (construct id n local_dim T st) evs) e).distance =
        (runs (construct id n local_dim T st) evs).distance ∧
      (run (runs (construct id n local_dim T st) evs) e).cur_size =
        (runs (construct id n local_dim T st) evs).cur_size ∧
      (run (runs (construct id n local_dim T st) evs) e).done =
        (runs (construct id n local_dim T st) evs).done ∧
      (run (runs (construct id n local_dim T st) evs) e).bundles =
        (runs (construct id n local_dim T st) evs).bundles ∧
      ((run (runs (construct id n local_dim T st) evs) e).packets =
          (runs (construct id n local_dim T st) evs).packets ∨
        (run (runs (construct id n local_dim T st) evs) e).packets = [])) ∧
    (e = EventType.PacketReceived →
      (runs (construct id n local_dim T st) evs).recv_in_step = 1 →
      (run (runs (construct id n local_dim T st) evs) e).recv_in_step = 0 ∧
      (((run (runs (construct id n local_dim T st) evs) e).phase =
            (runs (construct id n local_dim T st) evs).phase ∧
          (run (runs (construct id n local_dim T st) evs) e).step =
            (runs (construct id n local_dim T st) evs).step + 1) ∨
        ((runs (construct id n local_dim T st) evs).phase = Phase.ReduceScatter ∧
          (run (runs (construct id n local_dim T st) evs) e).phase = Phase.AllGather ∧
          (run (runs (construct id n local_dim T st) evs) e).step = 0))) ∧
    (e = EventType.StreamInit →
      (runs (construct id n local_dim T st) evs).done = false →
      (run (runs (construct id n local_dim T st) evs) e).recv_in_step = 0 ∧
      (run (runs (construct id n local_dim T st) evs) e).phase = Phase.ReduceScatter ∧
      (run (runs (construct id n local_dim T st) evs) e).step = 0) ∧
    ((runs (construct id n local_dim T st) evs).recv_in_step = 1 →
      ((run (runs (construct id n local_dim T st) evs) e).recv_in_step = 0 ↔
        (e = EventType.PacketReceived ∨
          (e = EventType.StreamInit ∧
            (runs (construct id n local_dim T st) evs).done = false)))) ∧
    (((runs (construct id n local_dim T st) evs).step <
          (run (runs (construct id n local_dim T st) evs) e).step ∨
        ((runs (construct id n local_dim T st) evs).phase = Phase.ReduceScatter ∧
          (run (runs (construct id n local_dim T st) evs) e).phase = Phase.AllGather)) →
      e = EventType.PacketReceived ∧
      (runs (construct id n local_dim T st) evs).recv_in_step = 1) := by
  have h0 := SizeInv_runs T evs _ (SizeInv_construct id n local_dim T st)
  generalize runs (construct id n local_dim T st) evs = s at *
  obtain ⟨h1, h2, h3, h4, h5, h6⟩ := h0
  obtain ⟨hf, hlk, hrec, hsame, hrs, hag, hinit⟩ := size_step s e h1 h2 h4
  have hsecond : e = EventType.PacketReceived → s.recv_in_step = 1 →
      (run s e).recv_in_step = 0 ∧
      (((run s e).phase = s.phase ∧ (run s e).step = s.step + 1) ∨
        (s.phase = Phase.ReduceScatter ∧ (run s e).phase = Phase.AllGather ∧
          (run s e).step = 0)) := by
    intro he hr1
    cases hph : s.phase
    · obtain ⟨_, k0, k⟩ := hrs he hr1 hph
      refine ⟨k0, ?_⟩
      rcases k with ⟨k1, k2⟩ | ⟨k1, k2⟩
      · exact Or.inl ⟨k1, k2⟩
      · exact Or.inr ⟨rfl, k1, k2⟩
    · obtain ⟨_, k0, k1, k2⟩ := hag he hr1 hph
      exact ⟨k0, Or.inl ⟨k1, k2⟩⟩
  refine ⟨h4, hrec, ?_, ?_, hsecond, ?_, ?_, ?_⟩
  · intro he
    have c1 : ¬ (e = EventType.PacketReceived ∧ s.recv_in_step = 1) := by
      rintro ⟨c, _⟩
      rcases he with h | h | ⟨h, _⟩ <;>
      · rw [h] at c
        exact absurd c (by decide)
    have c2 : ¬ (e = EventType.StreamInit ∧ s.done = false) := by
      rintro ⟨c, cd⟩
      rcases he with h | h | ⟨_, hd⟩
      · rw [h] at c
        exact absurd c (by decide)
      · rw [h] at c
        exact absurd c (by decide)
      · rw [hd] at cd
        exact absurd cd (by decide)
    have hne : e ≠ EventType.PacketReceived := by
      intro c
      rcases he with h | h | ⟨h, _⟩ <;>
      · rw [h] at c
        exact absurd c (by decide)
    obtain ⟨hc, _, hr⟩ := hsame c1 c2
    exact ⟨hr hne, hc.1, hc.2.1, hc.2.2.1, hc.2.2.2.1, hc.2.2.2.2.1, hc.2.2.2.2.2.2.2.2.1⟩
  · intro he h0'
    subst he
    have hp := iteratable_packets { s with
      total_packets_received := s.total_packets_received + 1,
      recv_in_step := s.recv_in_step + 1 }
    rw [run_first_completion s h0']
    rw [iteratable_eq] at hp ⊢
    exact ⟨by simp [h0'], rfl, rfl, rfl, rfl, rfl, rfl, hp⟩
  · intro he hd
    obtain ⟨_, k1, k2, k3⟩ := hinit he hd
    exact ⟨k3, k1, k2⟩
  · intro hr1
    constructor
    · intro h0'
      by_contra hcon
      have c1 : ¬ (e = EventType.PacketReceived ∧ s.recv_in_step = 1) :=
        fun c => hcon (Or.inl c.1)
      have c2 : ¬ (e = EventType.StreamInit ∧ s.done = false) := fun c => hcon (Or.inr c)
      obtain ⟨_, _, hr⟩ := hsame c1 c2
      rw [hr (fun c => hcon (Or.inl c))] at h0'
      omega
    · intro h
      rcases h with h | ⟨h, hd⟩
      · exact (hsecond h hr1).1
      · exact (hinit h hd).2.2.2
  · intro hadv
    by_contra hcon
    by_cases c2 : e = EventType.StreamInit ∧ s.done = false
    · obtain ⟨_, k1, k2, _⟩ := hinit c2.1 c2.2
      rcases hadv with hs | ⟨_, hp⟩
      · omega
      · rw [k1] at hp
        exact absurd hp (by decide)
    · obtain ⟨hc, _, _⟩ := hsame hcon c2
      rcases hadv with hs | ⟨hp1, hp2⟩
      · have := hc.2.1
        omega
      · rw [hc.1, hp1] at hp2
        exact absurd hp2 (by decide)

set_option maxRecDepth 100000 in
/-- C10 on 9 nodes: right after `StreamInit` and two credit returns the counter
is 0 and the first completion only counts; one completion later the counter is
1, a credit return leaves it and the step alone, and the second completion
resets it and advances the step from 0 to 1. -/
theorem C10_two_completions_per_step_witness :
    (runs (construct 0 9 false 2187 StreamState.Created)
      ((canonical_schedule 2).take 3)).recv_in_step = 0 ∧
    (run (runs (construct 0 9 false 2187 StreamState.Created)
      ((canonical_schedule 2).take 3)) EventType.PacketReceived).recv_in_step = 1 ∧
    (run (runs (construct 0 9 false 2187 StreamState.Created)
      ((canonical_schedule 2).take 3)) EventType.PacketReceived).step =
      (runs (construct 0 9 false 2187 StreamState.Created)
        ((canonical_schedule 2).take 3)).step ∧
    (runs (construct 0 9 false 2187 StreamState.Created)
      ((canonical_schedule 2).take 4)).recv_in_step = 1 ∧
    (run (runs (construct 0 9 false 2187 StreamState.Created)
      ((canonical_schedule 2).take 4)) EventType.General).recv_in_step =
      (runs (construct 0 9 false 2187 StreamState.Created)
        ((canonical_schedule 2).take 4)).recv_in_step ∧
    (run (runs (construct 0 9 false 2187 StreamState.Created)
      ((canonical_schedule 2).take 4)) EventType.PacketReceived).recv_in_step = 0 ∧
    (runs (construct 0 9 false 2187 StreamState.Created)
      ((canonical_schedule 2).take 4)).step = 0 ∧
    (run (runs (construct 0 9 false 2187 StreamState.Created)
      ((canonical_schedule 2).take 4)) EventType.PacketReceived).step = 1 ∧
    (run (runs (construct 0 9 false 2187 StreamState.Created)
      ((canonical_schedule 2).take 4)) EventType.StreamInit).recv_in_step = 0 :=
  ⟨by decide,
   ((C10_two_completions_per_step 0 9 false 2187 StreamState.Created
      ((canonical_schedule 2).take 3) EventType.PacketReceived).2.2.2.1 rfl (by decide)).1,
   ((C10_two_completions_per_step 0 9 false 2187 StreamState.Created
      ((canonical_schedule 2).take 3) EventType.PacketReceived).2.2.2.1 rfl
      (by decide)).2.2.1,
   by decide,
   ((C10_two_completions_per_step 0 9 false 2187 StreamState.Created
      ((canonical_schedule 2).take 4) EventType.General).2.2.1 (Or.inl rfl)).1,
   ((C10_two_completions_per_step 0 9 false 2187 StreamState.Created
      ((canonical_schedule 2).take 4) EventType.PacketReceived).2.2.2.2.1 rfl (by decide)).1,
   by decide, by decide,
   ((C10_two_completions_per_step 0 9 false 2187 StreamState.Created
      ((canonical_schedule 2).take 4) EventType.StreamInit).2.2.2.2.2.2.1 (by decide)).2
      (Or.inr ⟨rfl, by decide⟩)⟩

set_option maxRecDepth 100000 in
/-- C10 fails as stated: on 9 nodes, after `StreamInit`, two credit returns and
one completion the counter is 1 and the instance is not done; a `StreamInit`
delivered then resets the counter to 0 although it has not reached 2 (one
completion has been counted, before and after). -/
theorem C10_two_completions_per_step_counterexample :
    (runs (construct 0 9 false 2187 StreamState.Created)
      ((canonical_schedule 2).take 4)).recv_in_step = 1 ∧
    (runs (construct 0 9 false 2187 StreamState.Created)
      ((canonical_schedule 2).take 4)).done = false ∧
    (runs (construct 0 9 false 2187 StreamState.Created)
      ((canonical_schedule 2).take 4)).total_packets_received = 1 ∧
    (run (runs (construct 0 9 false 2187 StreamState.Created)
      ((canonical_schedule 2).take 4)) EventType.StreamInit).recv_in_step = 0 ∧
    (run (runs (construct 0 9 false 2187 StreamState.Created)
      ((canonical_schedule 2).take 4)) EventType.StreamInit).total_packets_received = 1 := by
  decide

/-! ## Monotonicity of the working size -/

/-- C7, as the code has it: on a ring of `n ≥ 2` nodes `StreamInit` starts a
run in reduce-scatter with the working size at `total_size`, and whatever
events follow, every event after them does this.  For every payload: the
working size changes only on the second completion of a step and on a
`StreamInit` that finds the instance not done; on the second completion of a
reduce-scatter step
it becomes `shrink cur_size` and is at least 1; on the second completion of an
all-gather step it becomes `grow total_size cur_size` and is at most
`total_size`.  For a payload of at least one byte: an event other than
`StreamInit` that finds the phase at reduce-scatter does not increase the
working size, and an event that finds the phase at all-gather does not decrease
it, provided that the product `cur_size * 3` stays below `2 ^ 64` when the
event is a growth.  A `StreamInit` that finds the instance not done sets the
working size back to `total_size`, which for a payload of at least one byte it
never exceeds. -/
theorem C7_size_monotone (id n : Int) (local_dim : Bool) (T : Nat) (st : StreamState)
    (evs : List EventType) (e : EventType) (hn : 2 ≤ n) :
    ((run (construct id n local_dim T st) EventType.StreamInit).done = false ∧
      (run (construct id n local_dim T st) EventType.StreamInit).phase = Phase.ReduceScatter ∧
      (run (construct id n local_dim T st) EventType.StreamInit).cur_size = T ∧
      (run (construct id n local_dim T st) EventType.StreamInit).total_size = T) ∧
    (¬ (e = EventType.PacketReceived ∧
          (runs (construct id n local_dim T st)
            (EventType.StreamInit :: evs)).recv_in_step = 1) →
      ¬ (e = EventType.StreamInit ∧
          (runs (construct id n local_dim T st) (EventType.StreamInit :: evs)).done = false) →
      (run (runs (construct id n local_dim T st) (EventType.StreamInit :: evs)) e).cur_size =
        (runs (construct id n local_dim T st) (EventType.StreamInit :: evs)).cur_size) ∧
    ((runs (construct id n local_dim T st) (EventType.StreamInit :: evs)).phase =
        Phase.ReduceScatter → e = EventType.PacketReceived →
      (runs (construct id n local_dim T st) (EventType.StreamInit :: evs)).recv_in_step = 1 →
      (run (runs (construct id n local_dim T st) (EventType.StreamInit :: evs)) e).cur_size =
        shrink (runs (construct id n local_dim T st) (EventType.StreamInit :: evs)).cur_size ∧
      1 ≤ (run (runs (construct id n local_dim T st)
        (EventType.StreamInit :: evs)) e).cur_size) ∧
    ((runs (construct id n local_dim T st) (EventType.StreamInit :: evs)).phase =
        Phase.AllGather → e = EventType.PacketReceived →
      (runs (construct id n local_dim T st) (EventType.StreamInit :: evs)).recv_in_step = 1 →
      (run (runs (construct id n local_dim T st) (EventType.StreamInit :: evs)) e).cur_size =
        grow (runs (construct id n local_dim T st) (EventType.StreamInit :: evs)).total_size
          (runs (construct id n local_dim T st) (EventType.StreamInit :: evs)).cur_size ∧
      (run (runs (construct id n local_dim T st) (EventType.StreamInit :: evs)) e).cur_size ≤
        (runs (construct id n local_dim T st) (EventType.StreamInit :: evs)).total_size) ∧
    (1 ≤ T →
      (runs (construct id n local_dim T st) (EventType.StreamInit :: evs)).phase =
        Phase.ReduceScatter → e ≠ EventType.StreamInit →
      (run (runs (construct id n local_dim T st) (EventType.StreamInit :: evs)) e).cur_size ≤
        (runs (construct id n local_dim T st) (EventType.StreamInit :: evs)).cur_size) ∧
    (1 ≤ T →
      (runs (construct id n local_dim T st) (EventType.StreamInit :: evs)).phase =
        Phase.AllGather →
      (e = EventType.PacketReceived →
        (runs (construct id n local_dim T st) (EventType.StreamInit :: evs)).recv_in_step = 1 →
        (runs (construct id n local_dim T st) (EventType.StreamInit :: evs)).cur_size * 3
          < 2 ^ 64) →
      (runs (construct id n local_dim T st) (EventType.StreamInit :: evs)).cur_size ≤
        (run (runs (construct id n local_dim T st)
          (EventType.StreamInit :: evs)) e).cur_size) ∧
    (e = EventType.StreamInit →
      (runs (construct id n local_dim T st) (EventType.StreamInit :: evs)).done = false →
      (run (runs (construct id n local_dim T st) (EventType.StreamInit :: evs)) e).cur_size =
        (runs (construct id n local_dim T st) (EventType.StreamInit :: evs)).total_size) ∧
    (1 ≤ T →
      (runs (construct id n local_dim T st) (EventType.StreamInit :: evs)).cur_size ≤
        (runs (construct id n local_dim T st) (EventType.StreamInit :: evs)).total_size) := by
  have hstart : (run (construct id n local_dim T st) EventType.StreamInit).done = false ∧
      (run (construct id n local_dim T st) EventType.StreamInit).phase = Phase.ReduceScatter ∧
      (run (construct id n local_dim T st) EventType.StreamInit).cur_size = T ∧
      (run (construct id n local_dim T st) EventType.StreamInit).total_size = T := by
    have hK := ceil_log3_pos n hn
    obtain ⟨hf, _, _, hcase⟩ := run_StreamInit (construct id n local_dim T st) rfl rfl
    rcases hcase with ⟨hd, _⟩ | ⟨_, hd, _, hph, _, _, _, _, hcur, _⟩
    · simp only [construct, decide_eq_true_eq] at hd
      omega
    · exact ⟨hd, hph, hcur, hf.2.2.2.2.1⟩
  have h0 := SizeInv_runs T (EventType.StreamInit :: evs) _
    (SizeInv_construct id n local_dim T st)
  generalize runs (construct id n local_dim T st) (EventType.StreamInit :: evs) = s at *
  obtain ⟨h1, h2, h3, h4, h5, h6⟩ := h0
  obtain ⟨hf, hlk, hrec, hsame, hrs, hag, hinit⟩ := size_step s e h1 h2 h4
  refine ⟨hstart, fun c1 c2 => (hsame c1 c2).1.2.2.2.1, ?_, ?_, ?_, ?_,
    fun he hd => (hinit he hd).1, fun hT => by rw [h3]; exact (h6 hT).1⟩
  · intro hph he hr
    obtain ⟨k1, _⟩ := hrs he hr hph
    rw [k1]
    exact ⟨rfl, shrink_pos _⟩
  · intro hph he hr
    obtain ⟨k1, _⟩ := hag he hr hph
    rw [k1]
    exact ⟨rfl, grow_le _ _⟩
  · intro hT hph he
    obtain ⟨b1, b2⟩ := h6 hT
    by_cases c1 : e = EventType.PacketReceived ∧ s.recv_in_step = 1
    · rw [(hrs c1.1 c1.2 hph).1]
      exact shrink_le_self _ (b2 hph)
    · rw [(hsame c1 (fun c => he c.1)).1.2.2.2.1]
  · intro hT hph hw
    obtain ⟨b1, b2⟩ := h6 hT
    by_cases c1 : e = EventType.PacketReceived ∧ s.recv_in_step = 1
    · have hw' : s.cur_size * 3 < U64 := by
        rw [U64_eq]
        have := hw c1.1 c1.2
        omega
      rw [(hag c1.1 c1.2 hph).1, grow_eq _ _ hw', h3]
      omega
    · by_cases c2 : e = EventType.StreamInit ∧ s.done = false
      · rw [(hinit c2.1 c2.2).1, h3]
        exact b1
      · rw [(hsame c1 c2).1.2.2.2.1]

set_option maxRecDepth 100000 in
/-- C7 on 9 nodes and 2187 bytes: the second completion of the first
reduce-scatter step shrinks 2187 to 729, and the second completion of the
first all-gather step grows 243 to 729. -/
theorem C7_size_monotone_witness :
    (runs (construct 0 9 false 2187 StreamState.Created)
      (EventType.StreamInit :: (canonical_tail 2).take 3)).phase = Phase.ReduceScatter ∧
    (runs (construct 0 9 false 2187 StreamState.Created)
      (EventType.StreamInit :: (canonical_tail 2).take 3)).cur_size = 2187 ∧
    (run (runs (construct 0 9 false 2187 StreamState.Created)
      (EventType.StreamInit :: (canonical_tail 2).take 3)) EventType.PacketReceived).cur_size
        = 729 ∧
    (run (runs (construct 0 9 false 2187 StreamState.Created)
      (EventType.StreamInit :: (canonical_tail 2).take 3)) EventType.PacketReceived).cur_size ≤
      (runs (construct 0 9 false 2187 StreamState.Created)
        (EventType.StreamInit :: (canonical_tail 2).take 3)).cur_size ∧
    1 ≤ (run (runs (construct 0 9 false 2187 StreamState.Created)
      (EventType.StreamInit :: (canonical_tail 2).take 3)) EventType.PacketReceived).cur_size ∧
    (runs (construct 0 9 false 2187 StreamState.Created)
      (EventType.StreamInit :: (canonical_tail 2).take 11)).phase = Phase.AllGather ∧
    (runs (construct 0 9 false 2187 StreamState.Created)
      (EventType.StreamInit :: (canonical_tail 2).take 11)).cur_size = 243 ∧
    (run (runs (construct 0 9 false 2187 StreamState.Created)
      (EventType.StreamInit :: (canonical_tail 2).take 11)) EventType.PacketReceived).cur_size
        = 729 ∧
    (runs (construct 0 9 false 2187 StreamState.Created)
      (EventType.StreamInit :: (canonical_tail 2).take 11)).cur_size ≤
      (run (runs (construct 0 9 false 2187 StreamState.Created)
        (EventType.StreamInit :: (canonical_tail 2).take 11)) EventType.PacketReceived).cur_size ∧
    (run (runs (construct 0 9 false 2187 StreamState.Created)
      (EventType.StreamInit :: (canonical_tail 2).take 11)) EventType.PacketReceived).cur_size ≤
      (runs (construct 0 9 false 2187 StreamState.Created)
        (EventType.StreamInit :: (canonical_tail 2).take 11)).total_size ∧
    (run (runs (construct 0 9 false 2187 StreamState.Created)
      (EventType.StreamInit :: (canonical_tail 2).take 3)) EventType.General).cur_size =
      (runs (construct 0 9 false 2187 StreamState.Created)
        (EventType.StreamInit :: (canonical_tail 2).take 3)).cur_size :=
  ⟨by decide, by decide, by decide,
   (C7_size_monotone 0 9 false 2187 StreamState.Created ((canonical_tail 2).take 3)
      EventType.PacketReceived (by decide)).2.2.2.2.1 (by decide) (by decide) (by decide),
   ((C7_size_monotone 0 9 false 2187 StreamState.Created ((canonical_tail 2).take 3)
      EventType.PacketReceived (by decide)).2.2.1 (by decide) rfl (by decide)).2,
   by decide, by decide, by decide,
   (C7_size_monotone 0 9 false 2187 StreamState.Created ((canonical_tail 2).take 11)
      EventType.PacketReceived (by decide)).2.2.2.2.2.1 (by decide) (by decide)
      (fun _ _ => by decide),
   ((C7_size_monotone 0 9 false 2187 StreamState.Created ((canonical_tail 2).take 11)
      EventType.PacketReceived (by decide)).2.2.2.1 (by decide) rfl (by decide)).2,
   (C7_size_monotone 0 9 false 2187 StreamState.Created ((canonical_tail 2).take 3)
      EventType.General (by decide)).2.1 (by decide) (by decide)⟩

set_option maxRecDepth 100000 in
/-- C7 fails for an empty payload: on 4 nodes with `total_size = 0` the second
completion of the first reduce-scatter step raises the working size from 0 to
the floor 1 while the phase is and stays reduce-scatter, and the second
completion of the first all-gather step lowers it from 1 to the cap 0.  It
also fails across a second `StreamInit`: on 9 nodes with 2187 bytes the run is
in reduce-scatter with a working size of 729 after the first step, and a
`StreamInit` delivered then sets it back to 2187. -/
theorem C7_size_monotone_counterexample :
    (runs (construct 0 4 false 0 StreamState.Created)
      ((canonical_schedule 2).take 4)).phase = Phase.ReduceScatter ∧
    (run (runs (construct 0 4 false 0 StreamState.Created)
      ((canonical_schedule 2).take 4)) EventType.PacketReceived).phase =
      Phase.ReduceScatter ∧
    ¬ ((run (runs (construct 0 4 false 0 StreamState.Created)
      ((canonical_schedule 2).take 4)) EventType.PacketReceived).cur_size ≤
      (runs (construct 0 4 false 0 StreamState.Created)
        ((canonical_schedule 2).take 4)).cur_size) ∧
    (runs (construct 0 4 false 0 StreamState.Created)
      ((canonical_schedule 2).take 12)).phase = Phase.AllGather ∧
    ¬ ((runs (construct 0 4 false 0 StreamState.Created)
        ((canonical_schedule 2).take 12)).cur_size ≤
      (run (runs (construct 0 4 false 0 StreamState.Created)
        ((canonical_schedule 2).take 12)) EventType.PacketReceived).cur_size) ∧
    (runs (construct 0 9 false 2187 StreamState.Created)
      ((canonical_schedule 2).take 5)).phase = Phase.ReduceScatter ∧
    (runs (construct 0 9 false 2187 StreamState.Created)
      ((canonical_schedule 2).take 5)).cur_size = 729 ∧
    (run (runs (construct 0 9 false 2187 StreamState.Created)
      ((canonical_schedule 2).take 5)) EventType.StreamInit).cur_size = 2187 := by
  decide

/-! ## Distance and partner selection -/

/-- A power of 3 whose exponent is below `ceil_log3 n` is below `n`. -/
theorem pow_lt_of_lt_ceil_log3 (n : Int) (j : Nat) (h : (j : Int) < ceil_log3 n) :
    ((3 ^ j : Nat) : Int) < n := by
  obtain ⟨_, _, hmin⟩ := ceil_log3_spec n
  by_contra hc
  have hle : n ≤ 3 ^ j := by
    push_cast at hc
    omega
  have := hmin j hle
  omega

theorem toInt32_of_lt (d : Nat) (h : d < 2 ^ 31) : toInt32 d = (d : Int) := by
  unfold toInt32
  have e : d % 2 ^ 32 = d := Nat.mod_eq_of_lt (by omega)
  rw [e, if_pos h]

theorem DistInv_construct (id n : Int) (local_dim : Bool) (T : Nat) (st : StreamState)
    (hn : 2 ≤ n) : DistInv id n (construct id n local_dim T st) := by
  have hK := ceil_log3_pos n hn
  refine ⟨rfl, rfl, rfl, rfl, rfl, 0, rfl, ?_, ?_, ?_⟩
  · show ((0 : Nat) : Int) < ceil_log3 n
    omega
  · intro _
    rfl
  · intro hd
    simp only [construct, decide_eq_true_eq] at hd
    omega

theorem DistInv_run (id n : Int) (s : State) (e : EventType) (hn : 2 ≤ n)
    (hn31 : n < 2 ^ 31) (h : DistInv id n s) : DistInv id n (run s e) := by
  have hK := ceil_log3_pos n hn
  obtain ⟨i1, i2, i3, i4, i5, j, d1, d2, d3, d4⟩ := h
  have same : ∀ t : State, Frame s t → t.locked_packets = [] → t.distance = s.distance →
      t.done = s.done → t.step = s.step → t.phase = s.phase → DistInv id n t := by
    intro t hf hl hd hdn hs hp
    obtain ⟨f1, f2, f3, f4, _⟩ := hf
    exact ⟨hl, by rw [f3]; exact i2, by rw [f1]; exact i3, by rw [f2]; exact i4,
      by rw [f4]; exact i5, j, by rw [hd]; exact d1, by rw [f4]; exact d2,
      by rw [hdn, hs]; exact d3, by rw [hdn, hs, hp, f4]; exact d4⟩
  have mk : ∀ (t : State) (j' : Nat), Frame s t → t.locked_packets = [] →
      t.distance = 3 ^ j' → (j' : Int) < ceil_log3 n →
      (t.done = false → t.step = j') →
      (t.done = true → t.phase = Phase.AllGather ∧ ceil_log3 n ≤ t.step) →
      DistInv id n t := by
    intro t j' hf hl hd hj h3 h4
    obtain ⟨f1, f2, f3, f4, _⟩ := hf
    have hst : t.steps_total = ceil_log3 n := by rw [f4]; exact i5
    exact ⟨hl, by rw [f3]; exact i2, by rw [f1]; exact i3, by rw [f2]; exact i4, hst,
      j', hd, by rw [hst]; exact hj, h3, by rw [hst]; exact h4⟩
  have hmul : (j : Int) + 1 < ceil_log3 n → (s.distance * 3) % U64 = 3 ^ (j + 1) := by
    intro hj
    have hlt := pow_lt_of_lt_ceil_log3 n (j + 1) (by push_cast; exact hj)
    have hpow : s.distance * 3 = 3 ^ (j + 1) := by rw [d1, pow_succ]
    rw [hpow]
    apply Nat.mod_eq_of_lt
    rw [U64_eq]
    omega
  rw [i5] at d2 d4
  cases e with
  | General =>
    obtain ⟨hf, hc, _, _, hl⟩ := run_General s i1
    exact same _ hf hl hc.2.2.1 hc.2.2.2.2.1 hc.2.1 hc.1
  | Other => exact same s ⟨rfl, rfl, rfl, rfl, rfl, rfl, rfl, rfl⟩ i1 rfl rfl rfl rfl
  | StreamInit =>
    obtain ⟨hf, hl, _, hcase⟩ := run_StreamInit s i1 i2
    rcases hcase with ⟨_, hc, _⟩ | ⟨_, a1, _, _, a4, a5, _⟩
    · exact same _ hf hl hc.2.2.1 hc.2.2.2.2.1 hc.2.1 hc.1
    · refine mk _ 0 hf hl (by rw [a5]; rfl) (by push_cast; omega) ?_ ?_
      · intro _
        rw [a4]
        rfl
      · intro hd
        rw [a1] at hd
        exact absurd hd (by decide)
  | PacketReceived =>
    obtain ⟨hf, hl, _, hcase⟩ := run_PacketReceived s i1 i2
    rw [i5] at hcase
    rcases hcase with ⟨_, hc, _⟩ | ⟨_, hph, hst, ha, _⟩ | ⟨_, hph, hst, ha, _⟩ |
        ⟨_, hph, hst, _, ha, _⟩ | ⟨_, hph, hst, _, ha, _⟩ | ⟨_, hph, hst, ha, _⟩
    · exact same _ hf hl hc.2.2.1 hc.2.2.2.2.1 hc.2.1 hc.1
    · obtain ⟨a1, a2, a3, a4, a5, a6, a7, a8⟩ := ha
      have hd : s.done = false := by
        cases hd' : s.done
        · rfl
        · have := (d4 hd').1
          rw [hph] at this
          exact absurd this (by decide)
      refine mk _ 0 hf hl (by rw [a3]; rfl) (by push_cast; omega) ?_ ?_
      · intro _
        rw [a2]
        rfl
      · intro hd'
        rw [a5, hd] at hd'
        exact absurd hd' (by decide)
    · obtain ⟨a1, a2, a3, a4, a5, a6, a7, a8⟩ := ha
      have hd : s.done = false := by
        cases hd' : s.done
        · rfl
        · have := (d4 hd').1
          rw [hph] at this
          exact absurd this (by decide)
      have hsj := d3 hd
      have hj : (j : Int) + 1 < ceil_log3 n := by omega
      refine mk _ (j + 1) hf hl (by rw [a3]; exact hmul hj) (by push_cast; exact hj) ?_ ?_
      · intro _
        rw [a2, hsj]
        push_cast
        rfl
      · intro hd'
        rw [a5, hd] at hd'
        exact absurd hd' (by decide)
    · obtain ⟨a1, a2, a3, a4, a5, a6, a7, a8⟩ := ha
      refine mk _ j hf hl (by rw [a3]; exact d1) d2 ?_ ?_
      · intro hd'
        rw [a5] at hd'
        exact absurd hd' (by decide)
      · intro _
        rw [a2]
        exact ⟨a1, by omega⟩
    · obtain ⟨a1, a2, a3, a4, a5, a6, a7, a8⟩ := ha
      refine mk _ j hf hl (by rw [a3]; exact d1) d2 ?_ ?_
      · intro hd'
        rw [a5] at hd'
        exact absurd hd' (by decide)
      · intro _
        rw [a2]
        exact ⟨a1, by omega⟩
    · obtain ⟨a1, a2, a3, a4, a5, a6, a7, a8⟩ := ha
      have hd : s.done = false := by
        cases hd' : s.done
        · rfl
        · have := (d4 hd').2
          omega
      have hsj := d3 hd
      have hj : (j : Int) + 1 < ceil_log3 n := by omega
      refine mk _ (j + 1) hf hl (by rw [a3]; exact hmul hj) (by push_cast; exact hj) ?_ ?_
      · intro _
        rw [a2, hsj]
        push_cast
        rfl
      · intro hd'
        rw [a5, hd] at hd'
        exact absurd hd' (by decide)

theorem DistInv_runs (id n : Int) (hn : 2 ≤ n) (hn31 : n < 2 ^ 31) (evs : List EventType) :
    ∀ s : State, DistInv id n s → DistInv id n (runs s evs) := by
  induction evs with
  | nil =>
    intro s h
    exact h
  | cons e es ih =>
    intro s h
    exact ih (run s e) (DistInv_run id n s e hn hn31 h)

/-- Under the invariant the distance lies in `[1, n)`. -/
theorem DistInv_distance (id n : Int) (s : State) (h : DistInv id n s) :
    1 ≤ s.distance ∧ (s.distance : Int) < n := by
  obtain ⟨_, _, _, _, i5, j, d1, d2, _, _⟩ := h
  rw [i5] at d2
  have := pow_lt_of_lt_ceil_log3 n j d2
  rw [d1]
  exact ⟨Nat.one_le_pow _ _ (by decide), this⟩

/-- A sum that fits an `int` is not changed by the reduction to 32 bits. -/
theorem wrap32_of_range (x : Int) (h1 : -2 ^ 31 ≤ x) (h2 : x < 2 ^ 31) : wrap32 x = x := by
  unfold wrap32
  omega

/-- For a participant `0 ≤ id < n` with `id + n ≤ 2 ^ 31` and a distance in
`[1, n)` no `int` sum of `insert_packet` overflows, and the two signed
remainders are the mathematical ones. -/
theorem partner_arith (id n : Int) (d : Nat) (hsum : id + n ≤ 2 ^ 31) (hid0 : 0 ≤ id)
    (hid : id < n) (hd1 : 1 ≤ d) (hd : (d : Int) < n) :
    Int.tmod (wrap32 (id + toInt32 d)) n = (id + d) % n ∧
    Int.tmod (wrap32 (wrap32 (id - toInt32 d) + n)) n = (id - d + n) % n := by
  have hd31 : d < 2 ^ 31 := by omega
  have hd1' : (1 : Int) ≤ (d : Int) := by exact_mod_cast hd1
  rw [toInt32_of_lt d hd31, wrap32_of_range (id + d) (by omega) (by omega),
    wrap32_of_range (id - d) (by omega) (by omega),
    wrap32_of_range (id - d + n) (by omega) (by omega)]
  exact ⟨Int.tmod_eq_emod (by omega) (by omega), Int.tmod_eq_emod (by omega) (by omega)⟩

/-- On a ring of at least one node the remainder is taken. -/
theorem int_rem_of_pos (x n : Int) (hn : 0 < n) : int_rem x n = some (Int.tmod x n) := by
  unfold int_rem
  rw [if_neg]
  rintro (h | ⟨_, h⟩) <;> omega

/-- Where no `int` sum overflows, the two partners of a state are
`(id + distance) mod n` and `(id - distance + n) mod n`. -/
theorem partner_in_range (t : State) (hsum : t.id + t.nodes_in_ring ≤ 2 ^ 31)
    (hid0 : 0 ≤ t.id) (hid : t.id < t.nodes_in_ring) (hd1 : 1 ≤ t.distance)
    (hd : (t.distance : Int) < t.nodes_in_ring) :
    partner { t with dir_toggle := 0 } = some ((t.id + t.distance) % t.nodes_in_ring) ∧
    partner { t with dir_toggle := 1 } =
      some ((t.id - t.distance + t.nodes_in_ring) % t.nodes_in_ring) := by
  obtain ⟨p1, p2⟩ := partner_arith t.id t.nodes_in_ring t.distance hsum hid0 hid hd1 hd
  have hn0 : 0 < t.nodes_in_ring := by omega
  constructor
  · simp only [partner, ↓reduceIte]
    rw [int_rem_of_pos _ _ hn0, p1]
  · simp only [partner, one_ne_zero, ↓reduceIte]
    rw [int_rem_of_pos _ _ hn0, p2]

/-- Where no `int` sum overflows, the pair of bundles of a state goes to
`(id + distance) mod n` and to `(id - distance + n) mod n`. -/
theorem pair_of_in_range (t : State) (hsum : t.id + t.nodes_in_ring ≤ 2 ^ 31)
    (hid0 : 0 ≤ t.id) (hid : t.id < t.nodes_in_ring) (hd1 : 1 ≤ t.distance)
    (hd : (t.distance : Int) < t.nodes_in_ring) :
    pair_of t =
      [bundle_of t (send_size t) ((t.id + t.distance) % t.nodes_in_ring),
       bundle_of t (send_size t) ((t.id - t.distance + t.nodes_in_ring) % t.nodes_in_ring)] := by
  obtain ⟨p1, p2⟩ := partner_in_range t hsum hid0 hid hd1 hd
  unfold pair_of dest_fwd dest_bwd
  rw [p1, p2]
  rfl

/-- Every event sends either no bundle or the pair `pair_of` of the state it
leaves. -/
theorem run_bundles (s : State) (e : EventType) (hl : s.locked_packets = [])
    (hp : s.parallel_reduce = 2) :
    (run s e).bundles = s.bundles ∨ (run s e).bundles = s.bundles ++ pair_of (run s e) := by
  cases e with
  | General => exact Or.inl (run_General s hl).2.1.2.2.2.2.2.2.2.2.1
  | Other => exact Or.inl rfl
  | StreamInit =>
    obtain ⟨_, _, _, hcase⟩ := run_StreamInit s hl hp
    rcases hcase with ⟨_, hc, _⟩ | ⟨_, _, _, _, _, _, _, _, _, _, hb⟩
    · exact Or.inl hc.2.2.2.2.2.2.2.2.1
    · exact Or.inr hb
  | PacketReceived =>
    obtain ⟨_, _, _, hcase⟩ := run_PacketReceived s hl hp
    rcases hcase with ⟨_, hc, _⟩ | ⟨_, _, _, _, _, hb⟩ | ⟨_, _, _, _, _, hb⟩ |
        ⟨_, _, _, _, _, _, hb⟩ | ⟨_, _, _, _, _, _, hb⟩ | ⟨_, _, _, _, _, hb⟩
    · exact Or.inl hc.2.2.2.2.2.2.2.2.1
    · exact Or.inr hb
    · exact Or.inr hb
    · exact Or.inr hb
    · exact Or.inl hb
    · exact Or.inr hb

/-- Partner selection where no `int` sum overflows: on a ring of `n ≥ 2` nodes
and for a participant `0 ≤ id < n` with `id + n ≤ 2 ^ 31`, after any sequence
of events delivered to a fresh instance: (a) the distance lies in `[1, n)`;
(b) an event sends either no bundle or exactly two, the first addressed to
`(id + distance) mod n` and the second to `(id - distance + n) mod n`, with
`mod` the non-negative remainder; (c) in every state with these `id`, `n` and a
distance in `[1, n)`, `insert_packet` picks `(id + distance) mod n` and leaves
the toggle at 1 when the toggle is 0, picks `(id - distance + n) mod n` and
leaves the toggle at 0 when the toggle is 1, and queues a packet addressed to
the partner it picked. -/
theorem partner_selection_in_range (id n : Int) (local_dim : Bool) (T : Nat)
    (st : StreamState) (evs : List EventType) (e : EventType) (hn : 2 ≤ n)
    (hn31 : n < 2 ^ 31) (hsum : id + n ≤ 2 ^ 31) (hid0 : 0 ≤ id) (hid : id < n) :
    (1 ≤ (run (runs (construct id n local_dim T st) evs) e).distance ∧
      ((run (runs (construct id n local_dim T st) evs) e).distance : Int) < n) ∧
    ((run (runs (construct id n local_dim T st) evs) e).bundles =
        (runs (construct id n local_dim T st) evs).bundles ∨
      (run (runs (construct id n local_dim T st) evs) e).bundles =
        (runs (construct id n local_dim T st) evs).bundles ++
          [bundle_of (run (runs (construct id n local_dim T st) evs) e)
             (send_size (run (runs (construct id n local_dim T st) evs) e))
             ((id + (run (runs (construct id n local_dim T st) evs) e).distance) % n),
           bundle_of (run (runs (construct id n local_dim T st) evs) e)
             (send_size (run (runs (construct id n local_dim T st) evs) e))
             ((id - (run (runs (construct id n local_dim T st) evs) e).distance + n) % n)]) ∧
    (∀ t : State, t.id = id → t.nodes_in_ring = n → 1 ≤ t.distance →
      (t.distance : Int) < n →
      (t.dir_toggle = 0 →
        partner t = some ((id + t.distance) % n) ∧ (insert_packet t).dir_toggle = 1 ∧
        (insert_packet t).packets = t.packets ++
          [{ msg_size := send_size t, preferred_src := (id + t.distance) % n,
             preferred_dest := (id + t.distance) % n }]) ∧
      (t.dir_toggle = 1 →
        partner t = some ((id - t.distance + n) % n) ∧ (insert_packet t).dir_toggle = 0 ∧
        (insert_packet t).packets = t.packets ++
          [{ msg_size := send_size t, preferred_src := (id - t.distance + n) % n,
             preferred_dest := (id - t.distance + n) % n }])) := by
  have h0 := DistInv_runs id n hn hn31 evs _ (DistInv_construct id n local_dim T st hn)
  generalize runs (construct id n local_dim T st) evs = s at *
  have h1 := DistInv_run id n s e hn hn31 h0
  have hdist := DistInv_distance id n _ h1
  refine ⟨hdist, ?_, ?_⟩
  · have hpair := pair_of_in_range (run s e) (by rw [h1.2.2.1, h1.2.2.2.1]; exact hsum)
      (by rw [h1.2.2.1]; exact hid0) (by rw [h1.2.2.1, h1.2.2.2.1]; exact hid) hdist.1
      (by rw [h1.2.2.2.1]; exact hdist.2)
    rw [h1.2.2.1, h1.2.2.2.1] at hpair
    rw [← hpair]
    exact run_bundles s e h0.1 h0.2.1
  · intro t ht hr hd1 hd
    obtain ⟨p1, p2⟩ := partner_arith id n t.distance hsum hid0 hid hd1 hd
    have hn0 : 0 < t.nodes_in_ring := by omega
    have e0 : t.dir_toggle = 0 → partner t = some ((id + t.distance) % n) := by
      intro htg
      unfold partner
      rw [if_pos htg, int_rem_of_pos _ _ hn0, ht, hr, p1]
    have e1 : t.dir_toggle = 1 → partner t = some ((id - t.distance + n) % n) := by
      intro htg
      unfold partner
      rw [if_neg (by rw [htg]; decide), int_rem_of_pos _ _ hn0, ht, hr, p2]
    refine ⟨?_, ?_⟩
    · intro htg
      refine ⟨e0 htg, ?_, ?_⟩
      · simp only [insert_packet, release_packets]
        split <;> simp [htg] <;> decide
      · simp only [insert_packet, release_packets, e0 htg]
        split <;> simp [send_size]
    · intro htg
      refine ⟨e1 htg, ?_, ?_⟩
      · simp only [insert_packet, release_packets]
        split <;> simp [htg]
      · simp only [insert_packet, release_packets, e1 htg]
        split <;> simp [send_size]

set_option maxRecDepth 100000 in
/-- C8 fails on a ring of 2000000000 nodes: participant 1999999999 requests its
first exchange with toggle 0 and its second with toggle 1, at distance 1.  The
first goes to `(id + 1) mod n = 0`.  For the second the `int` sum
`id - 1 + n = 3999999998` does not fit 32 bits; its low 32 bits are
`-294967298`, the signed remainder of that by `n` is `-294967298`, and the
request is addressed to `-294967298`, where `(id - distance + n) mod n` is
`1999999998`.  The toggle is flipped as the claim says. -/
theorem C8_partner_wraps_on_large_ring :
    (construct 1999999999 2000000000 false 100 StreamState.Created).dir_toggle = 0 ∧
    (construct 1999999999 2000000000 false 100 StreamState.Created).distance = 1 ∧
    partner (construct 1999999999 2000000000 false 100 StreamState.Created) = some 0 ∧
    (insert_packet
      (construct 1999999999 2000000000 false 100 StreamState.Created)).dir_toggle = 1 ∧
    partner (insert_packet
      (construct 1999999999 2000000000 false 100 StreamState.Created)) =
        some (-294967298) ∧
    ((insert_packet (insert_packet
      (construct 1999999999 2000000000 false 100 StreamState.Created))).packets.map
        fun p => p.preferred_dest) = [0, -294967298] ∧
    (insert_packet (insert_packet
      (construct 1999999999 2000000000 false 100 StreamState.Created))).dir_toggle = 0 ∧
    ((1999999999 : Int) - ((1 : Nat) : Int) + 2000000000) % 2000000000 = 1999999998 ∧
    ((run (construct 1999999999 2000000000 false 100 StreamState.Created)
      EventType.StreamInit).bundles.map
        fun b => b.locked_packets.map fun p => p.preferred_dest) = [[0], [-294967298]] := by
  decide

/-! ## Step counter, phase and drain flags -/

/-- C11, as the code has it: after any sequence of events delivered to a fresh
instance, a completion that finds the receive counter at 1 resets it to 0 and
advances the step counter by exactly 1, except when it ends the last
reduce-scatter step: then the phase becomes all-gather and the step counter is
reset to 0. -/
theorem C11_step_advance (id n : Int) (local_dim : Bool) (T : Nat) (st : StreamState)
    (evs : List EventType)
    (h1 : (runs (construct id n local_dim T st) evs).recv_in_step = 1) :
    (run (runs (construct id n local_dim T st) evs) EventType.PacketReceived).recv_in_step
      = 0 ∧
    (((runs (construct id n local_dim T st) evs).phase = Phase.ReduceScatter ∧
        (runs (construct id n local_dim T st) evs).steps_total ≤
          (runs (construct id n local_dim T st) evs).step + 1) →
      (run (runs (construct id n local_dim T st) evs) EventType.PacketReceived).phase =
        Phase.AllGather ∧
      (run (runs (construct id n local_dim T st) evs) EventType.PacketReceived).step = 0) ∧
    (¬ ((runs (construct id n local_dim T st) evs).phase = Phase.ReduceScatter ∧
        (runs (construct id n local_dim T st) evs).steps_total ≤
          (runs (construct id n local_dim T st) evs).step + 1) →
      (run (runs (construct id n local_dim T st) evs) EventType.PacketReceived).step =
        (runs (construct id n local_dim T st) evs).step + 1) := by
  have hwf := Wf_runs evs _ (Wf_construct id n local_dim T st)
  generalize runs (construct id n local_dim T st) evs = s at *
  obtain ⟨w1, w2, _⟩ := hwf
  obtain ⟨_, _, _, hcase⟩ := run_PacketReceived s w1 w2
  rcases hcase with ⟨h2, _, _⟩ | ⟨_, hph, hst, ha, _⟩ | ⟨_, hph, hst, ha, _⟩ |
      ⟨_, hph, hst, _, ha, _⟩ | ⟨_, hph, hst, _, ha, _⟩ | ⟨_, hph, hst, ha, _⟩
  · omega
  · refine ⟨ha.2.2.2.2.2.2.2, fun _ => ⟨ha.1, ha.2.1⟩, fun hc => absurd ⟨hph, hst⟩ hc⟩
  · refine ⟨ha.2.2.2.2.2.2.2, fun hc => ?_, fun _ => ha.2.1⟩
    have := hc.2
    omega
  · refine ⟨ha.2.2.2.2.2.2.2, fun hc => ?_, fun _ => ha.2.1⟩
    rw [hph] at hc
    exact absurd hc.1 (by decide)
  · refine ⟨ha.2.2.2.2.2.2.2, fun hc => ?_, fun _ => ha.2.1⟩
    rw [hph] at hc
    exact absurd hc.1 (by decide)
  · refine ⟨ha.2.2.2.2.2.2.2, fun hc => ?_, fun _ => ha.2.1⟩
    rw [hph] at hc
    exact absurd hc.1 (by decide)

set_option maxRecDepth 100000 in
/-- C11 on 9 nodes: the second completion of the first reduce-scatter step
takes the step counter from 0 to 1. -/
theorem C11_step_advance_witness :
    (runs (construct 0 9 false 2187 StreamState.Created)
      ((canonical_schedule 2).take 4)).step = 0 ∧
    (run (runs (construct 0 9 false 2187 StreamState.Created)
      ((canonical_schedule 2).take 4)) EventType.PacketReceived).step =
      (runs (construct 0 9 false 2187 StreamState.Created)
        ((canonical_schedule 2).take 4)).step + 1 :=
  ⟨by decide,
   (C11_step_advance 0 9 false 2187 StreamState.Created ((canonical_schedule 2).take 4)
      (by decide)).2.2 (by decide)⟩

set_option maxRecDepth 100000 in
/-- C11 fails at the end of reduce-scatter: on 9 nodes the second completion of
the second reduce-scatter step resets the receive counter from 1 to 0 and takes
the step counter from 1 to 0, not to 2. -/
theorem C11_step_advance_counterexample :
    (runs (construct 0 9 false 2187 StreamState.Created)
      ((canonical_schedule 2).take 8)).recv_in_step = 1 ∧
    (runs (construct 0 9 false 2187 StreamState.Created)
      ((canonical_schedule 2).take 8)).step = 1 ∧
    (run (runs (construct 0 9 false 2187 StreamState.Created)
      ((canonical_schedule 2).take 8)) EventType.PacketReceived).recv_in_step = 0 ∧
    (run (runs (construct 0 9 false 2187 StreamState.Created)
      ((canonical_schedule 2).take 8)) EventType.PacketReceived).step = 0 ∧
    ¬ ((run (runs (construct 0 9 false 2187 StreamState.Created)
      ((canonical_schedule 2).take 8)) EventType.PacketReceived).step =
      (runs (construct 0 9 false 2187 StreamState.Created)
        ((canonical_schedule 2).take 8)).step + 1) := by
  decide

/-- An event other than a `StreamInit` on an instance that is not done leaves
an all-gather phase in place. -/
theorem phase_AllGather_run (s : State) (e : EventType) (hw : Wf s)
    (hph : s.phase = Phase.AllGather) (he : e = EventType.StreamInit → s.done = true) :
    (run s e).phase = Phase.AllGather := by
  obtain ⟨w1, w2, _⟩ := hw
  cases e with
  | General =>
    rw [(run_General s w1).2.1.1]
    exact hph
  | Other => exact hph
  | StreamInit =>
    obtain ⟨_, _, _, hcase⟩ := run_StreamInit s w1 w2
    rcases hcase with ⟨_, hc, _⟩ | ⟨hd, _⟩
    · rw [hc.1]
      exact hph
    · rw [he rfl] at hd
      exact absurd hd (by decide)
  | PacketReceived =>
    obtain ⟨_, _, _, hcase⟩ := run_PacketReceived s w1 w2
    rcases hcase with ⟨_, hc, _⟩ | ⟨_, _, _, ha, _⟩ | ⟨_, hph', _, _, _⟩ |
        ⟨_, _, _, _, ha, _⟩ | ⟨_, _, _, _, ha, _⟩ | ⟨_, _, _, ha, _⟩
    · rw [hc.1]
      exact hph
    · exact ha.1
    · rw [hph] at hph'
      exact absurd hph' (by decide)
    · exact ha.1
    · exact ha.1
    · exact ha.1

theorem phase_AllGather_runs (evs : List EventType) :
    ∀ s : State, Wf s → s.phase = Phase.AllGather →
      (∀ e ∈ evs, e ≠ EventType.StreamInit) → (runs s evs).phase = Phase.AllGather := by
  induction evs with
  | nil =>
    intro s _ h _
    exact h
  | cons e es ih =>
    intro s hw h hes
    have he : e ≠ EventType.StreamInit := hes e (List.mem_cons_self _ _)
    exact ih (run s e) (Wf_run s e hw)
      (phase_AllGather_run s e hw h (fun hc => absurd hc he))
      (fun x hx => hes x (List.mem_cons_of_mem _ hx))

/-- The phase stays at all-gather along every sequence of events in which each
`StreamInit` finds the instance done. -/
theorem phase_AllGather_guarded (evs : List EventType) :
    ∀ s : State, Wf s → s.phase = Phase.AllGather →
      (∀ k : Nat, evs[k]? = some EventType.StreamInit → (runs s (evs.take k)).done = true) →
      (runs s evs).phase = Phase.AllGather := by
  induction evs with
  | nil =>
    intro s _ h _
    exact h
  | cons e es ih =>
    intro s hw h hes
    have he : e = EventType.StreamInit → s.done = true := by
      intro hc
      have := hes 0 (by rw [hc, List.getElem?_cons_zero])
      exact this
    refine ih (run s e) (Wf_run s e hw) (phase_AllGather_run s e hw h he) ?_
    intro k hk
    exact hes (k + 1) (by rw [List.getElem?_cons_succ]; exact hk)

/-- C13, as the code has it: after any sequence of events delivered to a fresh
instance that has brought the phase to all-gather, an event keeps the phase at
all-gather unless it is a `StreamInit` on an instance that is not done; so the
phase is all-gather after every further sequence of events that holds no
`StreamInit`, and more generally after every further sequence in which each
`StreamInit` finds the instance done. -/
theorem C13_phase_monotone (id n : Int) (local_dim : Bool) (T : Nat) (st : StreamState)
    (evs later : List EventType) (e : EventType)
    (hph : (runs (construct id n local_dim T st) evs).phase = Phase.AllGather) :
    ((e = EventType.StreamInit → (runs (construct id n local_dim T st) evs).done = true) →
      (run (runs (construct id n local_dim T st) evs) e).phase = Phase.AllGather) ∧
    ((∀ x ∈ later, x ≠ EventType.StreamInit) →
      (runs (runs (construct id n local_dim T st) evs) later).phase = Phase.AllGather) ∧
    ((∀ k : Nat, later[k]? = some EventType.StreamInit →
        (runs (runs (construct id n local_dim T st) evs) (later.take k)).done = true) →
      (runs (runs (construct id n local_dim T st) evs) later).phase = Phase.AllGather) := by
  have hwf := Wf_runs evs _ (Wf_construct id n local_dim T st)
  exact ⟨phase_AllGather_run _ e hwf hph, phase_AllGather_runs later _ hwf hph,
    phase_AllGather_guarded later _ hwf hph⟩

set_option maxRecDepth 100000 in
/-- C13 on 2 nodes: once the single reduce-scatter step is complete the phase
is all-gather, and it is all-gather after the rest of the canonical
schedule. -/
theorem C13_phase_monotone_witness :
    (runs (construct 0 2 false 100 StreamState.Created)
      ((canonical_schedule 1).take 5)).phase = Phase.AllGather ∧
    (runs (runs (construct 0 2 false 100 StreamState.Created)
      ((canonical_schedule 1).take 5)) ((canonical_schedule 1).drop 5)).phase =
      Phase.AllGather :=
  ⟨by decide,
   (C13_phase_monotone 0 2 false 100 StreamState.Created ((canonical_schedule 1).take 5)
      ((canonical_schedule 1).drop 5) EventType.General (by decide)).2.1 (by decide)⟩

set_option maxRecDepth 100000 in
/-- C13 fails when initialization is delivered again: on 2 nodes, after the
phase has become all-gather and before the instance is done, `StreamInit` takes
the phase back to reduce-scatter. -/
theorem C13_phase_monotone_counterexample :
    (runs (construct 0 2 false 100 StreamState.Created)
      ((canonical_schedule 1).take 5)).phase = Phase.AllGather ∧
    (runs (construct 0 2 false 100 StreamState.Created)
      ((canonical_schedule 1).take 5)).done = false ∧
    (run (runs (construct 0 2 false 100 StreamState.Created)
      ((canonical_schedule 1).take 5)) EventType.StreamInit).phase =
      Phase.ReduceScatter := by
  decide

theorem DrainInv_construct (id n : Int) (local_dim : Bool) (T : Nat) (st : StreamState) :
    DrainInv (construct id n local_dim T st) :=
  ⟨rfl, rfl, fun h => Bool.noConfusion h⟩

/-- One event: the flags `done` and `drain_injected` stay set, the drain
invariant is kept, a set drain flag means no bundle is sent, and the event that
sets it sends two bundles of size 0 around the last growth. -/
theorem drain_step (s : State) (e : EventType) (h : DrainInv s) :
    DrainInv (run s e) ∧
    (s.done = true → (run s e).done = true) ∧
    (s.drain_injected = true →
      (run s e).drain_injected = true ∧ (run s e).bundles = s.bundles) ∧
    (s.drain_injected = false → (run s e).drain_injected = true →
      (run s e).done = true ∧ (run s e).cur_size = grow s.total_size s.cur_size ∧
      (run s e).bundles = s.bundles ++ pair_of (run s e) ∧ send_size (run s e) = 0) := by
  obtain ⟨i1, i2, i3⟩ := h
  have same : ∀ t : State, Frame s t → SameCtl s t → t.locked_packets = [] →
      DrainInv t ∧ (s.done = true → t.done = true) ∧
      (s.drain_injected = true → t.drain_injected = true ∧ t.bundles = s.bundles) ∧
      (s.drain_injected = false → t.drain_injected = true →
        t.done = true ∧ t.cur_size = grow s.total_size s.cur_size ∧
        t.bundles = s.bundles ++ pair_of t ∧ send_size t = 0) := by
    intro t hf hc hl
    obtain ⟨_, _, f3, f4, _⟩ := hf
    obtain ⟨c1, c2, _, _, c5, c6, _, _, c9, _⟩ := hc
    refine ⟨⟨hl, by rw [f3]; exact i2, by rw [c6, c5, c1, c2, f4]; exact i3⟩,
      by rw [c5]; exact id, fun hd => ⟨by rw [c6]; exact hd, c9⟩, ?_⟩
    intro hd hd'
    rw [c6, hd] at hd'
    exact absurd hd' (by decide)
  cases e with
  | General =>
    obtain ⟨hf, hc, _, _, hl⟩ := run_General s i1
    exact same _ hf hc hl
  | Other =>
    exact same s ⟨rfl, rfl, rfl, rfl, rfl, rfl, rfl, rfl⟩
      ⟨rfl, rfl, rfl, rfl, rfl, rfl, rfl, rfl, rfl, rfl⟩ i1
  | StreamInit =>
    obtain ⟨hf, hl, _, hcase⟩ := run_StreamInit s i1 i2
    rcases hcase with ⟨_, hc, _⟩ | ⟨hd, a1, a2, _⟩
    · exact same _ hf hc hl
    · have hdr : s.drain_injected = false := by
        cases hq : s.drain_injected
        · rfl
        · rw [(i3 hq).1] at hd
          exact absurd hd (by decide)
      refine ⟨⟨hl, by rw [hf.2.2.1]; exact i2, ?_⟩, ?_, ?_, ?_⟩
      · intro hq
        rw [a2, hdr] at hq
        exact absurd hq (by decide)
      · intro hq
        rw [hd] at hq
        exact absurd hq (by decide)
      · intro hq
        rw [hdr] at hq
        exact absurd hq (by decide)
      · intro _ hq
        rw [a2, hdr] at hq
        exact absurd hq (by decide)
  | PacketReceived =>
    obtain ⟨hf, hl, _, hcase⟩ := run_PacketReceived s i1 i2
    have hpr : (run s EventType.PacketReceived).parallel_reduce = 2 := by
      rw [hf.2.2.1]
      exact i2
    have hst' : (run s EventType.PacketReceived).steps_total = s.steps_total := hf.2.2.2.1
    rcases hcase with ⟨_, hc, _⟩ | ⟨_, hph, hst, ha, _, hb⟩ | ⟨_, hph, hst, ha, _, hb⟩ |
        ⟨_, hph, hst, hdr, ha, _, hb⟩ | ⟨_, hph, hst, hdr, ha, _, hb⟩ |
        ⟨_, hph, hst, ha, _, hb⟩
    · exact same _ hf hc hl
    · obtain ⟨a1, a2, a3, a4, a5, a6, a7, a8⟩ := ha
      have hdr : s.drain_injected = false := by
        cases hq : s.drain_injected
        · rfl
        · have := (i3 hq).2.1
          rw [hph] at this
          exact absurd this (by decide)
      refine ⟨⟨hl, hpr, ?_⟩, by rw [a5]; exact id, ?_, ?_⟩
      · intro hq
        rw [a6, hdr] at hq
        exact absurd hq (by decide)
      · intro hq
        rw [hdr] at hq
        exact absurd hq (by decide)
      · intro _ hq
        rw [a6, hdr] at hq
        exact absurd hq (by decide)
    · obtain ⟨a1, a2, a3, a4, a5, a6, a7, a8⟩ := ha
      have hdr : s.drain_injected = false := by
        cases hq : s.drain_injected
        · rfl
        · have := (i3 hq).2.1
          rw [hph] at this
          exact absurd this (by decide)
      refine ⟨⟨hl, hpr, ?_⟩, by rw [a5]; exact id, ?_, ?_⟩
      · intro hq
        rw [a6, hdr] at hq
        exact absurd hq (by decide)
      · intro hq
        rw [hdr] at hq
        exact absurd hq (by decide)
      · intro _ hq
        rw [a6, hdr] at hq
        exact absurd hq (by decide)
    · obtain ⟨a1, a2, a3, a4, a5, a6, a7, a8⟩ := ha
      have hz : send_size (run s EventType.PacketReceived) = 0 := by
        unfold send_size
        rw [if_pos ⟨a5, a6⟩]
      refine ⟨⟨hl, hpr, fun _ => ⟨a5, a1, by rw [hst', a2]; exact hst⟩⟩, fun _ => a5, ?_,
        fun _ _ => ⟨a5, a4, hb, hz⟩⟩
      intro hq
      rw [hdr] at hq
      exact absurd hq (by decide)
    · obtain ⟨a1, a2, a3, a4, a5, a6, a7, a8⟩ := ha
      refine ⟨⟨hl, hpr, fun _ => ⟨a5, a1, by rw [hst', a2]; exact hst⟩⟩, fun _ => a5,
        fun _ => ⟨a6, hb⟩, ?_⟩
      intro hq
      rw [hdr] at hq
      exact absurd hq (by decide)
    · obtain ⟨a1, a2, a3, a4, a5, a6, a7, a8⟩ := ha
      have hdr : s.drain_injected = false := by
        cases hq : s.drain_injected
        · rfl
        · have := (i3 hq).2.2
          omega
      refine ⟨⟨hl, hpr, ?_⟩, by rw [a5]; exact id, ?_, ?_⟩
      · intro hq
        rw [a6, hdr] at hq
        exact absurd hq (by decide)
      · intro hq
        rw [hdr] at hq
        exact absurd hq (by decide)
      · intro _ hq
        rw [a6, hdr] at hq
        exact absurd hq (by decide)

theorem DrainInv_runs (evs : List EventType) :
    ∀ s : State, DrainInv s → DrainInv (runs s evs) := by
  induction evs with
  | nil =>
    intro s h
    exact h
  | cons e es ih =>
    intro s h
    exact ih (run s e) (drain_step s e h).1

/-- C14: after any sequence of events delivered to a fresh instance, an event
leaves a set `done` flag set and a set `drain_injected` flag set; once
`drain_injected` is set no event sends a bundle any more; and the event that
sets `drain_injected` sets `done`, sends exactly two bundles, both of size 0 and
carrying a packet of size 0, and leaves the working size at the value of the
growth it has just made. -/
theorem C14_drain_once (id n : Int) (local_dim : Bool) (T : Nat) (st : StreamState)
    (evs : List EventType) (e : EventType) :
    ((runs (construct id n local_dim T st) evs).done = true →
      (run (runs (construct id n local_dim T st) evs) e).done = true) ∧
    ((runs (construct id n local_dim T st) evs).drain_injected = true →
      (run (runs (construct id n local_dim T st) evs) e).drain_injected = true ∧
      (run (runs (construct id n local_dim T st) evs) e).bundles =
        (runs (construct id n local_dim T st) evs).bundles) ∧
    ((runs (construct id n local_dim T st) evs).drain_injected = false →
      (run (runs (construct id n local_dim T st) evs) e).drain_injected = true →
      (run (runs (construct id n local_dim T st) evs) e).done = true ∧
      (run (runs (construct id n local_dim T st) evs) e).cur_size =
        grow (runs (construct id n local_dim T st) evs).total_size
          (runs (construct id n local_dim T st) evs).cur_size ∧
      ∃ p q : Int,
        (run (runs (construct id n local_dim T st) evs) e).bundles =
          (runs (construct id n local_dim T st) evs).bundles ++
            [bundle_of (run (runs (construct id n local_dim T st) evs) e) 0 p,
             bundle_of (run (runs (construct id n local_dim T st) evs) e) 0 q]) := by
  have h0 := DrainInv_runs evs _ (DrainInv_construct id n local_dim T st)
  generalize runs (construct id n local_dim T st) evs = s at *
  obtain ⟨_, h1, h2, h3⟩ := drain_step s e h0
  refine ⟨h1, h2, ?_⟩
  intro hd hd'
  obtain ⟨k1, k2, k3, k4⟩ := h3 hd hd'
  refine ⟨k1, k2, dest_fwd (run s e), dest_bwd (run s e), ?_⟩
  have hp : pair_of (run s e) =
      [bundle_of (run s e) 0 (dest_fwd (run s e)),
       bundle_of (run s e) 0 (dest_bwd (run s e))] := by
    unfold pair_of
    rw [k4]
  rw [← hp]
  exact k3

set_option maxRecDepth 100000 in
/-- C14 on 9 nodes: the last completion of the canonical schedule sets
`drain_injected`, and the two credit returns after it send nothing. -/
theorem C14_drain_once_witness :
    (runs (construct 0 9 false 2187 StreamState.Created)
      ((canonical_schedule 2).take 16)).drain_injected = false ∧
    (run (runs (construct 0 9 false 2187 StreamState.Created)
      ((canonical_schedule 2).take 16)) EventType.PacketReceived).cur_size = 2187 ∧
    ((run (runs (construct 0 9 false 2187 StreamState.Created)
      ((canonical_schedule 2).take 16)) EventType.PacketReceived).bundles.map
        fun b => b.size) = [729, 729, 243, 243, 243, 243, 729, 729, 0, 0] ∧
    (run (runs (construct 0 9 false 2187 StreamState.Created)
      ((canonical_schedule 2).take 17)) EventType.General).bundles =
      (runs (construct 0 9 false 2187 StreamState.Created)
        ((canonical_schedule 2).take 17)).bundles ∧
    (run (runs (construct 0 9 false 2187 StreamState.Created)
      ((canonical_schedule 2).take 16)) EventType.PacketReceived).done = true :=
  ⟨by decide, by decide, by decide,
   ((C14_drain_once 0 9 false 2187 StreamState.Created ((canonical_schedule 2).take 17)
      EventType.General).2.1 (by decide)).2,
   ((C14_drain_once 0 9 false 2187 StreamState.Created ((canonical_schedule 2).take 16)
      EventType.PacketReceived).2.2 (by decide) (by decide)).1⟩

/-! ## Symmetry, validity and distinctness of partners -/

/-- The non-negative remainder of a number in `[0, 2 * n)`. -/
theorem emod_cases (x n : Int) (h0 : 0 ≤ x) (h : x < 2 * n) :
    (x % n = x ∧ x < n) ∨ (x % n = x - n ∧ n ≤ x) := by
  by_cases hx : x < n
  · exact Or.inl ⟨Int.emod_eq_of_lt h0 hx, hx⟩
  · refine Or.inr ⟨?_, by omega⟩
    rw [← Int.emod_sub_cancel x n]
    exact Int.emod_eq_of_lt (by omega) (by omega)

/-- Symmetry of partner selection where no `int` sum overflows: on a ring of
`2 ≤ n ≤ 2 ^ 30` nodes, for a rank `0 ≤ a < n` and a distance `1 ≤ d < n`, the
partner that `insert_packet` picks with toggle 1 for the rank it picks with
toggle 0 for `a` is `a` again, and the other way round:
`((a + d) mod n - d + n) mod n = a` and `((a - d + n) mod n + d) mod n = a`. -/
theorem partner_symmetric_in_range (t : State) (hn : 2 ≤ t.nodes_in_ring)
    (hn30 : t.nodes_in_ring ≤ 2 ^ 30) (ha0 : 0 ≤ t.id) (ha : t.id < t.nodes_in_ring)
    (hd1 : 1 ≤ t.distance) (hd : (t.distance : Int) < t.nodes_in_ring) :
    partner { t with dir_toggle := 0 } = some ((t.id + t.distance) % t.nodes_in_ring) ∧
    partner { t with dir_toggle := 1 } =
      some ((t.id - t.distance + t.nodes_in_ring) % t.nodes_in_ring) ∧
    partner { t with id := (t.id + t.distance) % t.nodes_in_ring, dir_toggle := 1 } =
      some t.id ∧
    partner { t with id := (t.id - t.distance + t.nodes_in_ring) % t.nodes_in_ring,
                     dir_toggle := 0 } = some t.id ∧
    ((t.id + t.distance) % t.nodes_in_ring - t.distance + t.nodes_in_ring) %
      t.nodes_in_ring = t.id ∧
    ((t.id - t.distance + t.nodes_in_ring) % t.nodes_in_ring + t.distance) %
      t.nodes_in_ring = t.id := by
  have hd1' : (1 : Int) ≤ (t.distance : Int) := by exact_mod_cast hd1
  obtain ⟨e0, e1⟩ := partner_in_range t (by omega) ha0 ha hd1 hd
  have m1 : ((t.id + t.distance) % t.nodes_in_ring - t.distance + t.nodes_in_ring) %
      t.nodes_in_ring = t.id := by
    rcases emod_cases (t.id + t.distance) t.nodes_in_ring (by omega) (by omega) with
      ⟨h, _⟩ | ⟨h, _⟩
    · rw [h]
      rcases emod_cases (t.id + t.distance - t.distance + t.nodes_in_ring) t.nodes_in_ring
        (by omega) (by omega) with ⟨h', _⟩ | ⟨h', _⟩ <;> omega
    · rw [h]
      rcases emod_cases (t.id + t.distance - t.nodes_in_ring - t.distance + t.nodes_in_ring)
        t.nodes_in_ring (by omega) (by omega) with ⟨h', _⟩ | ⟨h', _⟩ <;> omega
  have m2 : ((t.id - t.distance + t.nodes_in_ring) % t.nodes_in_ring + t.distance) %
      t.nodes_in_ring = t.id := by
    rcases emod_cases (t.id - t.distance + t.nodes_in_ring) t.nodes_in_ring (by omega)
      (by omega) with ⟨h, _⟩ | ⟨h, _⟩
    · rw [h]
      rcases emod_cases (t.id - t.distance + t.nodes_in_ring + t.distance) t.nodes_in_ring
        (by omega) (by omega) with ⟨h', _⟩ | ⟨h', _⟩ <;> omega
    · rw [h]
      rcases emod_cases (t.id - t.distance + t.nodes_in_ring - t.nodes_in_ring + t.distance)
        t.nodes_in_ring (by omega) (by omega) with ⟨h', _⟩ | ⟨h', _⟩ <;> omega
  have r1 : 0 ≤ (t.id + t.distance) % t.nodes_in_ring ∧
      (t.id + t.distance) % t.nodes_in_ring < t.nodes_in_ring :=
    ⟨Int.emod_nonneg _ (by omega), Int.emod_lt_of_pos _ (by omega)⟩
  have r2 : 0 ≤ (t.id - t.distance + t.nodes_in_ring) % t.nodes_in_ring ∧
      (t.id - t.distance + t.nodes_in_ring) % t.nodes_in_ring < t.nodes_in_ring :=
    ⟨Int.emod_nonneg _ (by omega), Int.emod_lt_of_pos _ (by omega)⟩
  have hn0 : 0 < t.nodes_in_ring := by omega
  refine ⟨e0, e1, ?_, ?_, m1, m2⟩
  · simp only [partner, one_ne_zero, ↓reduceIte]
    rw [int_rem_of_pos _ _ hn0,
      (partner_arith _ t.nodes_in_ring t.distance (by omega) r1.1 r1.2 hd1 hd).2, m1]
  · simp only [partner, ↓reduceIte]
    rw [int_rem_of_pos _ _ hn0,
      (partner_arith _ t.nodes_in_ring t.distance (by omega) r2.1 r2.2 hd1 hd).1, m2]

/-- C18 fails on a ring of 2000000000 nodes at distance 1: for rank
`a = 1999999999` the `int` sum `a - 1 + n` overflows, the toggle-1 partner of
`a` is `-294967298`, which is no rank, and the toggle-0 partner of that is
`-294967297`, not `a`; rank `1999999998`, which the identity
`((a - d + n) mod n + d) mod n = a` pairs with `a`, sends to `a` with toggle 0
and is not sent to by `a`.  The other half holds there: the toggle-0 partner of
`a` is 0, whose toggle-1 partner is `a`. -/
theorem C18_partner_asymmetric_on_large_ring :
    partner { construct 1999999999 2000000000 false 100 StreamState.Created with
      dir_toggle := 1 } = some (-294967298) ∧
    partner { construct (-294967298) 2000000000 false 100 StreamState.Created with
      dir_toggle := 0 } = some (-294967297) ∧
    (((1999999999 : Int) - ((1 : Nat) : Int) + 2000000000) % 2000000000 + ((1 : Nat) : Int)) %
      2000000000 = 1999999999 ∧
    ((1999999999 : Int) - ((1 : Nat) : Int) + 2000000000) % 2000000000 = 1999999998 ∧
    partner { construct 1999999998 2000000000 false 100 StreamState.Created with
      dir_toggle := 0 } = some 1999999999 ∧
    partner { construct 1999999999 2000000000 false 100 StreamState.Created with
      dir_toggle := 0 } = some 0 ∧
    partner { construct 0 2000000000 false 100 StreamState.Created with
      dir_toggle := 1 } = some 1999999999 := by
  decide

/-- Under the invariant the distance is at most `3 ^ (steps_total - 1)`. -/
theorem DistInv_distance_le (id n : Int) (s : State) (h : DistInv id n s) :
    s.distance ≤ 3 ^ ((ceil_log3 n).toNat - 1) := by
  obtain ⟨_, _, _, _, i5, j, d1, d2, _, _⟩ := h
  rw [i5] at d2
  rw [d1]
  exact Nat.pow_le_pow_right (by decide) (by omega)

/-- Validity of the partners where no `int` sum overflows: on a ring of `n ≥ 2`
nodes and for a participant `0 ≤ id < n` with `id + n ≤ 2 ^ 31`, after
`StreamInit` and any further events, every event leaves a distance with
`1 ≤ distance < n` and `distance ≤ 3 ^ (steps_total - 1)`, the operands of the
two signed remainders are not negative, and the event sends no bundle or
exactly two, addressed to ranks in `[0, n)` that differ from `id`. -/
theorem partner_valid_in_range (id n : Int) (local_dim : Bool) (T : Nat) (st : StreamState)
    (evs : List EventType) (e : EventType) (hn : 2 ≤ n) (hn31 : n < 2 ^ 31)
    (hsum : id + n ≤ 2 ^ 31) (hid0 : 0 ≤ id) (hid : id < n) :
    (1 ≤ (run (runs (construct id n local_dim T st) (EventType.StreamInit :: evs)) e).distance ∧
      ((run (runs (construct id n local_dim T st)
        (EventType.StreamInit :: evs)) e).distance : Int) < n ∧
      (run (runs (construct id n local_dim T st) (EventType.StreamInit :: evs)) e).distance ≤
        3 ^ ((ceil_log3 n).toNat - 1)) ∧
    (0 ≤ wrap32 (id + toInt32
        (run (runs (construct id n local_dim T st) (EventType.StreamInit :: evs)) e).distance) ∧
      0 ≤ wrap32 (wrap32 (id - toInt32
        (run (runs (construct id n local_dim T st) (EventType.StreamInit :: evs)) e).distance)
          + n)) ∧
    ((run (runs (construct id n local_dim T st) (EventType.StreamInit :: evs)) e).bundles =
        (runs (construct id n local_dim T st) (EventType.StreamInit :: evs)).bundles ∨
      ∃ p q : Int,
        (run (runs (construct id n local_dim T st) (EventType.StreamInit :: evs)) e).bundles =
          (runs (construct id n local_dim T st) (EventType.StreamInit :: evs)).bundles ++
            [bundle_of (run (runs (construct id n local_dim T st)
                (EventType.StreamInit :: evs)) e)
               (send_size (run (runs (construct id n local_dim T st)
                (EventType.StreamInit :: evs)) e)) p,
             bundle_of (run (runs (construct id n local_dim T st)
                (EventType.StreamInit :: evs)) e)
               (send_size (run (runs (construct id n local_dim T st)
                (EventType.StreamInit :: evs)) e)) q] ∧
        partner { run (runs (construct id n local_dim T st)
              (EventType.StreamInit :: evs)) e with dir_toggle := 0 } = some p ∧
        partner { run (runs (construct id n local_dim T st)
              (EventType.StreamInit :: evs)) e with dir_toggle := 1 } = some q ∧
        0 ≤ p ∧ p < n ∧ p ≠ id ∧ 0 ≤ q ∧ q < n ∧ q ≠ id) := by
  have h0 := DistInv_runs id n hn hn31 (EventType.StreamInit :: evs) _
    (DistInv_construct id n local_dim T st hn)
  generalize runs (construct id n local_dim T st) (EventType.StreamInit :: evs) = s at *
  have h1 := DistInv_run id n s e hn hn31 h0
  obtain ⟨hd1, hd⟩ := DistInv_distance id n _ h1
  have hle := DistInv_distance_le id n _ h1
  have hd1' : (1 : Int) ≤ ((run s e).distance : Int) := by exact_mod_cast hd1
  have hcast : toInt32 (run s e).distance = ((run s e).distance : Int) :=
    toInt32_of_lt _ (by omega)
  have hid' : (run s e).id = id := h1.2.2.1
  have hn' : (run s e).nodes_in_ring = n := h1.2.2.2.1
  have hpair := pair_of_in_range (run s e) (by rw [hid', hn']; exact hsum)
    (by rw [hid']; exact hid0) (by rw [hid', hn']; exact hid) hd1 (by rw [hn']; exact hd)
  obtain ⟨q1, q2⟩ := partner_in_range (run s e) (by rw [hid', hn']; exact hsum)
    (by rw [hid']; exact hid0) (by rw [hid', hn']; exact hid) hd1 (by rw [hn']; exact hd)
  rw [hid', hn'] at hpair
  refine ⟨⟨hd1, hd, hle⟩, ⟨?_, ?_⟩, ?_⟩
  · rw [hcast, wrap32_of_range _ (by omega) (by omega)]
    omega
  · rw [hcast, wrap32_of_range (id - _) (by omega) (by omega),
      wrap32_of_range _ (by omega) (by omega)]
    omega
  rcases run_bundles s e h0.1 h0.2.1 with hb | hb
  · exact Or.inl hb
  · refine Or.inr ⟨(id + ((run s e).distance : Int)) % n,
      (id - ((run s e).distance : Int) + n) % n, ?_, ?_, ?_, ?_⟩
    · rw [hb, hpair]
    · rw [q1, hid', hn']
    · rw [q2, hid', hn']
    · have a1 := Int.emod_nonneg (id + ((run s e).distance : Int)) (show n ≠ 0 by omega)
      have a2 := Int.emod_lt_of_pos (id + ((run s e).distance : Int)) (show 0 < n by omega)
      have b1 := Int.emod_nonneg (id - ((run s e).distance : Int) + n) (show n ≠ 0 by omega)
      have b2 := Int.emod_lt_of_pos (id - ((run s e).distance : Int) + n)
        (show 0 < n by omega)
      refine ⟨a1, a2, ?_, b1, b2, ?_⟩
      · rcases emod_cases (id + ((run s e).distance : Int)) n (by omega) (by omega) with
          ⟨h, _⟩ | ⟨h, _⟩ <;> omega
      · rcases emod_cases (id - ((run s e).distance : Int) + n) n (by omega) (by omega) with
          ⟨h, _⟩ | ⟨h, _⟩ <;> omega

set_option maxRecDepth 100000 in
/-- C19 fails on a ring of 2000000000 nodes for participant 1999999999: when
`StreamInit` creates the two exchanges of the first step the distance is 1,
within `[1, n)` and at most `3 ^ (steps_total - 1)` as the claim says, but the
operand `id - (int)distance + n` of the signed remainder of the toggle-1 branch
is `-294967298` after the overflow of the `int` sum, a negative number, and the
second bundle is addressed to `-294967298`, which is not in `[0, n)`. -/
theorem C19_partner_invalid_on_large_ring :
    (run (construct 1999999999 2000000000 false 100 StreamState.Created)
      EventType.StreamInit).distance = 1 ∧
    ((run (construct 1999999999 2000000000 false 100 StreamState.Created)
      EventType.StreamInit).distance : Int) < 2000000000 ∧
    (run (construct 1999999999 2000000000 false 100 StreamState.Created)
      EventType.StreamInit).distance ≤ 3 ^ ((ceil_log3 2000000000).toNat - 1) ∧
    wrap32 (wrap32 (1999999999 - toInt32
      (run (construct 1999999999 2000000000 false 100 StreamState.Created)
        EventType.StreamInit).distance) + 2000000000) = -294967298 ∧
    ((run (construct 1999999999 2000000000 false 100 StreamState.Created)
      EventType.StreamInit).bundles.map
        fun b => b.locked_packets.map fun p => p.preferred_dest) = [[0], [-294967298]] ∧
    ¬ (0 ≤ (-294967298 : Int) ∧ (-294967298 : Int) < 2000000000) := by
  decide

/-- C20, as the code has it: on a ring of `n ≥ 3` nodes (an `int`) and for a
participant `0 ≤ id < n` with `id + n ≤ 2 ^ 31` (no `int` sum of
`insert_packet` overflows), after `StreamInit` and any further events, the two
bundles an event sends are addressed to `(id + distance) mod n` and to
`(id - distance + n) mod n`, and these two ranks differ exactly when
`2 * distance ≠ n`. -/
theorem C20_partners_distinct (id n : Int) (local_dim : Bool) (T : Nat) (st : StreamState)
    (evs : List EventType) (e : EventType) (hn : 3 ≤ n) (hn31 : n < 2 ^ 31)
    (hsum : id + n ≤ 2 ^ 31) (hid0 : 0 ≤ id) (hid : id < n) :
    ((run (runs (construct id n local_dim T st) (EventType.StreamInit :: evs)) e).bundles =
        (runs (construct id n local_dim T st) (EventType.StreamInit :: evs)).bundles ∨
      (run (runs (construct id n local_dim T st) (EventType.StreamInit :: evs)) e).bundles =
        (runs (construct id n local_dim T st) (EventType.StreamInit :: evs)).bundles ++
          [bundle_of (run (runs (construct id n local_dim T st)
              (EventType.StreamInit :: evs)) e)
             (send_size (run (runs (construct id n local_dim T st)
              (EventType.StreamInit :: evs)) e))
             ((id + (run (runs (construct id n local_dim T st)
              (EventType.StreamInit :: evs)) e).distance) % n),
           bundle_of (run (runs (construct id n local_dim T st)
              (EventType.StreamInit :: evs)) e)
             (send_size (run (runs (construct id n local_dim T st)
              (EventType.StreamInit :: evs)) e))
             ((id - (run (runs (construct id n local_dim T st)
              (EventType.StreamInit :: evs)) e).distance + n) % n)]) ∧
    ((id + (run (runs (construct id n local_dim T st)
          (EventType.StreamInit :: evs)) e).distance) % n ≠
        (id - (run (runs (construct id n local_dim T st)
          (EventType.StreamInit :: evs)) e).distance + n) % n ↔
      2 * ((run (runs (construct id n local_dim T st)
          (EventType.StreamInit :: evs)) e).distance : Int) ≠ n) := by
  have hn2 : 2 ≤ n := by omega
  have h0 := DistInv_runs id n hn2 hn31 (EventType.StreamInit :: evs) _
    (DistInv_construct id n local_dim T st hn2)
  generalize runs (construct id n local_dim T st) (EventType.StreamInit :: evs) = s at *
  have h1 := DistInv_run id n s e hn2 hn31 h0
  obtain ⟨hd1, hd⟩ := DistInv_distance id n _ h1
  have hd1' : (1 : Int) ≤ ((run s e).distance : Int) := by exact_mod_cast hd1
  have hid' : (run s e).id = id := h1.2.2.1
  have hn' : (run s e).nodes_in_ring = n := h1.2.2.2.1
  have hpair := pair_of_in_range (run s e) (by rw [hid', hn']; exact hsum)
    (by rw [hid']; exact hid0) (by rw [hid', hn']; exact hid) hd1 (by rw [hn']; exact hd)
  rw [hid', hn'] at hpair
  refine ⟨?_, ?_⟩
  · rw [← hpair]
    exact run_bundles s e h0.1 h0.2.1
  · rcases emod_cases (id + ((run s e).distance : Int)) n (by omega) (by omega) with
      ⟨h, _⟩ | ⟨h, _⟩ <;>
    rcases emod_cases (id - ((run s e).distance : Int) + n) n (by omega) (by omega) with
      ⟨h', _⟩ | ⟨h', _⟩ <;>
    · rw [h, h']
      constructor <;> intro hc <;> omega

set_option maxRecDepth 100000 in
/-- C20 for participant 0 of 9: at distance 3 the two bundles go to the
different ranks 3 and 6. -/
theorem C20_partners_distinct_witness :
    (run (runs (construct 0 9 false 2187 StreamState.Created)
      (EventType.StreamInit :: (canonical_tail 2).take 3)) EventType.PacketReceived).distance
        = 3 ∧
    ((run (runs (construct 0 9 false 2187 StreamState.Created)
      (EventType.StreamInit :: (canonical_tail 2).take 3)) EventType.PacketReceived).bundles.map
        fun b => b.locked_packets.map fun p => p.preferred_dest) = [[1], [8], [3], [6]] ∧
    (0 + ((run (runs (construct 0 9 false 2187 StreamState.Created)
        (EventType.StreamInit :: (canonical_tail 2).take 3))
          EventType.PacketReceived).distance : Int)) % 9 ≠
      (0 - ((run (runs (construct 0 9 false 2187 StreamState.Created)
        (EventType.StreamInit :: (canonical_tail 2).take 3))
          EventType.PacketReceived).distance : Int) + 9) % 9 :=
  ⟨by decide, by decide,
   (C20_partners_distinct 0 9 false 2187 StreamState.Created ((canonical_tail 2).take 3)
      EventType.PacketReceived (by decide) (by decide) (by decide) (by decide)
      (by decide)).2.2 (by decide)⟩

set_option maxRecDepth 100000 in
/-- C20 fails on 6 nodes: the second reduce-scatter step of participant 0 runs
at distance 3, where `(0 + 3) mod 6` and `(0 - 3 + 6) mod 6` are both 3, and
both bundles of the step go to rank 3. -/
theorem C20_partners_distinct_counterexample :
    (runs (construct 0 6 false 600 StreamState.Created)
      ((canonical_schedule 2).take 5)).distance = 3 ∧
    (runs (construct 0 6 false 600 StreamState.Created)
      ((canonical_schedule 2).take 5)).phase = Phase.ReduceScatter ∧
    ((runs (construct 0 6 false 600 StreamState.Created)
      ((canonical_schedule 2).take 5)).bundles.map
        fun b => b.locked_packets.map fun p => p.preferred_dest) = [[1], [5], [3], [3]] ∧
    ¬ (((0 : Int) + 3) % 6 ≠ ((0 : Int) - 3 + 6) % 6) := by
  decide

/-! ## Distance after `k` steps -/

/-- C12, as the code has it: on a ring of `n ≥ 2` nodes (an `int`), in a run
that starts with `StreamInit` and holds no further one, for every
`k < steps_total`: once `2 * k` or `2 * k + 1` completions are delivered (`k`
reduce-scatter steps are complete) the phase is reduce-scatter, the step is `k`
and the distance is `3 ^ k`; once `2 * (steps_total + k)` or one more are
delivered (`k` all-gather steps are complete) the phase is all-gather, the step
is `k` and the distance is `3 ^ k`. -/
theorem C12_distance_power (id n : Int) (local_dim : Bool) (T : Nat) (st : StreamState)
    (evs : List EventType) (k : Nat) (hn : 2 ≤ n) (hn31 : n < 2 ^ 31)
    (hevs : ∀ x ∈ evs, x ≠ EventType.StreamInit)
    (hk : (k : Int) < (construct id n local_dim T st).steps_total) :
    ((evs.count EventType.PacketReceived = 2 * k ∨
        evs.count EventType.PacketReceived = 2 * k + 1) →
      (runs (construct id n local_dim T st) (EventType.StreamInit :: evs)).phase =
        Phase.ReduceScatter ∧
      (runs (construct id n local_dim T st) (EventType.StreamInit :: evs)).step = k ∧
      (runs (construct id n local_dim T st) (EventType.StreamInit :: evs)).distance =
        3 ^ k) ∧
    ((evs.count EventType.PacketReceived = 2 * ((ceil_log3 n).toNat + k) ∨
        evs.count EventType.PacketReceived = 2 * ((ceil_log3 n).toNat + k) + 1) →
      (runs (construct id n local_dim T st) (EventType.StreamInit :: evs)).phase =
        Phase.AllGather ∧
      (runs (construct id n local_dim T st) (EventType.StreamInit :: evs)).step = k ∧
      (runs (construct id n local_dim T st) (EventType.StreamInit :: evs)).distance =
        3 ^ k) := by
  have hK := ceil_log3_pos n hn
  have hst : (construct id n local_dim T st).steps_total = ceil_log3 n := rfl
  rw [hst] at hk
  have hd0 := DistInv_runs id n hn hn31 (EventType.StreamInit :: evs) _
    (DistInv_construct id n local_dim T st hn)
  obtain ⟨h0, hrec0⟩ := RunInv_init id n local_dim T st hn
  obtain ⟨h1, hrec1⟩ := RunInv_runs _ T evs _ hevs h0
  have hstep : runs (construct id n local_dim T st) (EventType.StreamInit :: evs) =
      runs (run (construct id n local_dim T st) EventType.StreamInit) evs := rfl
  rw [hstep] at hd0 ⊢
  rw [hrec0] at hrec1
  generalize runs (run (construct id n local_dim T st) EventType.StreamInit) evs = s at *
  obtain ⟨-, -, -, -, i5, -, i7, i8, i9, i10, i11, -, -⟩ := h1
  obtain ⟨-, -, -, -, -, j, d1, -, d3, -⟩ := hd0
  have key : s.done = false → s.step = k → s.distance = 3 ^ k := by
    intro hd hs
    have := d3 hd
    have hjk : j = k := by omega
    rw [d1, hjk]
  refine ⟨?_, ?_⟩
  · intro hc
    cases hph : s.phase
    · have hr := (i10 hph).2
      have hd : s.done = false := by
        cases hq : s.done
        · rfl
        · rw [(i9 hq).1] at hph
          exact absurd hph (by decide)
      have hs : s.step = k := by omega
      exact ⟨rfl, hs, key hd hs⟩
    · exfalso
      have hr := (i11 hph).2
      omega
  · intro hc
    cases hph : s.phase
    · exfalso
      have hr := (i10 hph).2
      have hd : s.done = false := by
        cases hq : s.done
        · rfl
        · rw [(i9 hq).1] at hph
          exact absurd hph (by decide)
      have := i8 hd
      omega
    · have hr := (i11 hph).2
      have hs : s.step = k := by omega
      have hd : s.done = false := by
        cases hq : s.done
        · rfl
        · have := (i9 hq).2
          omega
      exact ⟨rfl, hs, key hd hs⟩

set_option maxRecDepth 100000 in
/-- C12 on 9 nodes: after one complete reduce-scatter step the distance is 3,
and after one complete all-gather step it is 3 again. -/
theorem C12_distance_power_witness :
    (runs (construct 0 9 false 2187 StreamState.Created)
      (EventType.StreamInit :: (canonical_tail 2).take 4)).distance = 3 ^ 1 ∧
    (runs (construct 0 9 false 2187 StreamState.Created)
      (EventType.StreamInit :: (canonical_tail 2).take 12)).distance = 3 ^ 1 :=
  ⟨((C12_distance_power 0 9 false 2187 StreamState.Created ((canonical_tail 2).take 4) 1
      (by decide) (by decide) (by decide) (by decide)).1 (by decide)).2.2,
   ((C12_distance_power 0 9 false 2187 StreamState.Created ((canonical_tail 2).take 12) 1
      (by decide) (by decide) (by decide) (by decide)).2 (by decide)).2.2⟩

set_option maxRecDepth 100000 in
/-- C12 fails for `k = steps_total`: on 9 nodes, after the 2 reduce-scatter
steps the distance is back at 1, and after the 2 all-gather steps it is 3,
neither being `3 ^ 2`. -/
theorem C12_distance_power_counterexample :
    (construct 0 9 false 2187 StreamState.Created).steps_total = 2 ∧
    (runs (construct 0 9 false 2187 StreamState.Created)
      ((canonical_schedule 2).take 9)).total_packets_received = 4 ∧
    (runs (construct 0 9 false 2187 StreamState.Created)
      ((canonical_schedule 2).take 9)).distance = 1 ∧
    (runs (construct 0 9 false 2187 StreamState.Created)
      ((canonical_schedule 2).take 17)).total_packets_received = 8 ∧
    (runs (construct 0 9 false 2187 StreamState.Created)
      ((canonical_schedule 2).take 17)).distance = 3 ∧
    (runs (construct 0 9 false 2187 StreamState.Created)
      (canonical_schedule 2)).distance = 3 ∧
    (3 : Nat) ^ 2 ≠ 1 ∧ (3 : Nat) ^ 2 ≠ 3 := by
  decide

/-! ## Flow control -/

/-- With sends left to schedule and the per-message counter at 0 or 1,
`process_stream_count` takes exactly one from `stream_count`. -/
theorem process_stream_count_pos (s : State) (hsc : 0 < s.stream_count)
    (hr : s.remained_packets_per_message = 0 ∨ s.remained_packets_per_message = 1) :
    (process_stream_count s).stream_count = s.stream_count - 1 ∧
    ((process_stream_count s).remained_packets_per_message = 0 ∨
      (process_stream_count s).remained_packets_per_message = 1) := by
  cases s
  simp only at hsc hr
  rcases hr with hr | hr <;> subst hr <;>
  · simp only [process_stream_count]
    split_ifs <;> simp_all

theorem process_stream_count_frame (s : State) :
    (process_stream_count s).packets = s.packets ∧
    (process_stream_count s).free_packets = s.free_packets ∧
    (process_stream_count s).total_packets_sent = s.total_packets_sent ∧
    (process_stream_count s).sends = s.sends ∧
    (process_stream_count s).exits = s.exits ∧
    (process_stream_count s).parallel_reduce = s.parallel_reduce := by
  obtain ⟨r, c, st, h⟩ := process_stream_count_shape s
  rw [h]
  exact ⟨rfl, rfl, rfl, rfl, rfl, rfl⟩

/-- `ready` without a scheduled send, a queued packet or a free credit. -/
theorem ready_noop (s : State)
    (h : s.stream_count = 0 ∨ s.packets = [] ∨ s.free_packets = 0) :
    (ready s).1 = false ∧ (ready s).2.stream_count = s.stream_count ∧
    (ready s).2.packets = s.packets ∧ (ready s).2.free_packets = s.free_packets ∧
    (ready s).2.total_packets_sent = s.total_packets_sent ∧
    (ready s).2.remained_packets_per_message = s.remained_packets_per_message ∧
    (ready s).2.sends = s.sends := by
  unfold ready
  simp only
  rcases h with h | h | h
  · split_ifs <;> simp_all
  · split_ifs <;> simp_all
  · split_ifs <;> (try split) <;> simp_all

/-- `reduce` with a scheduled send left and a queued packet. -/
theorem reduce_spec (X : State) (p : MyPacket) (rest : List MyPacket)
    (hsc : 0 < X.stream_count)
    (hr : X.remained_packets_per_message = 0 ∨ X.remained_packets_per_message = 1)
    (hp : X.packets = p :: rest) :
    (reduce X).stream_count = X.stream_count - 1 ∧ (reduce X).packets = rest ∧
    (reduce X).free_packets = X.free_packets - 1 ∧
    (reduce X).total_packets_sent = X.total_packets_sent + 1 ∧
    ((reduce X).remained_packets_per_message = 0 ∨
      (reduce X).remained_packets_per_message = 1) ∧
    (reduce X).sends = X.sends := by
  obtain ⟨q1, q2⟩ := process_stream_count_pos X hsc hr
  obtain ⟨f1, f2, f3, f4, _, _⟩ := process_stream_count_frame X
  unfold reduce
  simp only
  rw [f1, f2, f3, hp]
  exact ⟨q1, rfl, rfl, rfl, q2, f4⟩

/-- `ready` with a scheduled send, a queued packet and a free credit. -/
theorem ready_dispatch (s : State) (p : MyPacket) (rest : List MyPacket)
    (hsc : 0 < s.stream_count)
    (hr : s.remained_packets_per_message = 0 ∨ s.remained_packets_per_message = 1)
    (hp : s.packets = p :: rest) (hf : s.free_packets ≠ 0) :
    (ready s).1 = true ∧ (ready s).2.stream_count = s.stream_count - 1 ∧
    (ready s).2.packets = rest ∧ (ready s).2.free_packets = s.free_packets - 1 ∧
    (ready s).2.total_packets_sent = s.total_packets_sent + 1 ∧
    ((ready s).2.remained_packets_per_message = 0 ∨
      (ready s).2.remained_packets_per_message = 1) ∧
    (ready s).2.sends = s.sends ++
      [{ srcRank := s.id, dstRank := p.preferred_dest, msg_size := p.msg_size,
         recv_src := p.preferred_src }] := by
  have hne : ¬ s.stream_count = 0 := by omega
  unfold ready
  simp only
  by_cases hss : s.stream_state = StreamState.Created ∨ s.stream_state = StreamState.Ready
  · rw [if_pos hss]
    simp only [hne, if_false, hp, hf]
    exact ⟨trivial, reduce_spec _ p rest hsc hr rfl⟩
  · rw [if_neg hss]
    simp only [hne, if_false, hp, hf]
    exact ⟨trivial, reduce_spec _ p rest hsc hr rfl⟩

/-- The terminal check with no send left scheduled and both credits free
releases the session and clears the queue. -/
theorem iteratable_release (X : State) (hp : X.parallel_reduce = 2)
    (h1 : X.stream_count = 0) (h2 : X.free_packets = 2) :
    (iteratable X).1 = false ∧ (iteratable X).2 = exit X := by
  unfold iteratable
  rw [if_pos ⟨h1, by rw [h2, hp]; rfl⟩]
  exact ⟨rfl, rfl⟩

/-- The terminal check otherwise changes nothing. -/
theorem iteratable_keep (X : State) (hp : X.parallel_reduce = 2)
    (h : ¬ (X.stream_count = 0 ∧ X.free_packets = 2)) :
    (iteratable X).1 = true ∧ (iteratable X).2 = X := by
  unfold iteratable
  rw [if_neg]
  · exact ⟨rfl, rfl⟩
  · intro hc
    apply h
    refine ⟨hc.1, ?_⟩
    have := hc.2
    rw [hp] at this
    omega

/-- The state `PacketReceived` hands to its terminal check: the flow counters
are those of the state before the event, and the queue has gained the packets
of the bundles sent, none on a first completion or after the drain, two
otherwise. -/
theorem run_PacketReceived_pre (s : State) (hl : s.locked_packets = [])
    (hp : s.parallel_reduce = 2) :
    ∃ (X : State) (new : List MyPacket),
      run s EventType.PacketReceived = (iteratable X).2 ∧
      X.parallel_reduce = 2 ∧ X.stream_count = s.stream_count ∧
      X.free_packets = s.free_packets ∧ X.total_packets_sent = s.total_packets_sent ∧
      X.remained_packets_per_message = s.remained_packets_per_message ∧
      X.exits = s.exits ∧ X.sends = s.sends ∧ X.packets = s.packets ++ new ∧
      ((s.recv_in_step + 1 ≠ 2 ∨
          (s.phase = Phase.AllGather ∧ s.steps_total ≤ s.step + 1 ∧
            s.drain_injected = true)) → new = []) ∧
      (¬ (s.recv_in_step + 1 ≠ 2 ∨
          (s.phase = Phase.AllGather ∧ s.steps_total ≤ s.step + 1 ∧
            s.drain_injected = true)) →
        new.length = 2 ∧ ∀ p ∈ new, p.msg_size = send_size X) := by
  have hp' : (2 : Int).toNat = 2 := rfl
  unfold run
  simp only
  by_cases h2 : s.recv_in_step + 1 = 2
  · rw [if_pos h2]
    by_cases hph : s.phase = Phase.ReduceScatter
    · rw [if_pos hph]
      by_cases hst : s.step + 1 ≥ s.steps_total
      · rw [if_pos hst, hp, hp', insert_packets_two]
        rotate_left
        · exact hl
        · rfl
        refine ⟨_, _, rfl, rfl, rfl, rfl, rfl, rfl, rfl, rfl, rfl, ?_, ?_⟩
        · intro hc
          rcases hc with hc | hc
          · exact absurd h2 hc
          · rw [hph] at hc
            exact absurd hc.1 (by decide)
        · intro _
          refine ⟨rfl, ?_⟩
          intro q hq
          simp only [List.mem_cons, List.mem_singleton, List.not_mem_nil, or_false] at hq
          rcases hq with hq | hq <;> rw [hq] <;> simp [send_size]
      · rw [if_neg hst, hp, hp', insert_packets_two]
        rotate_left
        · exact hl
        · rfl
        refine ⟨_, _, rfl, rfl, rfl, rfl, rfl, rfl, rfl, rfl, rfl, ?_, ?_⟩
        · intro hc
          rcases hc with hc | hc
          · exact absurd h2 hc
          · rw [hph] at hc
            exact absurd hc.1 (by decide)
        · intro _
          refine ⟨rfl, ?_⟩
          intro q hq
          simp only [List.mem_cons, List.mem_singleton, List.not_mem_nil, or_false] at hq
          rcases hq with hq | hq <;> rw [hq] <;> simp [send_size]
    · rw [if_neg hph]
      have hag : s.phase = Phase.AllGather := by
        cases hq : s.phase
        · exact absurd hq hph
        · rfl
      by_cases hst : s.step + 1 ≥ s.steps_total
      · rw [if_pos hst]
        by_cases hdr : s.drain_injected = true
        · rw [if_neg (by simpa using hdr)]
          refine ⟨_, [], rfl, hp, rfl, rfl, rfl, rfl, rfl, rfl,
            (List.append_nil _).symm, fun _ => rfl, ?_⟩
          intro hc
          exact absurd (Or.inr ⟨hag, hst, hdr⟩) hc
        · simp only [Bool.not_eq_true] at hdr
          rw [if_pos (by simp [hdr]), hp, hp', insert_packets_two]
          rotate_left
          · exact hl
          · rfl
          refine ⟨_, _, rfl, rfl, rfl, rfl, rfl, rfl, rfl, rfl, rfl, ?_, ?_⟩
          · intro hc
            rcases hc with hc | hc
            · exact absurd h2 hc
            · rw [hdr] at hc
              exact absurd hc.2.2 (by decide)
          · intro _
            refine ⟨rfl, ?_⟩
            intro q hq
            simp only [List.mem_cons, List.mem_singleton, List.not_mem_nil, or_false] at hq
            rcases hq with hq | hq <;> rw [hq] <;> simp [send_size]
      · rw [if_neg hst, hp, hp', insert_packets_two]
        rotate_left
        · exact hl
        · rfl
        refine ⟨_, _, rfl, rfl, rfl, rfl, rfl, rfl, rfl, rfl, rfl, ?_, ?_⟩
        · intro hc
          rcases hc with hc | hc
          · exact absurd h2 hc
          · exact absurd hc.2.1 (by omega)
        · intro _
          refine ⟨rfl, ?_⟩
          intro q hq
          simp only [List.mem_cons, List.mem_singleton, List.not_mem_nil, or_false] at hq
          rcases hq with hq | hq <;> rw [hq] <;> simp [send_size]
  · rw [if_neg h2]
    refine ⟨_, [], rfl, hp, rfl, rfl, rfl, rfl, rfl, rfl, (List.append_nil _).symm,
      fun _ => rfl, ?_⟩
    intro hc
    exact absurd (Or.inl h2) hc

theorem ready_frame (s : State) :
    (ready s).2.parallel_reduce = s.parallel_reduce ∧ (ready s).2.exits = s.exits ∧
    (ready s).2.locked_packets = s.locked_packets := by
  rw [ready_eq]
  exact ⟨rfl, rfl, rfl⟩

/-- The flow side of `PacketReceived`: the counters of scheduled, sent and free
packets are untouched; when no send is left scheduled and both credits are
free the session is released and the queue cleared; otherwise the queue gains
the packets of the bundles sent. -/
theorem run_PacketReceived_flow (s : State) (hl : s.locked_packets = [])
    (hp : s.parallel_reduce = 2) :
    (run s EventType.PacketReceived).stream_count = s.stream_count ∧
    (run s EventType.PacketReceived).free_packets = s.free_packets ∧
    (run s EventType.PacketReceived).total_packets_sent = s.total_packets_sent ∧
    (run s EventType.PacketReceived).remained_packets_per_message =
      s.remained_packets_per_message ∧
    ((s.stream_count = 0 ∧ s.free_packets = 2) →
      (run s EventType.PacketReceived).exits = s.exits + 1 ∧
      (run s EventType.PacketReceived).packets = []) ∧
    (¬ (s.stream_count = 0 ∧ s.free_packets = 2) →
      (run s EventType.PacketReceived).exits = s.exits ∧
      ∃ new : List MyPacket,
        (run s EventType.PacketReceived).packets = s.packets ++ new ∧
        ((s.recv_in_step + 1 ≠ 2 ∨
            (s.phase = Phase.AllGather ∧ s.steps_total ≤ s.step + 1 ∧
              s.drain_injected = true)) → new = []) ∧
        (¬ (s.recv_in_step + 1 ≠ 2 ∨
            (s.phase = Phase.AllGather ∧ s.steps_total ≤ s.step + 1 ∧
              s.drain_injected = true)) →
          new.length = 2 ∧
          ∀ p ∈ new, p.msg_size = send_size (run s EventType.PacketReceived))) := by
  obtain ⟨X, new, hrun, x1, x2, x3, x4, x5, x6, _, x8, x9, x10⟩ :=
    run_PacketReceived_pre s hl hp
  rw [hrun]
  by_cases hc : s.stream_count = 0 ∧ s.free_packets = 2
  · rw [(iteratable_release X x1 (by rw [x2]; exact hc.1) (by rw [x3]; exact hc.2)).2]
    refine ⟨x2, x3, x4, x5, fun _ => ⟨?_, rfl⟩, fun h => absurd hc h⟩
    show X.exits + 1 = s.exits + 1
    rw [x6]
  · rw [(iteratable_keep X x1 (by rw [x2, x3]; exact hc)).2]
    exact ⟨x2, x3, x4, x5, fun h => absurd h hc, fun _ => ⟨x6, new, x8, x9, x10⟩⟩

/-- The flow side of `StreamInit`. -/
theorem run_StreamInit_flow (s : State) (hl : s.locked_packets = [])
    (hp : s.parallel_reduce = 2) :
    (run s EventType.StreamInit).remained_packets_per_message =
      s.remained_packets_per_message ∧
    ((run s EventType.StreamInit).stream_count = 0 ∨
      (run s EventType.StreamInit).stream_count = s.stream_count) ∧
    (s.done = false →
      (run s EventType.StreamInit).stream_count = s.stream_count ∧
      (run s EventType.StreamInit).free_packets = s.free_packets ∧
      (run s EventType.StreamInit).total_packets_sent = s.total_packets_sent ∧
      (run s EventType.StreamInit).exits = s.exits ∧
      ∃ p q : MyPacket, (run s EventType.StreamInit).packets = s.packets ++ [p, q] ∧
        p.msg_size = send_size (run s EventType.StreamInit) ∧
        q.msg_size = send_size (run s EventType.StreamInit)) := by
  unfold run
  simp only
  by_cases hd : s.done = true
  · rw [if_pos hd, iteratable_eq]
    refine ⟨rfl, Or.inl rfl, ?_⟩
    intro hd'
    rw [hd] at hd'
    exact absurd hd' (by decide)
  · have hp' : (2 : Int).toNat = 2 := rfl
    rw [if_neg hd, hp, hp', insert_packets_two]
    rotate_left
    · exact hl
    · rfl
    simp only [Bool.not_eq_true] at hd
    refine ⟨rfl, Or.inr rfl, fun _ => ⟨rfl, rfl, rfl, rfl, _, _, rfl, ?_, ?_⟩⟩
    · simp [send_size]
    · simp [send_size]

/-- A credit return that dispatches the packet at the head of the queue. -/
theorem run_General_dispatch (s : State) (p : MyPacket) (rest : List MyPacket)
    (hp : s.parallel_reduce = 2) (hsc : 0 < s.stream_count)
    (hr : s.remained_packets_per_message = 0 ∨ s.remained_packets_per_message = 1)
    (hpk : s.packets = p :: rest) (hf : s.free_packets + 1 ≠ 0) :
    (run s EventType.General).stream_count = s.stream_count - 1 ∧
    (run s EventType.General).free_packets = s.free_packets ∧
    (run s EventType.General).total_packets_sent = s.total_packets_sent + 1 ∧
    ((run s EventType.General).remained_packets_per_message = 0 ∨
      (run s EventType.General).remained_packets_per_message = 1) ∧
    (¬ (s.stream_count - 1 = 0 ∧ s.free_packets = 2) →
      (run s EventType.General).exits = s.exits ∧
      (run s EventType.General).packets = rest) ∧
    ((s.stream_count - 1 = 0 ∧ s.free_packets = 2) →
      (run s EventType.General).exits = s.exits + 1 ∧
      (run s EventType.General).packets = []) := by
  have hrun : run s EventType.General =
      (iteratable (ready { s with free_packets := s.free_packets + 1 }).2).2 := rfl
  obtain ⟨_, r2, r3, r4, r5, r6, _⟩ :=
    ready_dispatch { s with free_packets := s.free_packets + 1 } p rest hsc hr hpk hf
  obtain ⟨g1, g2, _⟩ := ready_frame { s with free_packets := s.free_packets + 1 }
  have hpr : (ready { s with free_packets := s.free_packets + 1 }).2.parallel_reduce = 2 := by
    rw [g1]
    exact hp
  have r4' : (ready { s with free_packets := s.free_packets + 1 }).2.free_packets =
      s.free_packets := by
    rw [r4]
    show s.free_packets + 1 - 1 = s.free_packets
    omega
  rw [hrun]
  by_cases hc : s.stream_count - 1 = 0 ∧ s.free_packets = 2
  · rw [(iteratable_release _ hpr (by rw [r2]; exact hc.1) (by rw [r4']; exact hc.2)).2]
    refine ⟨r2, r4', r5, r6, fun h => absurd hc h, fun _ => ⟨?_, rfl⟩⟩
    show (ready { s with free_packets := s.free_packets + 1 }).2.exits + 1 = s.exits + 1
    rw [g2]
  · rw [(iteratable_keep _ hpr (by rw [r2, r4']; exact hc)).2]
    exact ⟨r2, r4', r5, r6, fun _ => ⟨g2, r3⟩, fun h => absurd h hc⟩

/-- A credit return that finds nothing to dispatch. -/
theorem run_General_noop (s : State) (hp : s.parallel_reduce = 2)
    (h : s.stream_count = 0 ∨ s.packets = [] ∨ s.free_packets + 1 = 0) :
    (run s EventType.General).stream_count = s.stream_count ∧
    (run s EventType.General).free_packets = s.free_packets + 1 ∧
    (run s EventType.General).total_packets_sent = s.total_packets_sent ∧
    (run s EventType.General).remained_packets_per_message =
      s.remained_packets_per_message ∧
    (¬ (s.stream_count = 0 ∧ s.free_packets + 1 = 2) →
      (run s EventType.General).exits = s.exits ∧
      (run s EventType.General).packets = s.packets) ∧
    ((s.stream_count = 0 ∧ s.free_packets + 1 = 2) →
      (run s EventType.General).exits = s.exits + 1 ∧
      (run s EventType.General).packets = []) := by
  have hrun : run s EventType.General =
      (iteratable (ready { s with free_packets := s.free_packets + 1 }).2).2 := rfl
  obtain ⟨_, r2, r3, r4, r5, r6, _⟩ :=
    ready_noop { s with free_packets := s.free_packets + 1 } h
  obtain ⟨g1, g2, _⟩ := ready_frame { s with free_packets := s.free_packets + 1 }
  have hpr : (ready { s with free_packets := s.free_packets + 1 }).2.parallel_reduce = 2 := by
    rw [g1]
    exact hp
  rw [hrun]
  by_cases hc : s.stream_count = 0 ∧ s.free_packets + 1 = 2
  · rw [(iteratable_release _ hpr (by rw [r2]; exact hc.1) (by rw [r4]; exact hc.2)).2]
    refine ⟨r2, r4, r5, r6, fun h => absurd hc h, fun _ => ⟨?_, rfl⟩⟩
    show (ready { s with free_packets := s.free_packets + 1 }).2.exits + 1 = s.exits + 1
    rw [g2]
  · rw [(iteratable_keep _ hpr (by rw [r2, r4]; exact hc)).2]
    exact ⟨r2, r4, r5, r6, fun _ => ⟨g2, r3⟩, fun h => absurd h hc⟩

theorem FlowInv_construct (id n : Int) (local_dim : Bool) (T : Nat) (st : StreamState) :
    FlowInv (construct id n local_dim T st) := by
  have h0 := (ceil_log3_spec n).1
  refine ⟨rfl, rfl, ?_, Or.inr rfl⟩
  show 0 ≤ 4 * ceil_log3 n
  omega

theorem FlowInv_run (s : State) (e : EventType) (h : FlowInv s) : FlowInv (run s e) := by
  obtain ⟨i1, i2, i3, i4⟩ := h
  cases e with
  | General =>
    obtain ⟨hf, _, _, _, hl⟩ := run_General s i1
    have hpr : (run s EventType.General).parallel_reduce = 2 := by
      rw [hf.2.2.1]
      exact i2
    by_cases hc : s.stream_count = 0 ∨ s.packets = [] ∨ s.free_packets + 1 = 0
    · obtain ⟨g1, _, _, g4, _⟩ := run_General_noop s i2 hc
      exact ⟨hl, hpr, by rw [g1]; exact i3, by rw [g4]; exact i4⟩
    · have h1 : s.stream_count ≠ 0 := fun hq => hc (Or.inl hq)
      have h3 : s.free_packets + 1 ≠ 0 := fun hq => hc (Or.inr (Or.inr hq))
      cases hpk : s.packets with
      | nil => exact absurd (Or.inr (Or.inl hpk)) hc
      | cons p rest =>
        obtain ⟨g1, _, _, g4, _⟩ :=
          run_General_dispatch s p rest i2 (by omega) i4 hpk h3
        exact ⟨hl, hpr, by rw [g1]; omega, g4⟩
  | Other => exact ⟨i1, i2, i3, i4⟩
  | StreamInit =>
    obtain ⟨hf, hl, _, _⟩ := run_StreamInit s i1 i2
    obtain ⟨g1, g2, _⟩ := run_StreamInit_flow s i1 i2
    refine ⟨hl, by rw [hf.2.2.1]; exact i2, ?_, by rw [g1]; exact i4⟩
    rcases g2 with g2 | g2 <;> rw [g2]
    exact i3
  | PacketReceived =>
    obtain ⟨hf, hl, _, _⟩ := run_PacketReceived s i1 i2
    obtain ⟨g1, _, _, g4, _⟩ := run_PacketReceived_flow s i1 i2
    exact ⟨hl, by rw [hf.2.2.1]; exact i2, by rw [g1]; exact i3, by rw [g4]; exact i4⟩

theorem FlowInv_runs (evs : List EventType) :
    ∀ s : State, FlowInv s → FlowInv (runs s evs) := by
  induction evs with
  | nil =>
    intro s h
    exact h
  | cons e es ih =>
    intro s h
    exact ih (run s e) (FlowInv_run s e h)

/-- C15: let `t` be a state reached by any sequence of events delivered to a
fresh instance, with any number of free credits (`ready` is called right after
a credit is returned).  When `stream_count = 0`, or the queue is empty, or
`free_packets = 0`, `ready` returns false and leaves `stream_count`, the queue,
`free_packets` and `total_packets_sent` as they are; otherwise it returns true,
sends the packet at the head of the queue, removes it from the queue, and
changes `stream_count`, `free_packets` and `total_packets_sent` by exactly
-1, -1 and +1. -/
theorem C15_ready_dispatch (id n : Int) (local_dim : Bool) (T : Nat) (st : StreamState)
    (evs : List EventType) (fp : Int) (t : State)
    (ht : t = { runs (construct id n local_dim T st) evs with free_packets := fp }) :
    ((t.stream_count = 0 ∨ t.packets = [] ∨ t.free_packets = 0) →
      (ready t).1 = false ∧ (ready t).2.stream_count = t.stream_count ∧
      (ready t).2.packets = t.packets ∧ (ready t).2.free_packets = t.free_packets ∧
      (ready t).2.total_packets_sent = t.total_packets_sent) ∧
    (¬ (t.stream_count = 0 ∨ t.packets = [] ∨ t.free_packets = 0) →
      (ready t).1 = true ∧
      (∃ p rest, t.packets = p :: rest ∧ (ready t).2.packets = rest ∧
        (ready t).2.sends = t.sends ++
          [{ srcRank := t.id, dstRank := p.preferred_dest, msg_size := p.msg_size,
             recv_src := p.preferred_src }]) ∧
      (ready t).2.stream_count = t.stream_count - 1 ∧
      (ready t).2.free_packets = t.free_packets - 1 ∧
      (ready t).2.total_packets_sent = t.total_packets_sent + 1) := by
  have h0 := FlowInv_runs evs _ (FlowInv_construct id n local_dim T st)
  have hsc : 0 ≤ t.stream_count := by rw [ht]; exact h0.2.2.1
  have hr : t.remained_packets_per_message = 0 ∨ t.remained_packets_per_message = 1 := by
    rw [ht]
    exact h0.2.2.2
  refine ⟨?_, ?_⟩
  · intro hc
    obtain ⟨r1, r2, r3, r4, r5, _⟩ := ready_noop t hc
    exact ⟨r1, r2, r3, r4, r5⟩
  · intro hc
    have h1 : t.stream_count ≠ 0 := fun hq => hc (Or.inl hq)
    have h3 : t.free_packets ≠ 0 := fun hq => hc (Or.inr (Or.inr hq))
    cases hpk : t.packets with
    | nil => exact absurd (Or.inr (Or.inl hpk)) hc
    | cons p rest =>
      obtain ⟨r1, r2, r3, r4, r5, _, r7⟩ := ready_dispatch t p rest (by omega) hr hpk h3
      exact ⟨r1, ⟨p, rest, rfl, r3, r7⟩, r2, r4, r5⟩

set_option maxRecDepth 100000 in
/-- C15 on 9 nodes: right after `StreamInit`, with the first credit returned,
`ready` dispatches the packet for rank 1 and 7 of the 8 scheduled sends
remain; with no credit it dispatches nothing. -/
theorem C15_ready_dispatch_witness :
    ((ready { runs (construct 0 9 false 2187 StreamState.Created) [EventType.StreamInit]
        with free_packets := 1 }).1 = true ∧
      (ready { runs (construct 0 9 false 2187 StreamState.Created) [EventType.StreamInit]
        with free_packets := 1 }).2.stream_count = 8 - 1) ∧
    (ready { runs (construct 0 9 false 2187 StreamState.Created) [EventType.StreamInit]
        with free_packets := 0 }).1 = false ∧
    ((ready { runs (construct 0 9 false 2187 StreamState.Created) [EventType.StreamInit]
        with free_packets := 1 }).2.sends.map fun x => x.dstRank) = [1] :=
  ⟨⟨((C15_ready_dispatch 0 9 false 2187 StreamState.Created [EventType.StreamInit] 1 _ rfl).2
       (by decide)).1,
     ((C15_ready_dispatch 0 9 false 2187 StreamState.Created [EventType.StreamInit] 1 _ rfl).2
       (by decide)).2.2.1⟩,
   ((C15_ready_dispatch 0 9 false 2187 StreamState.Created [EventType.StreamInit] 0 _ rfl).1
       (by decide)).1,
   by decide⟩

/-! ## The canonical schedule -/

theorem runs_append (s : State) (a b : List EventType) :
    runs s (a ++ b) = runs (runs s a) b := by
  unfold runs
  rw [List.foldl_append]

/-- Along a run no completion is counted beyond `4 * K` before the instance is
done. -/
theorem RunInv_not_done (K T : Nat) (s : State) (h : RunInv K T s)
    (hlt : s.total_packets_received < 4 * (K : Int)) : s.done = false := by
  obtain ⟨-, -, -, -, i5, -, i7, -, i9, -, i11, -, -⟩ := h
  cases hd : s.done
  · rfl
  · obtain ⟨hph, hk⟩ := i9 hd
    have := (i11 hph).2
    omega

theorem RunInv_done (K T : Nat) (s : State) (h : RunInv K T s)
    (hge : 4 * (K : Int) ≤ s.total_packets_received) : s.done = true := by
  obtain ⟨-, -, -, -, i5, -, i7, i8, -, i10, i11, -, -⟩ := h
  cases hd : s.done
  · exfalso
    have hlt := i8 hd
    cases hph : s.phase
    · have := (i10 hph).2
      omega
    · have := (i11 hph).2
      omega
  · rfl

/-- One round of the canonical schedule. -/
theorem CanonInv_round (K T j : Nat) (s : State) (h : CanonInv K T j s) (hj : j < 2 * K) :
    CanonInv K T (j + 1) (runs s canonical_round) := by
  obtain ⟨hinv, c1, c2, c3, c4, c5, c6, c7, p, q, c8, _, _⟩ := h
  have hruns : runs s canonical_round =
      run (run (run (run s EventType.General) EventType.General) EventType.PacketReceived)
        EventType.PacketReceived := rfl
  rw [hruns]
  -- first credit return
  have inv1 := RunInv_General K T s hinv
  obtain ⟨_, _, a3, a4, _⟩ := run_General s hinv.1
  obtain ⟨g1, g2, g3, g4, g5, _⟩ :=
    run_General_dispatch s p [q] hinv.2.1 (by omega) c7 c8 (by omega)
  obtain ⟨g5a, g5b⟩ := g5 (by omega)
  generalize run s EventType.General = s1 at *
  -- second credit return
  have inv2 := RunInv_General K T s1 inv1
  obtain ⟨_, _, b3, b4, _⟩ := run_General s1 inv1.1
  obtain ⟨k1, k2, k3, k4, k5, _⟩ :=
    run_General_dispatch s1 q [] inv1.2.1 (by omega) g4 g5b (by omega)
  obtain ⟨k5a, k5b⟩ := k5 (by omega)
  generalize run s1 EventType.General = s2 at *
  -- first completion
  have inv3 := RunInv_PacketReceived K T s2 inv2
  obtain ⟨_, _, d3, dcase⟩ := run_PacketReceived s2 inv2.1 inv2.2.1
  have d4 : (run s2 EventType.PacketReceived).recv_in_step = 1 := by
    rcases dcase with ⟨_, _, hr⟩ | ⟨hc, _⟩ | ⟨hc, _⟩ | ⟨hc, _⟩ | ⟨hc, _⟩ | ⟨hc, _⟩
    · omega
    all_goals omega
  obtain ⟨m1, m2, m3, m4, _, m6⟩ := run_PacketReceived_flow s2 inv2.1 inv2.2.1
  obtain ⟨m6a, new, m6b, m6c, _⟩ := m6 (by omega)
  have hnew : new = [] := m6c (Or.inl (by omega))
  rw [hnew, k5b] at m6b
  generalize run s2 EventType.PacketReceived = s3 at *
  -- second completion
  have inv4 := RunInv_PacketReceived K T s3 inv3
  obtain ⟨_, _, e3, ecase⟩ := run_PacketReceived s3 inv3.1 inv3.2.1
  have e4 : (run s3 EventType.PacketReceived).recv_in_step = 0 := by
    rcases ecase with ⟨hc, _⟩ | ⟨_, _, _, ha, _⟩ | ⟨_, _, _, ha, _⟩ | ⟨_, _, _, _, ha, _⟩ |
        ⟨_, _, _, _, ha, _⟩ | ⟨_, _, _, ha, _⟩
    · omega
    all_goals exact ha.2.2.2.2.2.2.2
  have hnd : s3.done = false := RunInv_not_done K T s3 inv3 (by omega)
  have hdr : s3.drain_injected = false := by
    rw [inv3.2.2.2.2.2.1]
    exact hnd
  obtain ⟨n1, n2, n3, n4, _, n6⟩ := run_PacketReceived_flow s3 inv3.1 inv3.2.1
  obtain ⟨n6a, new', n6b, _, n6d⟩ := n6 (by omega)
  obtain ⟨hlen, hsz⟩ := n6d (by
    intro hc
    rcases hc with hc | hc
    · omega
    · rw [hdr] at hc
      exact absurd hc.2.2 (by decide))
  rw [m6b, List.nil_append] at n6b
  generalize run s3 EventType.PacketReceived = s4 at *
  refine ⟨inv4, e4, by push_cast; omega, by push_cast; omega, by push_cast; omega,
    by omega, by omega, by rw [n4, m4]; exact k4, ?_⟩
  match new', hlen, n6b, hsz with
  | [x, y], _, hpk, hs =>
    exact ⟨x, y, hpk, hs x (by simp), hs y (by simp)⟩

theorem canonical_rounds_succ (m : Nat) :
    (List.replicate (m + 1) canonical_round).flatten =
      canonical_round ++ (List.replicate m canonical_round).flatten := by
  rw [List.replicate_succ, List.flatten_cons]

/-- Any number of rounds of the canonical schedule. -/
theorem CanonInv_rounds (K T : Nat) (m : Nat) :
    ∀ (j : Nat) (s : State), CanonInv K T j s → j + m ≤ 2 * K →
      CanonInv K T (j + m) (runs s (List.replicate m canonical_round).flatten) := by
  induction m with
  | zero =>
    intro j s h _
    exact h
  | succ m ih =>
    intro j s h hj
    rw [canonical_rounds_succ, runs_append]
    have h1 := CanonInv_round K T j s h (by omega)
    have h2 := ih (j + 1) _ h1 (by omega)
    have e : j + 1 + m = j + (m + 1) := by omega
    rw [e] at h2
    exact h2

/-- The state right after `StreamInit` on a fresh instance of a ring with at
least two nodes is the canonical state after 0 rounds. -/
theorem CanonInv_init (id n : Int) (local_dim : Bool) (T : Nat) (st : StreamState)
    (hn : 2 ≤ n) :
    CanonInv (ceil_log3 n).toNat T 0
      (run (construct id n local_dim T st) EventType.StreamInit) := by
  have hK := ceil_log3_pos n hn
  obtain ⟨h0, hrec0⟩ := RunInv_init id n local_dim T st hn
  have hd0 : (construct id n local_dim T st).done = false := by
    simp only [construct, decide_eq_false_iff_not]
    omega
  obtain ⟨_, _, _, hcase⟩ := run_StreamInit (construct id n local_dim T st) rfl rfl
  have hr : (run (construct id n local_dim T st) EventType.StreamInit).recv_in_step = 0 := by
    rcases hcase with ⟨hd, _⟩ | ⟨_, _, _, _, _, _, a6, _⟩
    · rw [hd0] at hd
      exact absurd hd (by decide)
    · exact a6
  obtain ⟨f1, _, f3⟩ := run_StreamInit_flow (construct id n local_dim T st) rfl rfl
  obtain ⟨f3a, f3b, f3c, f3d, p, q, f3e, f3f, f3g⟩ := f3 hd0
  refine ⟨h0, hr, by rw [hrec0]; rfl, by rw [f3c]; rfl, ?_, by rw [f3b]; rfl,
    by rw [f3d]; rfl, Or.inr (by rw [f1]; rfl), p, q, f3e, f3f, f3g⟩
  rw [f3a]
  show 4 * ceil_log3 n = 4 * (((ceil_log3 n).toNat : Nat) : Int) - 2 * ((0 : Nat) : Int)
  omega

theorem iteratable_exits (X : State) : X.exits ≤ (iteratable X).2.exits := by
  unfold iteratable
  split
  · show X.exits ≤ X.exits + 1
    omega
  · exact Nat.le_refl _

/-- No event other than `StreamInit` lowers the number of releases. -/
theorem exits_le_run (s : State) (e : EventType) (hl : s.locked_packets = [])
    (hp : s.parallel_reduce = 2) (he : e ≠ EventType.StreamInit) :
    s.exits ≤ (run s e).exits := by
  cases e with
  | General =>
    have hrun : run s EventType.General =
        (iteratable (ready { s with free_packets := s.free_packets + 1 }).2).2 := rfl
    have h1 := iteratable_exits (ready { s with free_packets := s.free_packets + 1 }).2
    rw [(ready_frame { s with free_packets := s.free_packets + 1 }).2.1] at h1
    rw [hrun]
    exact h1
  | StreamInit => exact absurd rfl he
  | Other => exact Nat.le_refl _
  | PacketReceived =>
    obtain ⟨X, _, hrun, _, _, _, _, _, x6, _⟩ := run_PacketReceived_pre s hl hp
    have h1 := iteratable_exits X
    rw [x6] at h1
    rw [hrun]
    exact h1

theorem exits_le_runs (evs : List EventType) :
    ∀ s : State, Wf s → (∀ e ∈ evs, e ≠ EventType.StreamInit) →
      s.exits ≤ (runs s evs).exits := by
  induction evs with
  | nil =>
    intro s _ _
    exact Nat.le_refl _
  | cons e es ih =>
    intro s hw hes
    have he : e ≠ EventType.StreamInit := hes e (List.mem_cons_self _ _)
    have h1 := exits_le_run s e hw.1 hw.2.1 he
    have h2 := ih (run s e) (Wf_run s e hw) (fun x hx => hes x (List.mem_cons_of_mem _ hx))
    exact Nat.le_trans h1 h2

theorem canonical_tail_eq (k : Nat) :
    canonical_tail k =
      ((List.replicate (2 * k) canonical_round).flatten ++ [EventType.General]) ++
        [EventType.General] := by
  unfold canonical_tail canonical_round
  rw [List.append_assoc]
  rfl

theorem canonical_tail_no_init (k : Nat) :
    ∀ e ∈ (List.replicate (2 * k) canonical_round).flatten ++ [EventType.General],
      e ≠ EventType.StreamInit := by
  intro e he
  rcases List.mem_append.mp he with h | h
  · obtain ⟨l, hl, hel⟩ := List.mem_flatten.mp h
    have := List.eq_of_mem_replicate hl
    rw [this] at hel
    simp only [canonical_round, List.mem_cons, List.mem_singleton, List.not_mem_nil,
      or_false] at hel
    rcases hel with h | h | h | h <;> rw [h] <;> decide
  · simp only [List.mem_singleton] at h
    rw [h]
    decide

/-- The end of the canonical schedule, from the state `s` after all rounds.
After the first of the two final credit returns nothing is released and the two
drain packets, of size 0, are still queued; the second one finds no send
scheduled, dispatches nothing, and its terminal check releases the session and
clears the queue. -/
theorem canonical_end_core (K T : Nat) (s pre : State) (h : CanonInv K T (2 * K) s)
    (hpre : pre = run s EventType.General) :
    Wf pre ∧ pre.exits = 0 ∧ pre.stream_count = 0 ∧ pre.free_packets = 1 ∧
    pre.total_packets_sent = 4 * (K : Int) ∧ pre.total_packets_received = 4 * (K : Int) ∧
    (∃ p q : MyPacket, pre.packets = [p, q] ∧ p.msg_size = 0 ∧ q.msg_size = 0) ∧
    (ready { pre with free_packets := pre.free_packets + 1 }).1 = false ∧
    (ready { pre with free_packets := pre.free_packets + 1 }).2.packets = pre.packets ∧
    (iteratable (ready { pre with free_packets := pre.free_packets + 1 }).2).1 = false ∧
    (run pre EventType.General).packets = [] ∧
    (run pre EventType.General).exits = 1 ∧
    (run pre EventType.General).stream_count = 0 ∧
    (run pre EventType.General).free_packets = 2 ∧
    (run pre EventType.General).parallel_reduce = 2 ∧
    (run pre EventType.General).total_packets_sent = 4 * (K : Int) ∧
    (run pre EventType.General).total_packets_received = 4 * (K : Int) := by
  obtain ⟨hinv, c1, c2, c3, c4, c5, c6, c7, p, q, c8, c9, c10⟩ := h
  have hdone : s.done = true := RunInv_done _ T s hinv (by rw [c2]; push_cast; omega)
  have hdr : s.drain_injected = true := by
    rw [hinv.2.2.2.2.2.1]
    exact hdone
  have hz : send_size s = 0 := by
    unfold send_size
    rw [if_pos ⟨hdone, hdr⟩]
  have inv1 := RunInv_General _ T s hinv
  obtain ⟨_, _, a3, a4, _⟩ := run_General s hinv.1
  obtain ⟨g1, g2, g3, g4, g5, _⟩ :=
    run_General_noop s hinv.2.1 (Or.inl (by rw [c4]; push_cast; omega))
  obtain ⟨g5a, g5b⟩ := g5 (by omega)
  rw [← hpre] at inv1 a3 a4 g1 g2 g3 g4 g5a g5b
  have hsc1 : pre.stream_count = 0 := by rw [g1, c4]; push_cast; omega
  obtain ⟨hf, _, b3, b4, _⟩ := run_General pre inv1.1
  obtain ⟨k1, k2, k3, _, _, k6⟩ := run_General_noop pre inv1.2.1 (Or.inl hsc1)
  obtain ⟨k6a, k6b⟩ := k6 ⟨hsc1, by omega⟩
  obtain ⟨r1, r2, r3, r4, _⟩ :=
    ready_noop { pre with free_packets := pre.free_packets + 1 } (Or.inl hsc1)
  have hpr : (ready { pre with free_packets := pre.free_packets + 1 }).2.parallel_reduce
      = 2 := by
    rw [(ready_frame { pre with free_packets := pre.free_packets + 1 }).1]
    exact inv1.2.1
  have hrel := (iteratable_release _ hpr (by rw [r2]; exact hsc1) (by
    rw [r4]
    show pre.free_packets + 1 = 2
    omega)).1
  refine ⟨⟨inv1.1, inv1.2.1, inv1.2.2.2.2.1⟩, by omega, hsc1, by omega,
    by rw [g3, c3]; push_cast; omega, by rw [a4, c2]; push_cast; omega,
    ⟨p, q, by rw [g5b]; exact c8, by rw [c9]; exact hz, by rw [c10]; exact hz⟩, r1, r3,
    hrel, k6b, by omega, by rw [k1]; exact hsc1, by omega,
    by rw [hf.2.2.1]; exact inv1.2.1,
    by rw [k3, g3, c3]; push_cast; omega, by rw [b4, a4, c2]; push_cast; omega⟩

/-- The canonical schedule is `StreamInit`, all rounds, and two credit
returns. -/
theorem canonical_split (s0 : State) (k : Nat) :
    runs s0 (canonical_schedule k) =
      run (run (runs (run s0 EventType.StreamInit)
        (List.replicate (2 * k) canonical_round).flatten) EventType.General)
        EventType.General ∧
    runs s0 (canonical_schedule k).dropLast =
      run (runs (run s0 EventType.StreamInit)
        (List.replicate (2 * k) canonical_round).flatten) EventType.General := by
  have e1 : canonical_schedule k =
      (EventType.StreamInit ::
        ((List.replicate (2 * k) canonical_round).flatten ++ [EventType.General])) ++
        [EventType.General] := by
    unfold canonical_schedule
    rw [canonical_tail_eq]
    rfl
  have e2 : runs s0 (EventType.StreamInit ::
      ((List.replicate (2 * k) canonical_round).flatten ++ [EventType.General])) =
      run (runs (run s0 EventType.StreamInit)
        (List.replicate (2 * k) canonical_round).flatten) EventType.General := by
    show runs (run s0 EventType.StreamInit) _ = _
    rw [runs_append]
    rfl
  refine ⟨?_, ?_⟩
  · rw [e1, runs_append, e2]
    rfl
  · rw [e1, List.dropLast_concat, e2]

/-- Before the last event of the canonical schedule nothing is released. -/
theorem canonical_prefix_exits (id n : Int) (local_dim : Bool) (T : Nat) (st : StreamState)
    (hn : 2 ≤ n) (i : Nat) (hi : i < (canonical_schedule (ceil_log3 n).toNat).length) :
    (runs (construct id n local_dim T st)
      ((canonical_schedule (ceil_log3 n).toNat).take i)).exits = 0 := by
  have e1 : canonical_schedule (ceil_log3 n).toNat =
      EventType.StreamInit ::
        (((List.replicate (2 * (ceil_log3 n).toNat) canonical_round).flatten ++
          [EventType.General]) ++ [EventType.General]) := by
    unfold canonical_schedule
    rw [canonical_tail_eq]
  rw [e1] at hi ⊢
  cases i with
  | zero => rfl
  | succ i' =>
    rw [List.take_succ_cons]
    simp only [List.length_cons, List.length_append, List.length_nil] at hi
    rw [List.take_append_of_le_length (by
      simp only [List.length_append, List.length_cons, List.length_nil]
      omega)]
    have hsplit := List.take_append_drop i'
      ((List.replicate (2 * (ceil_log3 n).toNat) canonical_round).flatten ++
        [EventType.General])
    have h0 := CanonInv_init id n local_dim T st hn
    have h1 := CanonInv_rounds (ceil_log3 n).toNat T (2 * (ceil_log3 n).toNat) 0 _ h0
      (by omega)
    rw [Nat.zero_add] at h1
    have hend := canonical_end_core _ T _ _ h1 rfl
    have hpre : runs (construct id n local_dim T st)
        (EventType.StreamInit ::
          ((List.replicate (2 * (ceil_log3 n).toNat) canonical_round).flatten ++
            [EventType.General])) =
        run (runs (run (construct id n local_dim T st) EventType.StreamInit)
          (List.replicate (2 * (ceil_log3 n).toNat) canonical_round).flatten)
          EventType.General := by
      show runs (run (construct id n local_dim T st) EventType.StreamInit) _ = _
      rw [runs_append]
      rfl
    have hzero := hend.2.1
    rw [← hpre, ← hsplit] at hzero
    have hcons : ∀ l : List EventType,
        runs (construct id n local_dim T st) (EventType.StreamInit :: l) =
          runs (run (construct id n local_dim T st) EventType.StreamInit) l :=
      fun _ => rfl
    rw [hcons, runs_append] at hzero
    rw [hcons]
    have hwf : Wf (runs (run (construct id n local_dim T st) EventType.StreamInit)
        (List.take i' ((List.replicate (2 * (ceil_log3 n).toNat) canonical_round).flatten ++
          [EventType.General]))) :=
      Wf_runs _ _ (Wf_run _ _ (Wf_construct id n local_dim T st))
    have hmono := exits_le_runs
      (List.drop i' ((List.replicate (2 * (ceil_log3 n).toNat) canonical_round).flatten ++
        [EventType.General])) _ hwf
      (fun e he => canonical_tail_no_init _ e (List.mem_of_mem_drop he))
    omega

/-- C16: on a ring of `n ≥ 2` nodes under the canonical schedule, no proper
prefix of the schedule releases the session, the whole schedule releases it
exactly once (so the last event does), and at the end `stream_count = 0`,
`free_packets = parallel_reduce = 2` and `total_packets_sent =
total_packets_received = 4 * steps_total`. -/
theorem C16_release_once (id n : Int) (local_dim : Bool) (T : Nat) (st : StreamState)
    (hn : 2 ≤ n) :
    (∀ i, i < (canonical_schedule (construct id n local_dim T st).steps_total.toNat).length →
      (runs (construct id n local_dim T st)
        ((canonical_schedule
          (construct id n local_dim T st).steps_total.toNat).take i)).exits = 0) ∧
    (runs (construct id n local_dim T st)
      (canonical_schedule (construct id n local_dim T st).steps_total.toNat)).exits = 1 ∧
    (runs (construct id n local_dim T st)
      (canonical_schedule (construct id n local_dim T st).steps_total.toNat)).stream_count
        = 0 ∧
    (runs (construct id n local_dim T st)
      (canonical_schedule (construct id n local_dim T st).steps_total.toNat)).free_packets
        = 2 ∧
    (runs (construct id n local_dim T st)
      (canonical_schedule (construct id n local_dim T st).steps_total.toNat)).parallel_reduce
        = 2 ∧
    (runs (construct id n local_dim T st)
      (canonical_schedule
        (construct id n local_dim T st).steps_total.toNat)).total_packets_sent =
      4 * (construct id n local_dim T st).steps_total ∧
    (runs (construct id n local_dim T st)
      (canonical_schedule
        (construct id n local_dim T st).steps_total.toNat)).total_packets_received =
      4 * (construct id n local_dim T st).steps_total := by
  have hK := ceil_log3_pos n hn
  have hst : (construct id n local_dim T st).steps_total = ceil_log3 n := rfl
  rw [hst]
  have h0 := CanonInv_init id n local_dim T st hn
  have h1 := CanonInv_rounds (ceil_log3 n).toNat T (2 * (ceil_log3 n).toNat) 0 _ h0
    (by omega)
  rw [Nat.zero_add] at h1
  obtain ⟨_, _, _, _, _, _, _, _, _, _, _, e1, e2, e3, e4, e5, e6⟩ :=
    canonical_end_core _ T _ _ h1 rfl
  have hcast : (((ceil_log3 n).toNat : Nat) : Int) = ceil_log3 n := by omega
  rw [hcast] at e5 e6
  rw [(canonical_split (construct id n local_dim T st) (ceil_log3 n).toNat).1]
  exact ⟨fun i hi => canonical_prefix_exits id n local_dim T st hn i hi,
    e1, e2, e3, e4, e5, e6⟩

set_option maxRecDepth 100000 in
/-- C16 on 9 nodes: the 19 events of the canonical schedule release the session
once, and the first 18 do not. -/
theorem C16_release_once_witness :
    (canonical_schedule (construct 0 9 false 2187 StreamState.Created).steps_total.toNat).length
      = 19 ∧
    (runs (construct 0 9 false 2187 StreamState.Created)
      ((canonical_schedule
        (construct 0 9 false 2187 StreamState.Created).steps_total.toNat).take 18)).exits
      = 0 ∧
    (runs (construct 0 9 false 2187 StreamState.Created)
      (canonical_schedule
        (construct 0 9 false 2187 StreamState.Created).steps_total.toNat)).exits = 1 :=
  ⟨by decide,
   (C16_release_once 0 9 false 2187 StreamState.Created (by decide)).1 18 (by decide),
   (C16_release_once 0 9 false 2187 StreamState.Created (by decide)).2.1⟩

/-- C17, as the code has it: on a ring of `n ≥ 2` nodes under the canonical
schedule, when the last event reaches its terminal check all
`4 * steps_total` data packets have been dispatched, `ready` has just returned
false, and the queue holds exactly the two drain packets, both of size 0; the
terminal check releases the session, and the release empties the queue. -/
theorem C17_drain_left_in_queue (id n : Int) (local_dim : Bool) (T : Nat)
    (st : StreamState) (pre : State) (hn : 2 ≤ n)
    (hpre : pre = runs (construct id n local_dim T st)
      (canonical_schedule (construct id n local_dim T st).steps_total.toNat).dropLast) :
    runs (construct id n local_dim T st)
      (canonical_schedule (construct id n local_dim T st).steps_total.toNat) =
      (iteratable (ready { pre with free_packets := pre.free_packets + 1 }).2).2 ∧
    (ready { pre with free_packets := pre.free_packets + 1 }).1 = false ∧
    (ready { pre with free_packets := pre.free_packets + 1 }).2.total_packets_sent =
      4 * (construct id n local_dim T st).steps_total ∧
    (∃ p q : MyPacket,
      (ready { pre with free_packets := pre.free_packets + 1 }).2.packets = [p, q] ∧
      p.msg_size = 0 ∧ q.msg_size = 0) ∧
    (iteratable (ready { pre with free_packets := pre.free_packets + 1 }).2).1 = false ∧
    (iteratable (ready { pre with free_packets := pre.free_packets + 1 }).2).2.packets
      = [] := by
  have hK := ceil_log3_pos n hn
  have hst : (construct id n local_dim T st).steps_total = ceil_log3 n := rfl
  rw [hst] at hpre ⊢
  have h0 := CanonInv_init id n local_dim T st hn
  have h1 := CanonInv_rounds (ceil_log3 n).toNat T (2 * (ceil_log3 n).toNat) 0 _ h0
    (by omega)
  rw [Nat.zero_add] at h1
  obtain ⟨hs1, hs2⟩ := canonical_split (construct id n local_dim T st) (ceil_log3 n).toNat
  rw [hs2] at hpre
  obtain ⟨_, _, hsc, _, e5, _, ⟨p, q, e7, e8, e9⟩, r1, r3, hrel, k6, _⟩ :=
    canonical_end_core _ T _ pre h1 hpre
  have hcast : (((ceil_log3 n).toNat : Nat) : Int) = ceil_log3 n := by omega
  have hrun : run pre EventType.General =
      (iteratable (ready { pre with free_packets := pre.free_packets + 1 }).2).2 := rfl
  have hsent := (ready_noop { pre with free_packets := pre.free_packets + 1 }
    (Or.inl hsc)).2.2.2.2.1
  refine ⟨?_, r1, ?_, ⟨p, q, by rw [r3]; exact e7, e8, e9⟩, hrel, ?_⟩
  · rw [hs1, ← hpre]
    rfl
  · rw [hsent]
    show pre.total_packets_sent = 4 * ceil_log3 n
    rw [e5, hcast]
  · rw [← hrun]
    exact k6

set_option maxRecDepth 100000 in
/-- C17 on 9 nodes: at the terminal check of the last event the queue holds two
packets of size 0. -/
theorem C17_drain_left_in_queue_witness :
    ∃ p q : MyPacket,
      (ready { runs (construct 0 9 false 2187 StreamState.Created)
          (canonical_schedule
            (construct 0 9 false 2187 StreamState.Created).steps_total.toNat).dropLast with
        free_packets := (runs (construct 0 9 false 2187 StreamState.Created)
          (canonical_schedule
            (construct 0 9 false 2187 StreamState.Created).steps_total.toNat).dropLast
              ).free_packets + 1 }).2.packets = [p, q] ∧
      p.msg_size = 0 ∧ q.msg_size = 0 :=
  (C17_drain_left_in_queue 0 9 false 2187 StreamState.Created _ (by decide) rfl).2.2.2.1

set_option maxRecDepth 100000 in
/-- C17 fails: on 9 nodes under the canonical schedule, at the terminal check
of the last event, the one that releases the session, `ready` has dispatched
nothing and the queue still holds the two drain packets for ranks 3 and 6; the
release is what removes them. -/
theorem C17_drain_left_in_queue_counterexample :
    (ready { runs (construct 0 9 false 2187 StreamState.Created)
          (canonical_schedule 2).dropLast with
        free_packets := (runs (construct 0 9 false 2187 StreamState.Created)
          (canonical_schedule 2).dropLast).free_packets + 1 }).1 = false ∧
    (ready { runs (construct 0 9 false 2187 StreamState.Created)
          (canonical_schedule 2).dropLast with
        free_packets := (runs (construct 0 9 false 2187 StreamState.Created)
          (canonical_schedule 2).dropLast).free_packets + 1 }).2.packets =
      [{ msg_size := 0, preferred_src := 3, preferred_dest := 3 },
       { msg_size := 0, preferred_src := 6, preferred_dest := 6 }] ∧
    (iteratable (ready { runs (construct 0 9 false 2187 StreamState.Created)
          (canonical_schedule 2).dropLast with
        free_packets := (runs (construct 0 9 false 2187 StreamState.Created)
          (canonical_schedule 2).dropLast).free_packets + 1 }).2).1 = false ∧
    (runs (construct 0 9 false 2187 StreamState.Created)
      (canonical_schedule 2).dropLast).exits = 0 ∧
    (runs (construct 0 9 false 2187 StreamState.Created) (canonical_schedule 2)).exits = 1 ∧
    (runs (construct 0 9 false 2187 StreamState.Created) (canonical_schedule 2)).packets
      = [] := by
  decide

end Trivance
